import Mathlib

/-!
# Viewport transform, frame loop and shader of the wgpu Mandelbrot examples

Shallow embedding of the host-side viewport code (`zoom`, `appResizeArea`,
`updateUniformBuffer`), of the pointer handling and the frame loop
(`checkMouseButtonAction`, `resizeSurface`, `checkTextureStatus`,
`renderImGui`, `mainLoop`) and of the WGSL vertex and fragment stages, taken
from

* `src/mandel_glfw/main.cpp`
* `src/mandel_imgui_glfw/main.cpp`, `src/mandel_imgui_glfw/main_oldStyle.cpp`
* `src/mandel_sdl2/main_js_inline.cpp`

The four files carry the same `zoom` and `appResizeArea` bodies; they differ
only in where the cursor position and the window size are read from. The
frame loop is the native build (`__EMSCRIPTEN__` not defined); the calls it
makes on the graphics API are recorded in program order, what the window
library and the surface return is an input of each tick.

## Arithmetic

The `float` fields are computed in exact rational arithmetic: no rounding and
no overflow. A division by zero does not yield a rational; its IEEE result is
an infinity or a NaN. Both are represented by the single value `FVal.nonfin`,
which every later `+`, `-`, `*` and `/` by a finite divisor keeps non-finite.
Results about computed values are therefore stated for finite values.

The viewport operations are given a second time with every operation rounded
to binary32 (`F32`, `zoom32`, `appResizeArea32`): round to nearest, ties to
even, subnormal numbers, overflow to infinity, NaN. This second form is the
one evaluated where rounding, overflow or underflow decide the outcome; a
general statement that is proved on the exact form names the range of scales
and sizes in which binary32 neither overflows nor underflows.
-/

namespace Mandel

/-! ## Float values in exact arithmetic -/

/-- A `float` in exact arithmetic: a finite rational value, or a non-finite
value (an infinity or a NaN). -/
inductive FVal where
  | fin (q : ℚ)
  | nonfin
deriving DecidableEq

namespace FVal

/-- Sum of two floats, `a + b`. -/
def add : FVal → FVal → FVal
  | fin a, fin b => fin (a + b)
  | _, _ => nonfin

/-- Difference of two floats, `a - b`. -/
def sub : FVal → FVal → FVal
  | fin a, fin b => fin (a - b)
  | _, _ => nonfin

/-- Product of two floats, `a * b`. -/
def mul : FVal → FVal → FVal
  | fin a, fin b => fin (a * b)
  | _, _ => nonfin

/-- Quotient of two floats, `a / b`; dividing by zero gives a non-finite value. -/
def div : FVal → FVal → FVal
  | fin a, fin b => if b = 0 then nonfin else fin (a / b)
  | _, _ => nonfin

instance : Add FVal := ⟨add⟩
instance : Sub FVal := ⟨sub⟩
instance : Mul FVal := ⟨mul⟩
instance : Div FVal := ⟨div⟩

/-- Conversion `float(n)` of a signed integer. -/
def ofInt (n : Int) : FVal := fin n

/-- Conversion `float(n)` of an unsigned integer. -/
def ofNat (n : Nat) : FVal := fin n

/-- Whether the value is a finite number. -/
def isFin : FVal → Bool
  | fin _ => true
  | nonfin => false

end FVal

/-! ## The uniform record and the application state -/

/-- Initial window width, `initialWindowWidth`. -/
def initialWindowWidth : Nat := 512

/-- Initial window height, `initialWindowHeight`. -/
def initialWindowHeight : Nat := 512

/-- The uniform record `struct alignas(16) shaderData_`: six `float` fields,
two `int32_t` fields and one more `float`. -/
structure ShaderData where
  mScaleX : FVal
  mScaleY : FVal
  mTranspX : FVal
  mTranspY : FVal
  wSizeX : FVal
  wSizeY : FVal
  iterations : Int
  nColors : Int
  shift : FVal
deriving DecidableEq

/-- The global `shaderData` with its default member initialisers. -/
def shaderData : ShaderData where
  mScaleX := .fin (3 / 2)
  mScaleY := .fin (3 / 2)
  mTranspX := .fin (-3 / 4)
  mTranspY := .fin 0
  wSizeX := .ofNat initialWindowWidth
  wSizeY := .ofNat initialWindowHeight
  iterations := 256
  nColors := 256
  shift := .fin 0

/-- The constant `zoomFactor = .05`. -/
def zoomFactor : ℚ := 1 / 20

/-- A call made on the graphics API, in program order.
`writeBuffer` is `WriteBuffer(ubo, offset, &shaderData, sizeof(shaderData_))`:
it copies the whole record, as it is at the time of the call, into the uniform
buffer. `configure` is `surface.Configure(&surfaceConfig)` with the size the
configuration holds. The others are the calls of the frame loop:
`wgpuTextureRelease`, the overlay's `ImGui_ImplWGPU_InvalidateDeviceObjects`,
`ImGui_ImplWGPU_CreateDeviceObjects`, frame start (`NewFrame`) and
`ImGui::Render`, `BeginRenderPass` (with whether the load operation is
`Clear`), `SetPipeline(pipeline)`, `SetBindGroup(index, bindGroup)`,
`Draw(vertexCount, instanceCount, firstVertex, firstInstance)`,
`ImGui_ImplWGPU_RenderDrawData`, `pass.End`, `Submit(count, ..)`,
`surface.Present` and `device.Tick`. -/
inductive Event where
  | writeBuffer (offset : Nat) (data : ShaderData)
  | configure (width height : Nat)
  | textureRelease
  | imguiInvalidateDeviceObjects
  | imguiCreateDeviceObjects
  | imguiNewFrame
  | imguiRender
  | beginRenderPass (clear : Bool)
  | setPipeline
  | setBindGroup (index : Nat)
  | draw (vertexCount instanceCount firstVertex firstInstance : Nat)
  | imguiRenderDrawData
  | passEnd
  | submit (count : Nat)
  | present
  | deviceTick
deriving DecidableEq

/-- The mutable state the viewport code works on: the global record, the two
function-local statics `width`, `height` of `appResizeArea` (absent until its
first call initialises them), and the calls made on the graphics API so far,
oldest first. -/
structure App where
  shaderData : ShaderData
  resizePrev : Option (Int × Int)
  queue : List Event
deriving DecidableEq

/-- State at process start: default record, statics not yet initialised, no
queue call made. -/
def App.start : App where
  shaderData := Mandel.shaderData
  resizePrev := none
  queue := []

/-- Conversion of a `uint32_t` to `int` (`width = w`): the value modulo `2^32`
read as a two's complement number. -/
def toInt32 (n : Nat) : Int :=
  if n % 2 ^ 32 < 2 ^ 31 then ((n % 2 ^ 32 : Nat) : Int)
  else ((n % 2 ^ 32 : Nat) : Int) - 2 ^ 32

/-! ## Host operations -/

/-- The function `updateUniformBuffer`: one queue write of the record at offset 0. -/
def updateUniformBuffer (a : App) : App :=
  { a with queue := a.queue ++ [Event.writeBuffer 0 a.shaderData] }

/-- The function `zoom(scale)`. The cursor position `(x, y)` and the size
`(w, h)` are what the window library returns inside the call
(`glfwGetCursorPos` and `glfwGetFramebufferSize`, or `SDL_GetMouseState` and
`SDL_GetWindowSize`, whose integer cursor coordinates are rationals too). -/
def zoom (a : App) (x y : ℚ) (w h : Int) (scale : ℚ) : App :=
  let sd := a.shaderData
  let mScaleX := sd.mScaleX * (FVal.fin 1 + FVal.fin scale)
  let mScaleY := sd.mScaleY * (FVal.fin 1 + FVal.fin scale)
  let mTranspX := sd.mTranspX +
    (FVal.ofInt w * FVal.fin (1 / 2) - FVal.fin x) / (FVal.ofInt w * FVal.fin (1 / 2))
      * FVal.fin scale * mScaleX
  let mTranspY := sd.mTranspY +
    (FVal.ofInt h * FVal.fin (1 / 2) - FVal.fin y) / (FVal.ofInt h * FVal.fin (1 / 2))
      * FVal.fin scale * mScaleY
  updateUniformBuffer
    { a with shaderData :=
        { sd with mScaleX := mScaleX, mScaleY := mScaleY,
                  mTranspX := mTranspX, mTranspY := mTranspY } }

/-- The function `appResizeArea(w, h)` with `uint32_t` arguments. On the first
call the statics are initialised from the arguments; every call then rescales
against the statics and stores the arguments, converted to `int`, in them. -/
def appResizeArea (a : App) (w h : Nat) : App :=
  let sd := a.shaderData
  let prev : Int × Int := a.resizePrev.getD (toInt32 w, toInt32 h)
  let width := prev.1
  let height := prev.2
  let mScaleY := sd.mScaleY +
    (FVal.ofNat h - FVal.ofInt height) * sd.mScaleY / FVal.ofInt height
  let mScaleX := sd.mScaleX +
    (FVal.ofNat w - FVal.ofInt width) * sd.mScaleX / FVal.ofInt width
  updateUniformBuffer
    { a with
      shaderData :=
        { sd with mScaleX := mScaleX, mScaleY := mScaleY,
                  wSizeX := FVal.ofInt (toInt32 w), wSizeY := FVal.ofInt (toInt32 h) }
      resizePrev := some (toInt32 w, toInt32 h) }

/-! ## Fragment shader: pixel to plane -/

/-- First statement of the WGSL fragment stage `fs`, one component of
`sd.mTransp - sd.mScale + position.xy / sd.wSize * (sd.mScale * 2.)`. -/
def fsPlane (mTransp mScale wSize position : FVal) : FVal :=
  mTransp - mScale + position / wSize * (mScale * FVal.fin 2)

/-- The plane point `c` the fragment stage computes for a pixel position; the
shader reads `mScale`, `mTransp` and `wSize` as the pairs of the record's
first six fields. -/
def fsC (sd : ShaderData) (px py : FVal) : FVal × FVal :=
  (fsPlane sd.mTranspX sd.mScaleX sd.wSizeX px, fsPlane sd.mTranspY sd.mScaleY sd.wSizeY py)

/-! ## Derived operations used by the statements -/

/-- A zoom by `-d` followed by a zoom by `+d`, with the cursor and the window
size the same in both calls. -/
def zoomInOut (a : App) (x y : ℚ) (w h : Int) (d : ℚ) : App :=
  zoom (zoom a x y w h (-d)) x y w h d

/-- The four viewport fields of the record agree. -/
def sameViewport (r s : ShaderData) : Prop :=
  r.mScaleX = s.mScaleX ∧ r.mScaleY = s.mScaleY ∧
    r.mTranspX = s.mTranspX ∧ r.mTranspY = s.mTranspY

instance (r s : ShaderData) : Decidable (sameViewport r s) := by
  unfold sameViewport; infer_instance

/-- The state right after startup: the default record with the statics of
`appResizeArea` holding the initial 512 x 512 size. -/
def App.started : App :=
  { App.start with resizePrev := some (512, 512) }

/-! ## Pointer buttons -/

/-- The function `checkMouseButtonAction` of `mandel_glfw/main.cpp`; `left` and
`right` say whether `glfwGetMouseButton` returns `GLFW_PRESS` for the left and
for the right button. -/
def checkMouseButtonAction (a : App) (left right : Bool) (x y : ℚ) (w h : Int) : App :=
  if left then zoom a x y w h (-zoomFactor)
  else if right then zoom a x y w h zoomFactor
  else a

/-- The function `checkMouseButtonAction` of the overlay variant
(`mandel_imgui_glfw/main.cpp` and `main_oldStyle.cpp`); `mouseCaptured` is
`ImGui::GetIO().WantCaptureMouse`. -/
def checkMouseButtonActionImGui (a : App) (mouseCaptured left right : Bool)
    (x y : ℚ) (w h : Int) : App :=
  if !mouseCaptured && left then zoom a x y w h (-zoomFactor)
  else if !mouseCaptured && right then zoom a x y w h zoomFactor
  else a

/-- Button index `SDL_BUTTON_LEFT` of SDL2. -/
def SDL_BUTTON_LEFT : Nat := 1

/-- Button index `SDL_BUTTON_MIDDLE` of SDL2. -/
def SDL_BUTTON_MIDDLE : Nat := 2

/-- Button index `SDL_BUTTON_RIGHT` of SDL2. -/
def SDL_BUTTON_RIGHT : Nat := 3

/-- The SDL2 header's `SDL_BUTTON(X)`, `1 << (X - 1)`: the bit of button `X` in
the mask `SDL_GetMouseState` returns. -/
def SDL_BUTTON (x : Nat) : Nat := 1 <<< (x - 1)

/-- The function `checkMouseButtonAction` of `mandel_sdl2/main_js_inline.cpp`;
`buttons` is the button mask `SDL_GetMouseState` returns, compared as a whole
with the mask of one button. The cursor coordinates are `int`. -/
def checkMouseButtonActionSDL (a : App) (buttons : Nat) (x y : Int) (w h : Int) : App :=
  if buttons = SDL_BUTTON SDL_BUTTON_LEFT then zoom a x y w h (-zoomFactor)
  else if buttons = SDL_BUTTON SDL_BUTTON_RIGHT then zoom a x y w h zoomFactor
  else a

/-! ## Frame loop of the GLFW variants (native build) -/

/-- Conversion of an `int` to `uint32_t`: the value modulo `2^32`. -/
def toUInt32 (n : Int) : Nat := (n % 2 ^ 32).toNat

/-- Status of `wgpuSurfaceGetCurrentTexture` as the `switch` of
`checkTextureStatus` tells the values apart in the native build; `other` is
any value that reaches `default:`. -/
inductive TextureStatus where
  | successOptimal
  | successSuboptimal
  | timeout
  | outdated
  | lost
  | other
deriving DecidableEq

/-- What the window library, the surface and the overlay return during one
tick of `mainLoop`: the two button states, the cursor position and the
framebuffer size read inside `zoom`, the framebuffer size read in `mainLoop`,
the status and the texture handle (`none` is the null handle) of the acquired
surface texture, the framebuffer size read in `checkTextureStatus`, and for
the overlay variant `WantCaptureMouse`, the result of `ImGui::Begin` and the
value a slider was moved to (`none`: the slider returns `false` and leaves its
variable). -/
structure Tick where
  left : Bool
  right : Bool
  cursorX : ℚ
  cursorY : ℚ
  zoomW : Int
  zoomH : Int
  width : Int
  height : Int
  status : TextureStatus
  texture : Option Nat
  checkW : Int
  checkH : Int
  mouseCaptured : Bool
  beginOpen : Bool
  sliderIterations : Option Int
  sliderNColors : Option Int
  sliderShift : Option ℚ

/-- The state of the frame loop: the viewport state and the size held in the
global `surfaceConfig` (`uint32_t` width and height). -/
structure Loop where
  app : App
  surfaceWidth : Nat
  surfaceHeight : Nat
deriving DecidableEq

/-- Append calls to the record of graphics API calls. -/
def Loop.emit (l : Loop) (es : List Event) : Loop :=
  { l with app := { l.app with queue := l.app.queue ++ es } }

/-- State before `initWGPU`: the start state of the viewport code and a
value-initialised `surfaceConfig`. -/
def Loop.start : Loop where
  app := App.start
  surfaceWidth := 0
  surfaceHeight := 0

/-- The surface part of the native `initWGPU`: the configuration takes the
initial window size and the surface is configured with it. -/
def initWGPU (l : Loop) : Loop :=
  Loop.emit { l with surfaceWidth := initialWindowWidth, surfaceHeight := initialWindowHeight }
    [Event.configure initialWindowWidth initialWindowHeight]

/-- The native branch of `initMandel`:
`appResizeArea(surfaceConfig.width, surfaceConfig.height)`. -/
def initMandel (l : Loop) : Loop :=
  { l with app := appResizeArea l.app l.surfaceWidth l.surfaceHeight }

/-- The function `resizeSurface(width, height)` of `mandel_glfw/main.cpp`. -/
def resizeSurface (l : Loop) (width height : Nat) : Loop :=
  Loop.emit { l with surfaceWidth := width, surfaceHeight := height }
    [Event.configure width height]

/-- The function `resizeSurface(width, height)` of the overlay variant, which
also drops and recreates the overlay's device objects. -/
def resizeSurfaceImGui (l : Loop) (width height : Nat) : Loop :=
  Loop.emit { l with surfaceWidth := width, surfaceHeight := height }
    [Event.imguiInvalidateDeviceObjects, Event.configure width height,
      Event.imguiCreateDeviceObjects]

/-- The block "React to changes in screen size" of `mainLoop` in
`mandel_glfw/main.cpp`: the sampled `int` size is compared with the `uint32_t`
configuration after conversion to `uint32_t`, and passed on converted. -/
def reactToResize (l : Loop) (width height : Int) : Loop :=
  if toUInt32 width ≠ l.surfaceWidth ∨ toUInt32 height ≠ l.surfaceHeight then
    let l1 := resizeSurface l (toUInt32 width) (toUInt32 height)
    { l1 with app := appResizeArea l1.app (toUInt32 width) (toUInt32 height) }
  else l

/-- The block "React to changes in screen size" of `mainLoop` in the overlay
variant. -/
def reactToResizeImGui (l : Loop) (width height : Int) : Loop :=
  if toUInt32 width ≠ l.surfaceWidth ∨ toUInt32 height ≠ l.surfaceHeight then
    let l1 := resizeSurfaceImGui l (toUInt32 width) (toUInt32 height)
    { l1 with app := appResizeArea l1.app (toUInt32 width) (toUInt32 height) }
  else l

/-- The function `checkTextureStatus` of `mandel_glfw/main.cpp`, native build:
`SuccessOptimal` returns the texture; `SuccessSuboptimal` falls through to
`Timeout`, `Outdated` and `Lost`, which reconfigure the surface when the
framebuffer size is positive and return null; any other status returns null. -/
def checkTextureStatus (l : Loop) (t : Tick) : Loop × Option Nat :=
  match t.status with
  | .successOptimal => (l, t.texture)
  | .successSuboptimal | .timeout | .outdated | .lost =>
    if t.checkW > 0 ∧ t.checkH > 0 then
      (Loop.emit { l with surfaceWidth := toUInt32 t.checkW, surfaceHeight := toUInt32 t.checkH }
        [Event.configure (toUInt32 t.checkW) (toUInt32 t.checkH)], none)
    else (l, none)
  | .other => (l, none)

/-- The block the cases `SuccessSuboptimal`, `Timeout`, `Outdated` and `Lost`
share in `checkTextureStatus` of `mandel_imgui_glfw/main.cpp`: release the
texture if there is one, reconfigure the surface when the framebuffer size is
positive, return null. -/
def staleTextureImGui (l : Loop) (t : Tick) : Loop × Option Nat :=
  let l1 := if t.texture.isSome then Loop.emit l [Event.textureRelease] else l
  if t.checkW > 0 ∧ t.checkH > 0 then
    (Loop.emit { l1 with surfaceWidth := toUInt32 t.checkW, surfaceHeight := toUInt32 t.checkH }
      [Event.configure (toUInt32 t.checkW) (toUInt32 t.checkH)], none)
  else (l1, none)

/-- The function `checkTextureStatus` of `mandel_imgui_glfw/main.cpp`, native
build with assertions compiled out (`NDEBUG`): as above, and a texture handed
out with a status that is not optimal is released first. The `default` case of
the source is `assert(!"Unexpected Surface Texture status error")` followed
by `return nullptr`; with assertions on, that case aborts the process and the
tick does not complete. -/
def checkTextureStatusImGui (l : Loop) (t : Tick) : Loop × Option Nat :=
  match t.status with
  | .successOptimal => (l, t.texture)
  | .successSuboptimal | .timeout | .outdated | .lost => staleTextureImGui l t
  | .other => (l, none)

/-- The function `renderImGui` of the overlay variant: the three sliders write
into the record when moved, and the record is pushed when one of them
reported a change. -/
def renderImGui (l : Loop) (t : Tick) : Loop :=
  let l0 := Loop.emit l [Event.imguiNewFrame]
  let sd := l0.app.shaderData
  let sd1 := if t.beginOpen then
      { sd with iterations := t.sliderIterations.getD sd.iterations,
                nColors := t.sliderNColors.getD sd.nColors,
                shift := (t.sliderShift.map FVal.fin).getD sd.shift }
    else sd
  let isModified := t.beginOpen &&
    (t.sliderIterations.isSome || t.sliderNColors.isSome || t.sliderShift.isSome)
  let l1 := Loop.emit { l0 with app := { l0.app with shaderData := sd1 } } [Event.imguiRender]
  if isModified then { l1 with app := updateUniformBuffer l1.app } else l1

/-- The calls of `mainLoop` in `mandel_glfw/main.cpp` once a texture is at
hand: one render pass that clears the target and draws 4 vertices, 1 instance,
with the pipeline and the bind group, then submit, present and device tick. -/
def renderCalls : List Event :=
  [Event.beginRenderPass true, Event.setPipeline, Event.setBindGroup 0,
    Event.draw 4 1 0 0, Event.passEnd, Event.submit 1, Event.present, Event.deviceTick]

/-- The calls of `mainLoop` in the overlay variant once a texture is at hand;
the overlay's draw data goes into the same pass after the quad. -/
def renderCallsImGui : List Event :=
  [Event.beginRenderPass true, Event.setPipeline, Event.setBindGroup 0,
    Event.draw 4 1 0 0, Event.imguiRenderDrawData, Event.passEnd, Event.submit 1,
    Event.present, Event.deviceTick]

/-- The part of `mainLoop` before the texture is acquired: pointer buttons,
then the reaction to a changed framebuffer size. -/
def handleInput (l : Loop) (t : Tick) : Loop :=
  reactToResize
    { l with app := checkMouseButtonAction l.app t.left t.right t.cursorX t.cursorY
                      t.zoomW t.zoomH }
    t.width t.height

/-- The function `mainLoop` of `mandel_glfw/main.cpp`, native build. -/
def mainLoop (l : Loop) (t : Tick) : Loop :=
  let r := checkTextureStatus (handleInput l t) t
  match r.2 with
  | none => r.1
  | some _ => Loop.emit r.1 renderCalls

/-- The part of the overlay variant's `mainLoop` before the texture is
acquired. -/
def handleInputImGui (l : Loop) (t : Tick) : Loop :=
  reactToResizeImGui
    { l with app := checkMouseButtonActionImGui l.app t.mouseCaptured t.left t.right
                      t.cursorX t.cursorY t.zoomW t.zoomH }
    t.width t.height

/-- The function `mainLoop` of `mandel_imgui_glfw/main.cpp`, native build. -/
def mainLoopImGui (l : Loop) (t : Tick) : Loop :=
  let r := checkTextureStatusImGui (handleInputImGui l t) t
  match r.2 with
  | none => r.1
  | some _ => Loop.emit (renderImGui r.1 t) renderCallsImGui

/-! ## Reading the record of calls -/

/-- Content of the uniform buffer after the recorded calls: the record of the
last `writeBuffer` at offset 0, if there was one. -/
def uboContent : List Event → Option ShaderData
  | [] => none
  | e :: es =>
    match uboContent es with
    | some d => some d
    | none =>
      match e with
      | .writeBuffer 0 d => some d
      | _ => none

/-- Whether a call is a uniform-buffer write. -/
def Event.isWrite : Event → Bool
  | .writeBuffer _ _ => true
  | _ => false

/-- Whether a call encodes, submits or presents a render pass. -/
def Event.isRender : Event → Bool
  | .beginRenderPass _ => true
  | .setPipeline => true
  | .setBindGroup _ => true
  | .draw _ _ _ _ => true
  | .imguiRenderDrawData => true
  | .passEnd => true
  | .submit _ => true
  | .present => true
  | _ => false

/-- Whether a call configures the surface. -/
def Event.isConfigure : Event → Bool
  | .configure _ _ => true
  | _ => false

/-- The calls made by a step that takes the frame loop from `l` to `r`: what
the step appended to the record. -/
def callsSince (l r : Loop) : List Event :=
  r.app.queue.drop l.app.queue.length

/-- The state in which the frame loop starts: `initWGPU`, then `initMandel`. -/
def Loop.ready : Loop := initMandel (initWGPU Loop.start)

/-- A tick in which no button is held and the overlay is left alone, every
read of the framebuffer size gives `(w, h)`, the cursor is at pixel (0, 0), and
the surface hands out texture 1 with the given status. -/
def Tick.quiet (w h : Int) (status : TextureStatus) : Tick where
  left := false
  right := false
  cursorX := 0
  cursorY := 0
  zoomW := w
  zoomH := h
  width := w
  height := h
  status := status
  texture := some 1
  checkW := w
  checkH := h
  mouseCaptured := false
  beginOpen := true
  sliderIterations := none
  sliderNColors := none
  sliderShift := none

/-- The record of calls `r` continues the record `q` by calls none of which
encodes, submits or presents a render pass. -/
def ContinuesWithoutRender (q r : List Event) : Prop :=
  ∃ es, r = q ++ es ∧ ∀ e ∈ es, e.isRender = false

/-- The uniform buffer holds the current record. -/
def Loop.inSync (l : Loop) : Prop :=
  uboContent l.app.queue = some l.app.shaderData

/-! ## Shader: vertex stage -/

/-- The array `pos` of the WGSL vertex stage `vs`. -/
def vsPos : List (ℚ × ℚ) := [(-1, 1), (-1, -1), (1, 1), (1, -1)]

/-- The WGSL vertex stage `vs`: `vec4f(pos[VertexIndex], 0, 1)`, for the
indices the array has. -/
def vs (vertexIndex : Nat) : Option (ℚ × ℚ × ℚ × ℚ) :=
  (vsPos.get? vertexIndex).map fun p => (p.1, p.2, 0, 1)

/-- The triangles of a triangle strip, the topology `initRenderPipeline` sets:
every three consecutive vertices form one. -/
def stripTriangles : List (ℚ × ℚ) → List ((ℚ × ℚ) × (ℚ × ℚ) × (ℚ × ℚ))
  | a :: b :: c :: rest => (a, b, c) :: stripTriangles (b :: c :: rest)
  | _ => []

/-- Twice the signed area of the triangle `a`, `b`, `p`. -/
def edge (a b p : ℚ × ℚ) : ℚ :=
  (b.1 - a.1) * (p.2 - a.2) - (b.2 - a.2) * (p.1 - a.1)

/-- The point `p` lies in the closed triangle `t`: it is on the same side of
all three edges, whichever way round the triangle is given. -/
def inTriangle (t : (ℚ × ℚ) × (ℚ × ℚ) × (ℚ × ℚ)) (p : ℚ × ℚ) : Prop :=
  (0 ≤ edge t.1 t.2.1 p ∧ 0 ≤ edge t.2.1 t.2.2 p ∧ 0 ≤ edge t.2.2 t.1 p) ∨
  (edge t.1 t.2.1 p ≤ 0 ∧ edge t.2.1 t.2.2 p ≤ 0 ∧ edge t.2.2 t.1 p ≤ 0)

/-- The point `p` lies in the clip-space square `[-1, 1] x [-1, 1]`. -/
def inClipSquare (p : ℚ × ℚ) : Prop :=
  -1 ≤ p.1 ∧ p.1 ≤ 1 ∧ -1 ≤ p.2 ∧ p.2 ≤ 1

/-! ## Shader: fragment stage -/

/-- WGSL `clamp(e, 0.0, 1.0)`, which is `min(max(e, 0.0), 1.0)`. -/
def clamp01 (e : ℚ) : ℚ := min (max e 0) 1

/-- The WGSL function `hsl2rgb` on finite components; `fract(e)` is
`e - floor(e)`. -/
def hsl2rgb (h s l : ℚ) : ℚ × ℚ × ℚ :=
  let H := Int.fract h
  let r := clamp01 (|H * 6 - 3| - 1)
  let g := clamp01 (2 - |H * 6 - 2|)
  let b := clamp01 (2 - |H * 6 - 4|)
  let C := (1 - |2 * l - 1|) * s
  ((r - 1 / 2) * C + l, (g - 1 / 2) * C + l, (b - 1 / 2) * C + l)

/-- The loop body's update `z = vec2f(z.x * z.x - z.y * z.y, 2. * z.x * z.y) + c`. -/
def fsStep (c z : ℚ × ℚ) : ℚ × ℚ :=
  (z.1 * z.1 - z.2 * z.2 + c.1, 2 * z.1 * z.2 + c.2)

/-- WGSL `dot(z, z)`. -/
def dot2 (z : ℚ × ℚ) : ℚ := z.1 * z.1 + z.2 * z.2

/-- The `for` loop of the fragment stage `fs`, entered with loop variable `i`
and value `z`: the value of `i` at the `break` (`none` when the loop runs out)
and the number of passes through the body. -/
def fsLoop (c : ℚ × ℚ) (iterations : Int) (i : Int) (z : ℚ × ℚ) : Option Int × Nat :=
  if i < iterations then
    if dot2 (fsStep c z) > 16 then (some i, 1)
    else ((fsLoop c iterations (i + 1) (fsStep c z)).1,
          (fsLoop c iterations (i + 1) (fsStep c z)).2 + 1)
  else (none, 0)
termination_by (iterations - i).toNat
decreasing_by all_goals omega

/-- The fragment stage `fs` once `c` is computed, for finite `c` and `shift`:
`clr` starts at 0 and is set to `f32(i) / f32(sd.nColors)` at the `break`; the
result is the `vec4f`, and `none` when `clr` is not finite. -/
def fsColor (c : ℚ × ℚ) (iterations nColors : Int) (shift : ℚ) : Option (ℚ × ℚ × ℚ × ℚ) :=
  let clr : FVal :=
    match (fsLoop c iterations 1 (0, 0)).1 with
    | some i => FVal.ofInt i / FVal.ofInt nColors
    | none => FVal.fin 0
  match clr with
  | .fin q =>
    if q > 0 then
      some ((hsl2rgb (shift + q) 1 (1 / 2)).1, (hsl2rgb (shift + q) 1 (1 / 2)).2.1,
        (hsl2rgb (shift + q) 1 (1 / 2)).2.2, 1)
    else some (0, 0, 0, 0)
  | .nonfin => none

/-- The WGSL fragment stage `fs` at pixel position `(px, py)`; `none` when
the plane point or the shift is not finite. -/
def fs (sd : ShaderData) (px py : ℚ) : Option (ℚ × ℚ × ℚ × ℚ) :=
  match fsC sd (.fin px) (.fin py), sd.shift with
  | (.fin cx, .fin cy), .fin sh => fsColor (cx, cy) sd.iterations sd.nColors sh
  | _, _ => none

/-- Product of two complex numbers given as pairs. -/
def cmul (a b : ℚ × ℚ) : ℚ × ℚ := (a.1 * b.1 - a.2 * b.2, a.1 * b.2 + a.2 * b.1)

/-- The orbit of the escape-time description: `z_0 = 0` and
`z_i = z_(i-1)^2 + c` in the complex numbers. -/
def orbit (c : ℚ × ℚ) : Nat → ℚ × ℚ
  | 0 => (0, 0)
  | n + 1 => ((cmul (orbit c n) (orbit c n)).1 + c.1, (cmul (orbit c n) (orbit c n)).2 + c.2)

/-- Squared modulus `|z|^2` of a complex number given as a pair. -/
def normSq2 (z : ℚ × ℚ) : ℚ := z.1 ^ 2 + z.2 ^ 2

/-! ## Sequences of viewport operations -/

/-- One call of the viewport code: `zoom(scale)` with the cursor and window
size it reads, or `appResizeArea(w, h)`. -/
inductive ViewOp where
  | zoom (x y : ℚ) (w h : Int) (scale : ℚ)
  | resize (w h : Nat)

/-- Carry out one call on the state. -/
def ViewOp.run (a : App) : ViewOp → App
  | .zoom x y w h scale => Mandel.zoom a x y w h scale
  | .resize w h => appResizeArea a w h

/-- Carry out a sequence of calls, first to last. -/
def runOps (a : App) (ops : List ViewOp) : App :=
  ops.foldl ViewOp.run a

/-- A resize in the sequence has a positive size that fits the `int` statics;
a zoom is any zoom. -/
def ViewOp.resizeFits : ViewOp → Prop
  | .zoom _ _ _ _ _ => True
  | .resize w h => 0 < w ∧ w < 2 ^ 31 ∧ 0 < h ∧ h < 2 ^ 31

/-- A zoom in the sequence has a delta above -1 (as the button zooms
`-zoomFactor` and `+zoomFactor` have); a resize is any resize. -/
def ViewOp.zoomAboveMinusOne : ViewOp → Prop
  | .zoom _ _ _ _ scale => -1 < scale
  | .resize _ _ => True

/-- Carry out a sequence of ticks of `mainLoop`, first to last. -/
def runTicks (l : Loop) (ts : List Tick) : Loop :=
  ts.foldl mainLoop l

/-- Every read of the framebuffer size in the tick gives `(w, h)`. -/
def Tick.readsSize (t : Tick) (w h : Nat) : Prop :=
  t.zoomW = w ∧ t.zoomH = h ∧ t.width = w ∧ t.height = h ∧ t.checkW = w ∧ t.checkH = h

/-- The window size in the record is the configured surface size. -/
def Loop.sizeTracked (l : Loop) : Prop :=
  l.app.shaderData.wSizeX = FVal.ofNat l.surfaceWidth ∧
    l.app.shaderData.wSizeY = FVal.ofNat l.surfaceHeight

/-- Both scale components are finite and strictly positive. -/
def App.positiveScale (a : App) : Prop :=
  ∃ sx sy : ℚ, 0 < sx ∧ 0 < sy ∧
    a.shaderData.mScaleX = .fin sx ∧ a.shaderData.mScaleY = .fin sy

/-- The statics of `appResizeArea` are not initialised or hold a positive size. -/
def App.positivePrev (a : App) : Prop :=
  a.resizePrev = none ∨ ∃ W H : Int, a.resizePrev = some (W, H) ∧ 0 < W ∧ 0 < H

/-- The record has a finite scale and a positive window size, the statics
hold that window size, and the plane extent per pixel is the same on both
axes. -/
def App.squarePixels (a : App) : Prop :=
  ∃ (sx sy : ℚ) (W H : Int), 0 < W ∧ 0 < H ∧
    a.shaderData.mScaleX = .fin sx ∧ a.shaderData.mScaleY = .fin sy ∧
    a.shaderData.wSizeX = .fin W ∧ a.shaderData.wSizeY = .fin H ∧
    a.resizePrev = some (W, H) ∧ sx * H = sy * W

/-! ## The viewport operations in binary32

The definitions above compute with exact rationals. The ones below repeat
`zoom` and `appResizeArea` with every operation rounded to binary32, to
evaluate the code where rounding, overflow or underflow decide the outcome. -/

/-- A binary32 value: a finite number, an infinity with its sign (`true` for
the negative one), or NaN. The sign of a zero is not kept. -/
inductive F32 where
  | fin (q : ℚ)
  | inf (neg : Bool)
  | nan
deriving DecidableEq

namespace F32

/-- The position of the leading binary digit of `n`, with `fuel` steps. -/
def log2Fuel : Nat → Nat → Nat
  | 0, _ => 0
  | fuel + 1, n => if n < 2 then 0 else log2Fuel fuel (n / 2) + 1

/-- One step of the search for the leading binary digit: when `n` has a digit
at position `k` or above, drop the `k` lowest digits and count them. -/
def log2Step (k : Nat) (p : Nat × Nat) : Nat × Nat :=
  if 2 ^ k ≤ p.1 then (p.1 / 2 ^ k, p.2 + k) else p

/-- The position of the leading binary digit of `n` (0 for `n = 0`): by
halving the search interval for `n < 2^1024`, digit by digit above that. -/
def log2 (n : Nat) : Nat :=
  if n < 2 ^ 1024 then
    (log2Step 1 (log2Step 2 (log2Step 4 (log2Step 8 (log2Step 16 (log2Step 32
      (log2Step 64 (log2Step 128 (log2Step 256 (log2Step 512 (n, 0))))))))))).2
  else log2Fuel n n

/-- The binary exponent of the positive rational `a / b`: the `e` with
`2^e ≤ a / b < 2^(e+1)`. -/
def exponent (a b : Nat) : Int :=
  let e0 : Int := (log2 a : Int) - (log2 b : Int)
  if 0 ≤ e0 then (if 2 ^ e0.toNat * b ≤ a then e0 else e0 - 1)
  else (if b ≤ a * 2 ^ (-e0).toNat then e0 else e0 - 1)

/-- Nearest natural number to `num / den`, ties to the even one. -/
def roundEven (num den : Nat) : Nat :=
  if 2 * (num % den) < den then num / den
  else if den < 2 * (num % den) then num / den + 1
  else if (num / den) % 2 = 0 then num / den else num / den + 1

/-- Rounding of an exact result to binary32, to nearest with ties to even. The
magnitude `a / b` is measured in units of `2^k`, where `k` is its binary
exponent (at least -126, which gives the subnormal numbers) less the 23
fraction bits; the rounded count of units `n` gives the magnitude `n * 2^k`,
and an infinity when that reaches `2^128`. -/
def round (q : ℚ) : F32 :=
  if q.num = 0 then fin 0
  else
    let a := q.num.natAbs
    let b := q.den
    let k : Int := max (exponent a b) (-126) - 23
    if 0 ≤ k then
      let n := roundEven a (b * 2 ^ k.toNat)
      if 2 ^ 128 ≤ n * 2 ^ k.toNat then inf (decide (q.num < 0))
      else fin (Rat.divInt (if q.num < 0 then -((n * 2 ^ k.toNat : Nat) : Int)
                            else ((n * 2 ^ k.toNat : Nat) : Int)) 1)
    else
      let n := roundEven (a * 2 ^ (-k).toNat) b
      fin (Rat.divInt (if q.num < 0 then -(n : Int) else (n : Int))
        ((2 ^ (-k).toNat : Nat) : Int))

/-- Sum. -/
def add : F32 → F32 → F32
  | fin a, fin b => round (a + b)
  | fin _, inf s => inf s
  | inf s, fin _ => inf s
  | inf s, inf t => if s = t then inf s else nan
  | _, _ => nan

/-- Negation. -/
def neg : F32 → F32
  | fin a => fin (-a)
  | inf s => inf (!s)
  | nan => nan

/-- Difference. -/
def sub (a b : F32) : F32 := add a (neg b)

/-- Product; zero times infinity is NaN. -/
def mul : F32 → F32 → F32
  | fin a, fin b => round (a * b)
  | fin a, inf s => if a = 0 then nan else inf (xor (decide (a < 0)) s)
  | inf s, fin b => if b = 0 then nan else inf (xor s (decide (b < 0)))
  | inf s, inf t => inf (xor s t)
  | _, _ => nan

/-- Quotient; a nonzero number over zero is an infinity, zero over zero is
NaN (the zero divisors of the code are conversions of the integer 0, hence
positive zeros). -/
def div : F32 → F32 → F32
  | fin a, fin b =>
    if b = 0 then (if a = 0 then nan else inf (decide (a < 0))) else round (a / b)
  | fin _, inf _ => fin 0
  | inf s, fin b => inf (xor s (decide (b < 0)))
  | _, _ => nan

instance : Add F32 := ⟨add⟩
instance : Sub F32 := ⟨sub⟩
instance : Mul F32 := ⟨mul⟩
instance : Div F32 := ⟨div⟩

/-- Conversion of an integer to `float`. -/
def ofInt (n : Int) : F32 := round n

/-- Whether the value is a finite number. -/
def isFin : F32 → Bool
  | fin _ => true
  | _ => false

/-- The comparison `a == b` of the language: false when either side is NaN. -/
def eq : F32 → F32 → Bool
  | fin a, fin b => decide (a = b)
  | inf s, inf t => s == t
  | _, _ => false

/-- The comparison `a > 0`. -/
def pos : F32 → Bool
  | fin a => decide (0 < a)
  | inf s => !s
  | nan => false

end F32

/-- The viewport fields of the record and the statics of `appResizeArea`, held
as binary32 values. -/
structure View32 where
  mScaleX : F32
  mScaleY : F32
  mTranspX : F32
  mTranspY : F32
  wSizeX : F32
  wSizeY : F32
  resizePrev : Option (Int × Int)
deriving DecidableEq

/-- The default record of `mandel_glfw` at process start. -/
def View32.start : View32 where
  mScaleX := F32.round (3 / 2)
  mScaleY := F32.round (3 / 2)
  mTranspX := F32.round (-3 / 4)
  mTranspY := F32.round 0
  wSizeX := F32.ofInt 512
  wSizeY := F32.ofInt 512
  resizePrev := none

/-- The constant `zoomFactor = .05` as a `float`. -/
def zoomFactor32 : F32 := F32.round (1 / 20)

/-- The function `zoom(scale)` with every operation rounded to binary32. -/
def zoom32 (v : View32) (x y : ℚ) (w h : Int) (scale : F32) : View32 :=
  let mScaleX := v.mScaleX * (F32.fin 1 + scale)
  let mScaleY := v.mScaleY * (F32.fin 1 + scale)
  let mTranspX := v.mTranspX +
    (F32.ofInt w * F32.fin (1 / 2) - F32.round x) / (F32.ofInt w * F32.fin (1 / 2))
      * scale * mScaleX
  let mTranspY := v.mTranspY +
    (F32.ofInt h * F32.fin (1 / 2) - F32.round y) / (F32.ofInt h * F32.fin (1 / 2))
      * scale * mScaleY
  { v with mScaleX := mScaleX, mScaleY := mScaleY, mTranspX := mTranspX, mTranspY := mTranspY }

/-- The function `appResizeArea(w, h)` with every operation rounded to
binary32. -/
def appResizeArea32 (v : View32) (w h : Nat) : View32 :=
  let prev : Int × Int := v.resizePrev.getD (toInt32 w, toInt32 h)
  let mScaleY := v.mScaleY +
    (F32.ofInt h - F32.ofInt prev.2) * v.mScaleY / F32.ofInt prev.2
  let mScaleX := v.mScaleX +
    (F32.ofInt w - F32.ofInt prev.1) * v.mScaleX / F32.ofInt prev.1
  { v with mScaleX := mScaleX, mScaleY := mScaleY,
           wSizeX := F32.ofInt (toInt32 w), wSizeY := F32.ofInt (toInt32 h),
           resizePrev := some (toInt32 w, toInt32 h) }

/-- The function `checkMouseButtonAction` of `mandel_glfw/main.cpp` in
binary32. -/
def checkMouseButtonAction32 (v : View32) (left right : Bool) (x y : ℚ) (w h : Int) : View32 :=
  if left then zoom32 v x y w h zoomFactor32.neg
  else if right then zoom32 v x y w h zoomFactor32
  else v

/-- The record when the frame loop starts: the default record after the
startup call `appResizeArea(512, 512)` of `initMandel`. -/
def View32.ready : View32 := appResizeArea32 View32.start 512 512

/-- One tick with the right button held (zoom out) in a 512 x 512 window, the
cursor at the centre. -/
def zoomOutTick (v : View32) : View32 := checkMouseButtonAction32 v false true 256 256 512 512

/-- The record after 1810 ticks with the right button held: the scale is about
`3.378e38`, just below the largest binary32 number. -/
def View32.zoomedOut : View32 where
  mScaleX := .fin 337821015385896918650746912699205025792
  mScaleY := .fin 337821015385896918650746912699205025792
  mTranspX := .fin (-3 / 4)
  mTranspY := .fin 0
  wSizeX := .fin 512
  wSizeY := .fin 512
  resizePrev := some (512, 512)

/-- One tick with the left button held (zoom in) in a 512 x 512 window, the
cursor at the centre. -/
def zoomInTick (v : View32) : View32 := checkMouseButtonAction32 v true false 256 256 512 512

/-- The record after 1976 ticks with the left button held: the scale is
`9 * 2^-149`, a subnormal number that a further zoom in rounds back to
itself. -/
def View32.zoomedIn : View32 where
  mScaleX := .fin (9 / 713623846352979940529142984724747568191373312)
  mScaleY := .fin (9 / 713623846352979940529142984724747568191373312)
  mTranspX := .fin (-3 / 4)
  mTranspY := .fin 0
  wSizeX := .fin 512
  wSizeY := .fin 512
  resizePrev := some (512, 512)

/-- The record after the window has gone from 512 x 512 to 1280 x 600 and two
ticks with the left button held (zoom in), the cursor at the centre
(640, 300). -/
def View32.wideAndZoomed : View32 :=
  checkMouseButtonAction32
    (checkMouseButtonAction32 (appResizeArea32 View32.ready 1280 600)
      true false 640 300 1280 600)
    true false 640 300 1280 600

/-! ## The range in which the exact model stands for binary32 -/

/-- The value is finite and its magnitude is between `2^-100` and `2^100`: far
from the overflow threshold `2^128` and from the subnormal numbers below
`2^-126`, also after a multiplication or a division by a window size. -/
def FVal.inRange : FVal → Prop
  | .fin q => 1 / 2 ^ 100 ≤ |q| ∧ |q| ≤ 2 ^ 100
  | .nonfin => False

/-- Both scale components are in range. -/
def App.scaleInRange (a : App) : Prop :=
  a.shaderData.mScaleX.inRange ∧ a.shaderData.mScaleY.inRange

/-- The scale is in range in every state of the run of `ops` from `a`, the
first and the last included. -/
def runInRange (a : App) : List ViewOp → Prop
  | [] => a.scaleInRange
  | op :: ops => a.scaleInRange ∧ runInRange (op.run a) ops

/-- A resize in the sequence has a size from 1 to 65536 in each dimension,
for which the size arithmetic is exact in binary32 and the ratio of two sizes
is far above the rounding unit; a zoom is any zoom. -/
def ViewOp.resizeSmall : ViewOp → Prop
  | .zoom _ _ _ _ _ => True
  | .resize w h => 0 < w ∧ w ≤ 65536 ∧ 0 < h ∧ h ≤ 65536

/-- A zoom in the sequence has a delta above -1 and at most 1 (as the button
zooms `-zoomFactor` and `+zoomFactor` have); a resize is any resize. -/
def ViewOp.zoomModerate : ViewOp → Prop
  | .zoom _ _ _ _ scale => -1 < scale ∧ scale ≤ 1
  | .resize _ _ => True

/-! ## The function `main` (native build) -/

/-- What the window library reports at one turn of the `while` loop of `main`:
`glfwWindowShouldClose`, whether the window is iconified
(`glfwGetWindowAttrib(fwWindow, GLFW_ICONIFIED) != 0`), and the inputs of the
tick of `mainLoop` that the turn runs. -/
structure Turn where
  shouldClose : Bool
  iconified : Bool
  tick : Tick

/-- The `while` loop of `main` in `mandel_glfw/main.cpp`, run over the turns
observed so far: the exit code once the loop has ended (`none` while it is
still running) and the state reached. -/
def frameLoop (l : Loop) : List Turn → Option Int × Loop
  | [] => (none, l)
  | u :: us => if u.shouldClose then (some 0, l) else frameLoop (mainLoop l u.tick) us

/-- The function `main` of `mandel_glfw/main.cpp`: `-1` when `glfwInit` fails,
`-2` when the window cannot be created, otherwise initialisation and the
frame loop, after which it returns 0. -/
def mainGlfw (glfwInitOk windowOk : Bool) (turns : List Turn) : Option Int × Loop :=
  if !glfwInitOk then (some (-1), Loop.start)
  else if !windowOk then (some (-2), Loop.start)
  else frameLoop (initMandel (initWGPU Loop.start)) turns

/-- The `while` loop of `main` in `mandel_imgui_glfw/main.cpp`: a turn that
finds the window iconified returns `-3` out of `main`; `main_oldStyle.cpp`
has the same `return -3` in its loop. -/
def frameLoopImGui (l : Loop) : List Turn → Option Int × Loop
  | [] => (none, l)
  | u :: us =>
    if u.shouldClose then (some 0, l)
    else if u.iconified then (some (-3), l)
    else frameLoopImGui (mainLoopImGui l u.tick) us

/-- The constant `initialWindowWidth` of the overlay variant
(`mandel_imgui_glfw/main.cpp` and `main_oldStyle.cpp`). -/
def initialWindowWidthImGui : Nat := 768

/-- The constant `initialWindowHeight` of the overlay variant. -/
def initialWindowHeightImGui : Nat := 768

/-- The default-initialised global `shaderData` of the overlay variant: as in
`mandel_glfw`, with the window size taken from the overlay's constants. -/
def shaderDataImGui : ShaderData :=
  { shaderData with wSizeX := .ofNat initialWindowWidthImGui,
                    wSizeY := .ofNat initialWindowHeightImGui }

/-- State of the overlay variant before `initWGPU`. -/
def Loop.startImGui : Loop where
  app := { App.start with shaderData := shaderDataImGui }
  surfaceWidth := 0
  surfaceHeight := 0

/-- The surface part of the native `initWGPU` of the overlay variant. -/
def initWGPUImGui (l : Loop) : Loop :=
  Loop.emit
    { l with surfaceWidth := initialWindowWidthImGui, surfaceHeight := initialWindowHeightImGui }
    [Event.configure initialWindowWidthImGui initialWindowHeightImGui]

/-- The state in which the frame loop of the overlay variant starts. -/
def Loop.readyImGui : Loop := initMandel (initWGPUImGui Loop.startImGui)

/-- The function `main` of `mandel_imgui_glfw/main.cpp`. -/
def mainImGui (glfwInitOk windowOk : Bool) (turns : List Turn) : Option Int × Loop :=
  if !glfwInitOk then (some (-1), Loop.startImGui)
  else if !windowOk then (some (-2), Loop.startImGui)
  else frameLoopImGui (initMandel (initWGPUImGui Loop.startImGui)) turns

/-- The function `mainLoop` of `mandel_imgui_glfw/main_oldStyle.cpp`, native
build: pointer buttons and the reaction to a resize as in `main.cpp`, the
overlay frame (`renderImGuiWindow`), the device tick, and then, without a look
at the status of the acquired texture, the render pass and its submission. -/
def mainLoopOldStyle (l : Loop) (t : Tick) : Loop :=
  Loop.emit (renderImGui (handleInputImGui l t) t)
    [Event.deviceTick, Event.beginRenderPass true, Event.setPipeline, Event.setBindGroup 0,
      Event.draw 4 1 0 0, Event.imguiRenderDrawData, Event.passEnd, Event.submit 1]

/-- The `while` loop of `main` in `main_oldStyle.cpp`: the iconified check,
`mainLoop()`, then `surface.Present()`. -/
def frameLoopOldStyle (l : Loop) : List Turn → Option Int × Loop
  | [] => (none, l)
  | u :: us =>
    if u.shouldClose then (some 0, l)
    else if u.iconified then (some (-3), l)
    else frameLoopOldStyle (Loop.emit (mainLoopOldStyle l u.tick) [Event.present]) us

/-- The function `main` of `mandel_imgui_glfw/main_oldStyle.cpp`. -/
def mainOldStyle (glfwInitOk windowOk : Bool) (turns : List Turn) : Option Int × Loop :=
  if !glfwInitOk then (some (-1), Loop.startImGui)
  else if !windowOk then (some (-2), Loop.startImGui)
  else frameLoopOldStyle (initMandel (initWGPUImGui Loop.startImGui)) turns

/-- The turn that ends the frame loop of the overlay variant, if there is one:
the first turn that finds a close request or an iconified window. -/
def endingTurn (turns : List Turn) : Option Turn :=
  turns.find? (fun u => u.shouldClose || u.iconified)

/-- The exit code that goes with the ending turn: 0 for a close request
(tested first), -3 for an iconified window. -/
def exitCodeOf : Option Turn → Option Int
  | none => none
  | some u => if u.shouldClose then some 0 else some (-3)

/-! ## Arithmetic lemmas -/

namespace FVal

@[simp] theorem fin_add_fin (a b : ℚ) : fin a + fin b = fin (a + b) := rfl
@[simp] theorem fin_sub_fin (a b : ℚ) : fin a - fin b = fin (a - b) := rfl
@[simp] theorem fin_mul_fin (a b : ℚ) : fin a * fin b = fin (a * b) := rfl
@[simp] theorem fin_div_fin (a b : ℚ) :
    fin a / fin b = if b = 0 then nonfin else fin (a / b) := rfl
@[simp] theorem nonfin_add (a : FVal) : nonfin + a = nonfin := rfl
@[simp] theorem add_nonfin (a : FVal) : a + nonfin = nonfin := by cases a <;> rfl
@[simp] theorem nonfin_sub (a : FVal) : nonfin - a = nonfin := rfl
@[simp] theorem sub_nonfin (a : FVal) : a - nonfin = nonfin := by cases a <;> rfl
@[simp] theorem nonfin_mul (a : FVal) : nonfin * a = nonfin := rfl
@[simp] theorem mul_nonfin (a : FVal) : a * nonfin = nonfin := by cases a <;> rfl
@[simp] theorem nonfin_div (a : FVal) : nonfin / a = nonfin := rfl
@[simp] theorem div_nonfin (a : FVal) : a / nonfin = nonfin := by cases a <;> rfl
@[simp] theorem ofInt_eq (n : Int) : ofInt n = fin n := rfl
@[simp] theorem ofNat_eq (n : Nat) : ofNat n = fin n := rfl

end FVal

/-! ## Evaluation in binary32 -/

set_option maxRecDepth 100000 in
/-- Evaluation of the binary32 operations: 1810 ticks with the right button
held, from the record at the start of the frame loop, lead to
`View32.zoomedOut`; the scale has grown by `1.05` per tick to about
`3.378e38`, and the cursor at the centre has left the translation alone. -/
theorem zoomOutTick_1810 : zoomOutTick^[1810] View32.ready = View32.zoomedOut := by
  decide!

set_option maxRecDepth 100000 in
/-- Evaluation of the binary32 operations: 1976 ticks with the left button
held, from the record at the start of the frame loop, lead to
`View32.zoomedIn`; the scale has shrunk by `0.95` per tick down to the
subnormal number `9 * 2^-149`. -/
theorem zoomInTick_1976 : zoomInTick^[1976] View32.ready = View32.zoomedIn := by
  decide!

/-! ## Evaluation lemmas -/

theorem zoom_mScaleX (a : App) (x y : ℚ) (w h : Int) (δ sx : ℚ)
    (hsx : a.shaderData.mScaleX = .fin sx) :
    (zoom a x y w h δ).shaderData.mScaleX = .fin (sx * (1 + δ)) := by
  simp [zoom, updateUniformBuffer, hsx]

theorem zoom_mScaleY (a : App) (x y : ℚ) (w h : Int) (δ sy : ℚ)
    (hsy : a.shaderData.mScaleY = .fin sy) :
    (zoom a x y w h δ).shaderData.mScaleY = .fin (sy * (1 + δ)) := by
  simp [zoom, updateUniformBuffer, hsy]

theorem zoom_mTranspX (a : App) (x y : ℚ) (w h : Int) (δ sx tx : ℚ)
    (hw : w ≠ 0) (hsx : a.shaderData.mScaleX = .fin sx)
    (htx : a.shaderData.mTranspX = .fin tx) :
    (zoom a x y w h δ).shaderData.mTranspX =
      .fin (tx + ((w : ℚ) * (1 / 2) - x) / ((w : ℚ) * (1 / 2)) * δ * (sx * (1 + δ))) := by
  have hw' : (w : ℚ) ≠ 0 := by exact_mod_cast hw
  simp [zoom, updateUniformBuffer, hsx, htx, hw']

theorem zoom_mTranspY (a : App) (x y : ℚ) (w h : Int) (δ sy ty : ℚ)
    (hh : h ≠ 0) (hsy : a.shaderData.mScaleY = .fin sy)
    (hty : a.shaderData.mTranspY = .fin ty) :
    (zoom a x y w h δ).shaderData.mTranspY =
      .fin (ty + ((h : ℚ) * (1 / 2) - y) / ((h : ℚ) * (1 / 2)) * δ * (sy * (1 + δ))) := by
  have hh' : (h : ℚ) ≠ 0 := by exact_mod_cast hh
  simp [zoom, updateUniformBuffer, hsy, hty, hh']

/-! ## Zoom -/

/-- How far `zoom(δ)` moves the plane point under the cursor, on the x axis:
for a finite state whose `wSizeX` is the window width `w ≠ 0`, the point the
shader assigns to the cursor column `x` moves by `k * sx * δ^2`, with
`k = (w/2 - x) / (w/2)` the cursor offset from the centre. -/
theorem zoom_cursor_shift_x (a : App) (sx tx x y δ : ℚ) (w h : Int) (hw : w ≠ 0)
    (hsx : a.shaderData.mScaleX = .fin sx) (htx : a.shaderData.mTranspX = .fin tx)
    (hsize : a.shaderData.wSizeX = FVal.ofInt w) :
    fsPlane a.shaderData.mTranspX a.shaderData.mScaleX a.shaderData.wSizeX (.fin x)
      = .fin (tx - sx + x / w * (sx * 2)) ∧
    fsPlane (zoom a x y w h δ).shaderData.mTranspX (zoom a x y w h δ).shaderData.mScaleX
        (zoom a x y w h δ).shaderData.wSizeX (.fin x)
      = .fin (tx - sx + x / w * (sx * 2) + ((w : ℚ) / 2 - x) / ((w : ℚ) / 2) * sx * δ ^ 2) := by
  have hw' : (w : ℚ) ≠ 0 := by exact_mod_cast hw
  have hs : (zoom a x y w h δ).shaderData.wSizeX = .fin w := hsize
  rw [zoom_mTranspX a x y w h δ sx tx hw hsx htx, zoom_mScaleX a x y w h δ sx hsx, hs,
    hsx, htx, hsize]
  simp only [fsPlane, FVal.ofInt_eq, FVal.fin_div_fin, FVal.fin_mul_fin, FVal.fin_sub_fin,
    FVal.fin_add_fin, hw', if_false, FVal.fin.injEq, true_and]
  field_simp
  ring

/-- C2, evaluated where it fails: with the default record in a 512 x 512
window and the cursor at pixel (0, 0), the shader maps the cursor pixel to
`(-2.25, -1.5)` before `zoom(-zoomFactor)` and to `(-2.24625, -1.49625)` after
it, so the plane point under the cursor has moved. -/
theorem zoom_moves_cursor_point :
    fsC App.start.shaderData (.fin 0) (.fin 0) = (.fin (-9 / 4), .fin (-3 / 2)) ∧
    fsC (zoom App.start 0 0 512 512 (-zoomFactor)).shaderData (.fin 0) (.fin 0) =
      (.fin (-1797 / 800), .fin (-1197 / 800)) ∧
    fsC (zoom App.start 0 0 512 512 (-zoomFactor)).shaderData (.fin 0) (.fin 0) ≠
      fsC App.start.shaderData (.fin 0) (.fin 0) := by
  have e0 : fsC App.start.shaderData (.fin 0) (.fin 0) = (.fin (-9 / 4), .fin (-3 / 2)) := by
    norm_num [fsC, fsPlane, App.start, shaderData, initialWindowWidth, initialWindowHeight]
  have e1 : fsC (zoom App.start 0 0 512 512 (-zoomFactor)).shaderData (.fin 0) (.fin 0) =
      (.fin (-1797 / 800), .fin (-1197 / 800)) := by
    norm_num [fsC, fsPlane, zoom, updateUniformBuffer, App.start, shaderData,
      initialWindowWidth, initialWindowHeight, zoomFactor]
  refine ⟨e0, e1, ?_⟩
  rw [e0, e1]
  norm_num

/-- C6, refuted as stated, in two ways. With a window size of 0 x 0 the centre
is pixel (0, 0), and `zoom(-zoomFactor)` with the cursor there divides zero by
zero, so the translation does not stay at its value. And after 1810 ticks with
the right button held in a 512 x 512 window (scale about `3.378e38`,
translation still -0.75), `zoom(+zoomFactor)` with the cursor at the centre
(256, 256) overflows the scale to infinity, and the zero offset times
infinity makes the translation NaN. -/
theorem zoom_zero_size_centre :
    (zoom App.start 0 0 0 0 (-zoomFactor)).shaderData.mTranspX = FVal.nonfin ∧
    App.start.shaderData.mTranspX = .fin (-3 / 4) ∧
    ¬ ((zoom App.start 0 0 0 0 (-zoomFactor)).shaderData.mTranspX =
          App.start.shaderData.mTranspX ∧
        (zoom App.start 0 0 0 0 (-zoomFactor)).shaderData.mTranspY =
          App.start.shaderData.mTranspY) ∧
    (zoomOutTick^[1810] View32.ready).mTranspX = .fin (-3 / 4) ∧
    (zoom32 (zoomOutTick^[1810] View32.ready) 256 256 512 512 zoomFactor32).mScaleX
      = .inf false ∧
    (zoom32 (zoomOutTick^[1810] View32.ready) 256 256 512 512 zoomFactor32).mTranspX
      = .nan := by
  have e : (zoom App.start 0 0 0 0 (-zoomFactor)).shaderData.mTranspX = FVal.nonfin := by
    simp [zoom, updateUniformBuffer, App.start, shaderData]
  have h32 : (zoomOutTick^[1810] View32.ready).mTranspX = .fin (-3 / 4) ∧
      (zoom32 (zoomOutTick^[1810] View32.ready) 256 256 512 512 zoomFactor32).mScaleX
        = .inf false ∧
      (zoom32 (zoomOutTick^[1810] View32.ready) 256 256 512 512 zoomFactor32).mTranspX
        = .nan := by
    rw [zoomOutTick_1810]
    decide!
  refine ⟨e, rfl, ?_, h32⟩
  rintro ⟨h, -⟩
  rw [e] at h
  simp [App.start, shaderData] at h

/-- C6, amended: for a finite state, a window size with `w ≠ 0` and `h ≠ 0`
and every `δ` for which the multiplied scale stays below `2^127` in magnitude
(so that it does not overflow in binary32), `zoom(δ)` with the cursor at
exactly `(w/2, h/2)` leaves `mTranspX` and `mTranspY` unchanged and multiplies
`mScaleX` and `mScaleY` by `1 + δ`. The bound plays no part in the exact
computation; it keeps the statement to the inputs on which binary32 does not
overflow. -/
theorem zoom_at_centre (a : App) (sx sy tx ty δ : ℚ) (w h : Int)
    (hw : w ≠ 0) (hh : h ≠ 0)
    (hsx : a.shaderData.mScaleX = .fin sx) (hsy : a.shaderData.mScaleY = .fin sy)
    (htx : a.shaderData.mTranspX = .fin tx) (hty : a.shaderData.mTranspY = .fin ty)
    (_hbx : |sx * (1 + δ)| < 2 ^ 127) (_hby : |sy * (1 + δ)| < 2 ^ 127) :
    (zoom a ((w : ℚ) / 2) ((h : ℚ) / 2) w h δ).shaderData.mTranspX = a.shaderData.mTranspX ∧
    (zoom a ((w : ℚ) / 2) ((h : ℚ) / 2) w h δ).shaderData.mTranspY = a.shaderData.mTranspY ∧
    (zoom a ((w : ℚ) / 2) ((h : ℚ) / 2) w h δ).shaderData.mScaleX = .fin (sx * (1 + δ)) ∧
    (zoom a ((w : ℚ) / 2) ((h : ℚ) / 2) w h δ).shaderData.mScaleY = .fin (sy * (1 + δ)) := by
  refine ⟨?_, ?_, zoom_mScaleX a _ _ w h δ sx hsx, zoom_mScaleY a _ _ w h δ sy hsy⟩
  · rw [zoom_mTranspX a _ _ w h δ sx tx hw hsx htx, htx]
    congr 1
    have e : (w : ℚ) * (1 / 2) - (w : ℚ) / 2 = 0 := by ring
    rw [e]; simp
  · rw [zoom_mTranspY a _ _ w h δ sy ty hh hsy hty, hty]
    congr 1
    have e : (h : ℚ) * (1 / 2) - (h : ℚ) / 2 = 0 := by ring
    rw [e]; simp

/-- Witness for C6 (amended): the default record, a 512 x 512 window, the
cursor at the centre (256, 256) and `δ = -zoomFactor`; the translation stays
at `(-0.75, 0)` and the scale becomes `1.5 * 0.95`. -/
theorem zoom_at_centre_witness :
    (zoom App.start 256 256 512 512 (-zoomFactor)).shaderData.mTranspX = .fin (-3 / 4) ∧
    (zoom App.start 256 256 512 512 (-zoomFactor)).shaderData.mTranspY = .fin 0 ∧
    (zoom App.start 256 256 512 512 (-zoomFactor)).shaderData.mScaleX = .fin (3 / 2 * (19 / 20)) ∧
    (zoom App.start 256 256 512 512 (-zoomFactor)).shaderData.mScaleY = .fin (3 / 2 * (19 / 20)) := by
  have e2 : (1 : ℚ) + -zoomFactor = 19 / 20 := by norm_num [zoomFactor]
  have hb : |(3 / 2 : ℚ) * (1 + -zoomFactor)| < 2 ^ 127 := by
    rw [e2, abs_of_pos (by norm_num)]; norm_num
  have h := zoom_at_centre App.start (3 / 2) (3 / 2) (-3 / 4) 0 (-zoomFactor) 512 512
    (by decide) (by decide) rfl rfl rfl rfl hb hb
  have e : ((512 : Int) : ℚ) / 2 = 256 := by norm_num
  rw [e, e2] at h
  exact h

/-! ## Resize -/

theorem toInt32_of_lt (n : Nat) (h : n < 2 ^ 31) : toInt32 n = (n : Int) := by
  have h1 : n % 2 ^ 32 = n := Nat.mod_eq_of_lt (by omega)
  unfold toInt32
  rw [h1, if_pos h]

theorem appResizeArea_resizePrev (a : App) (w h : Nat) :
    (appResizeArea a w h).resizePrev = some (toInt32 w, toInt32 h) := rfl

theorem appResizeArea_mScaleX (a : App) (w h : Nat) (W H : Int) (sx : ℚ)
    (hprev : a.resizePrev = some (W, H)) (hW : W ≠ 0)
    (hsx : a.shaderData.mScaleX = .fin sx) :
    (appResizeArea a w h).shaderData.mScaleX =
      .fin (sx + ((w : ℚ) - (W : ℚ)) * sx / (W : ℚ)) := by
  have hW' : (W : ℚ) ≠ 0 := by exact_mod_cast hW
  simp [appResizeArea, updateUniformBuffer, hprev, hsx, hW']

theorem appResizeArea_mScaleY (a : App) (w h : Nat) (W H : Int) (sy : ℚ)
    (hprev : a.resizePrev = some (W, H)) (hH : H ≠ 0)
    (hsy : a.shaderData.mScaleY = .fin sy) :
    (appResizeArea a w h).shaderData.mScaleY =
      .fin (sy + ((h : ℚ) - (H : ℚ)) * sy / (H : ℚ)) := by
  have hH' : (H : ℚ) ≠ 0 := by exact_mod_cast hH
  simp [appResizeArea, updateUniformBuffer, hprev, hsy, hH']

/-- C4, refuted as stated: from the default record with previous size
512 x 512, `appResizeArea(1024, 512)` does not leave the scale at (1.5, 1.5)
together with the translation at (-0.75, 0). -/
theorem resize_wider_changes_scale :
    ¬ ((appResizeArea App.started 1024 512).shaderData.mScaleX = .fin (3 / 2) ∧
        (appResizeArea App.started 1024 512).shaderData.mScaleY = .fin (3 / 2) ∧
        (appResizeArea App.started 1024 512).shaderData.mTranspX = .fin (-3 / 4) ∧
        (appResizeArea App.started 1024 512).shaderData.mTranspY = .fin 0) := by
  rintro ⟨h, -⟩
  rw [appResizeArea_mScaleX App.started 1024 512 512 512 (3 / 2) rfl (by decide) rfl] at h
  norm_num at h

/-- C4, amended: from the default record with previous size 512 x 512,
`appResizeArea(1024, 512)` doubles `scale.x` to 3.0 along with the width,
leaves `scale.y` at 1.5 and leaves the translation at (-0.75, 0). -/
theorem resize_1024_512 :
    (appResizeArea App.started 1024 512).shaderData.mScaleX = .fin 3 ∧
    (appResizeArea App.started 1024 512).shaderData.mScaleY = .fin (3 / 2) ∧
    (appResizeArea App.started 1024 512).shaderData.mTranspX = .fin (-3 / 4) ∧
    (appResizeArea App.started 1024 512).shaderData.mTranspY = .fin 0 := by
  refine ⟨?_, ?_, rfl, rfl⟩
  · rw [appResizeArea_mScaleX App.started 1024 512 512 512 (3 / 2) rfl (by decide) rfl]
    norm_num
  · rw [appResizeArea_mScaleY App.started 1024 512 512 512 (3 / 2) rfl (by decide) rfl]
    norm_num

/-- C9: for every state and every `(w, h)`, `appResizeArea(w, h)` leaves
`mTranspX` and `mTranspY` exactly as they were. -/
theorem appResizeArea_translation (a : App) (w h : Nat) :
    (appResizeArea a w h).shaderData.mTranspX = a.shaderData.mTranspX ∧
    (appResizeArea a w h).shaderData.mTranspY = a.shaderData.mTranspY :=
  ⟨rfl, rfl⟩

theorem FVal.exists_of_isFin (v : FVal) (h : v.isFin = true) : ∃ q : ℚ, v = .fin q := by
  cases v with
  | fin q => exact ⟨q, rfl⟩
  | nonfin => simp [FVal.isFin] at h

theorem ShaderData.eq_of_fields (r s : ShaderData)
    (h1 : r.mScaleX = s.mScaleX) (h2 : r.mScaleY = s.mScaleY)
    (h3 : r.mTranspX = s.mTranspX) (h4 : r.mTranspY = s.mTranspY)
    (h5 : r.wSizeX = s.wSizeX) (h6 : r.wSizeY = s.wSizeY)
    (h7 : r.iterations = s.iterations) (h8 : r.nColors = s.nColors)
    (h9 : r.shift = s.shift) : r = s := by
  cases r; cases s; simp_all

/-- C5, refuted as stated: after 1810 ticks with the right button held the
scale is finite, about `3.378e38`. A first `appResizeArea(256, 512)` then
overflows in the product `(256 - 512) * mScaleX` and leaves `mScaleX` at minus
infinity, and a second `appResizeArea(256, 512)` computes `0 * (-inf)` and
leaves NaN: the second call does change `mScaleX`. -/
theorem resize_twice_after_overflow :
    (zoomOutTick^[1810] View32.ready).mScaleX
      = .fin 337821015385896918650746912699205025792 ∧
    (appResizeArea32 (zoomOutTick^[1810] View32.ready) 256 512).mScaleX = .inf true ∧
    (appResizeArea32 (appResizeArea32 (zoomOutTick^[1810] View32.ready) 256 512)
      256 512).mScaleX = .nan ∧
    (appResizeArea32 (appResizeArea32 (zoomOutTick^[1810] View32.ready) 256 512)
        256 512).mScaleX
      ≠ (appResizeArea32 (zoomOutTick^[1810] View32.ready) 256 512).mScaleX := by
  rw [zoomOutTick_1810]
  decide!

/-- C5, amended: for every size with `0 < w, h < 2^31` (a size a caller can
pass) and every state as a call `appResizeArea(w, h)` leaves it, that is with
`(w, h)` recorded as the previous size, whose scale is finite, a second
`appResizeArea(w, h)` leaves `mScaleX`, `mScaleY`, `mTranspX` and `mTranspY`
as they are, and with `wSizeX = w`, `wSizeY = h` the whole record; every call
`appResizeArea(w, h)` does leave `(w, h)` recorded and in `wSize`. -/
theorem appResizeArea_twice (b : App) (w h : Nat)
    (hw : 0 < w) (hh : 0 < h) (hw31 : w < 2 ^ 31) (hh31 : h < 2 ^ 31)
    (hprev : b.resizePrev = some ((w : Int), (h : Int)))
    (hfx : b.shaderData.mScaleX.isFin = true)
    (hfy : b.shaderData.mScaleY.isFin = true) :
    (appResizeArea b w h).shaderData.mScaleX = b.shaderData.mScaleX ∧
    (appResizeArea b w h).shaderData.mScaleY = b.shaderData.mScaleY ∧
    (appResizeArea b w h).shaderData.mTranspX = b.shaderData.mTranspX ∧
    (appResizeArea b w h).shaderData.mTranspY = b.shaderData.mTranspY ∧
    (appResizeArea b w h).resizePrev = b.resizePrev ∧
    (b.shaderData.wSizeX = FVal.ofNat w → b.shaderData.wSizeY = FVal.ofNat h →
      (appResizeArea b w h).shaderData = b.shaderData) ∧
    (∀ a : App, (appResizeArea a w h).resizePrev = some ((w : Int), (h : Int)) ∧
      (appResizeArea a w h).shaderData.wSizeX = FVal.ofNat w ∧
      (appResizeArea a w h).shaderData.wSizeY = FVal.ofNat h) := by
  obtain ⟨qx, hqx⟩ := FVal.exists_of_isFin _ hfx
  obtain ⟨qy, hqy⟩ := FVal.exists_of_isFin _ hfy
  have ew := toInt32_of_lt w hw31
  have eh := toInt32_of_lt h hh31
  have hw0 : (w : Int) ≠ 0 := by exact_mod_cast Nat.pos_iff_ne_zero.mp hw
  have hh0 : (h : Int) ≠ 0 := by exact_mod_cast Nat.pos_iff_ne_zero.mp hh
  have ex : (appResizeArea b w h).shaderData.mScaleX = b.shaderData.mScaleX := by
    rw [appResizeArea_mScaleX b w h w h qx hprev hw0 hqx, hqx]
    congr 1
    simp
  have ey : (appResizeArea b w h).shaderData.mScaleY = b.shaderData.mScaleY := by
    rw [appResizeArea_mScaleY b w h w h qy hprev hh0 hqy, hqy]
    congr 1
    simp
  have esx : ∀ a : App, (appResizeArea a w h).shaderData.wSizeX = FVal.ofNat w := by
    intro a
    show FVal.ofInt (toInt32 w) = FVal.ofNat w
    rw [ew]; simp [FVal.ofInt, FVal.ofNat]
  have esy : ∀ a : App, (appResizeArea a w h).shaderData.wSizeY = FVal.ofNat h := by
    intro a
    show FVal.ofInt (toInt32 h) = FVal.ofNat h
    rw [eh]; simp [FVal.ofInt, FVal.ofNat]
  have ep : ∀ a : App, (appResizeArea a w h).resizePrev = some ((w : Int), (h : Int)) := by
    intro a
    rw [appResizeArea_resizePrev, ew, eh]
  refine ⟨ex, ey, rfl, rfl, by rw [ep b, hprev], ?_, fun a => ⟨ep a, esx a, esy a⟩⟩
  intro hsx hsy
  apply ShaderData.eq_of_fields
  · exact ex
  · exact ey
  · rfl
  · rfl
  · rw [esx b, hsx]
  · rw [esy b, hsy]
  all_goals rfl

/-- Witness for C5 (amended): the state that `appResizeArea(800, 600)` leaves
from the start state, and a second call with the same size. -/
theorem appResizeArea_twice_witness :
    (appResizeArea (appResizeArea App.start 800 600) 800 600).shaderData
      = (appResizeArea App.start 800 600).shaderData ∧
    (appResizeArea (appResizeArea App.start 800 600) 800 600).resizePrev
      = (appResizeArea App.start 800 600).resizePrev := by
  have h := appResizeArea_twice (appResizeArea App.start 800 600) 800 600
    (by decide) (by decide) (by decide) (by decide)
    (by rw [appResizeArea_resizePrev]; simp [toInt32])
    (by simp [appResizeArea, updateUniformBuffer, App.start, shaderData, toInt32, FVal.isFin])
    (by simp [appResizeArea, updateUniformBuffer, App.start, shaderData, toInt32, FVal.isFin])
  exact ⟨h.2.2.2.2.2.1 (h.2.2.2.2.2.2 App.start).2.1 (h.2.2.2.2.2.2 App.start).2.2,
    h.2.2.2.2.1⟩

/-! ## Fragment shader -/

/-- C11, evaluated where it fails: in the SDL2 variant the button mask is
compared as a whole, so with the left and the middle button held (mask 3) no
zoom is applied, and likewise with the left and the right button held
(mask 5); the GLFW variant and the overlay variant (pointer not captured)
apply `zoom(-zoomFactor)` as soon as the left button is held. -/
theorem sdl_left_with_other_button_no_zoom (a : App) (x y w h : Int) :
    SDL_BUTTON SDL_BUTTON_LEFT ||| SDL_BUTTON SDL_BUTTON_MIDDLE = 3 ∧
    checkMouseButtonActionSDL a 3 x y w h = a ∧
    SDL_BUTTON SDL_BUTTON_LEFT ||| SDL_BUTTON SDL_BUTTON_RIGHT = 5 ∧
    checkMouseButtonActionSDL a 5 x y w h = a ∧
    checkMouseButtonActionSDL a (SDL_BUTTON SDL_BUTTON_LEFT) x y w h
      = zoom a x y w h (-zoomFactor) ∧
    (∀ right : Bool,
      checkMouseButtonAction a true right x y w h = zoom a x y w h (-zoomFactor) ∧
      checkMouseButtonActionImGui a false true right x y w h
        = zoom a x y w h (-zoomFactor)) := by
  refine ⟨by decide, ?_, by decide, ?_, ?_, ?_⟩
  · have h1 : (3 : Nat) ≠ SDL_BUTTON SDL_BUTTON_LEFT := by decide
    have h2 : (3 : Nat) ≠ SDL_BUTTON SDL_BUTTON_RIGHT := by decide
    simp [checkMouseButtonActionSDL, h1, h2]
  · have h1 : (5 : Nat) ≠ SDL_BUTTON SDL_BUTTON_LEFT := by decide
    have h2 : (5 : Nat) ≠ SDL_BUTTON SDL_BUTTON_RIGHT := by decide
    simp [checkMouseButtonActionSDL, h1, h2]
  · simp [checkMouseButtonActionSDL]
  · intro right
    simp [checkMouseButtonAction, checkMouseButtonActionImGui]

/-- C12: in the overlay variant, for every button state, cursor, window size
and state, a captured pointer (`WantCaptureMouse = true`) makes
`checkMouseButtonAction` return the state as it was: no zoom, the same record
and no further call on the graphics API. -/
theorem captured_pointer_no_zoom (a : App) (left right : Bool) (x y : ℚ) (w h : Int) :
    checkMouseButtonActionImGui a true left right x y w h = a := by
  simp [checkMouseButtonActionImGui]

/-! ## Uniform buffer writes -/

theorem uboContent_append_write (q : List Event) (d : ShaderData) :
    uboContent (q ++ [Event.writeBuffer 0 d]) = some d := by
  induction q with
  | nil => rfl
  | cons e es ih => simp [uboContent, ih]

theorem uboContent_append_of_no_write (q es : List Event)
    (h : ∀ e ∈ es, e.isWrite = false) : uboContent (q ++ es) = uboContent q := by
  induction q with
  | nil =>
    induction es with
    | nil => rfl
    | cons e es ih =>
      have he : e.isWrite = false := h e (List.mem_cons_self _ _)
      have ih2 := ih (fun e2 h2 => h e2 (List.mem_cons_of_mem _ h2))
      simp only [List.nil_append] at ih2 ⊢
      cases e <;> simp_all [uboContent, Event.isWrite]
  | cons e q ih => simp [uboContent, ih]

/-- C17: every call of `zoom(δ)` and every call of `appResizeArea(w, h)`
appends exactly one call to the record of graphics API calls, a write of the
whole record at offset 0, and the written data is the record as the call
leaves it; so right after either call the uniform buffer holds the current
record. -/
theorem zoom_resize_push_record (a : App) (x y : ℚ) (w h : Int) (δ : ℚ) (n m : Nat) :
    (zoom a x y w h δ).queue
      = a.queue ++ [Event.writeBuffer 0 (zoom a x y w h δ).shaderData] ∧
    uboContent (zoom a x y w h δ).queue = some (zoom a x y w h δ).shaderData ∧
    (appResizeArea a n m).queue
      = a.queue ++ [Event.writeBuffer 0 (appResizeArea a n m).shaderData] ∧
    uboContent (appResizeArea a n m).queue = some (appResizeArea a n m).shaderData := by
  have hz : (zoom a x y w h δ).queue
      = a.queue ++ [Event.writeBuffer 0 (zoom a x y w h δ).shaderData] := rfl
  have hr : (appResizeArea a n m).queue
      = a.queue ++ [Event.writeBuffer 0 (appResizeArea a n m).shaderData] := rfl
  refine ⟨hz, ?_, hr, ?_⟩
  · rw [hz]; exact uboContent_append_write _ _
  · rw [hr]; exact uboContent_append_write _ _

/-! ## Frame loop: resize detection -/

theorem toUInt32_natCast (n : Nat) (h : n < 2 ^ 31) : toUInt32 (n : Int) = n := by
  unfold toUInt32
  have h1 : ((n : Int) % 2 ^ 32) = (n : Int) :=
    Int.emod_eq_of_lt (Int.natCast_nonneg n) (by omega)
  rw [h1]; simp

theorem callsSince_of_append (l r : Loop) (es : List Event)
    (h : r.app.queue = l.app.queue ++ es) : callsSince l r = es := by
  simp [callsSince, h]

/-- C15: for every sampled framebuffer size `(w, h)` (a non-negative `int`
pair) and every configured surface size, the resize block of `mainLoop` calls
`resizeSurface(w, h)` followed by `appResizeArea(w, h)` when `(w, h)` differs
from the configured size, making exactly the two calls `Configure` and the
record write, and does nothing at all when the sizes are equal; afterwards the
configured size is the sampled size. -/
theorem reactToResize_spec (l : Loop) (w h : Nat) (hw : w < 2 ^ 31) (hh : h < 2 ^ 31) :
    ((w, h) ≠ (l.surfaceWidth, l.surfaceHeight) →
      reactToResize l w h
        = { resizeSurface l w h with app := appResizeArea (resizeSurface l w h).app w h } ∧
      callsSince l (reactToResize l w h)
        = [Event.configure w h, Event.writeBuffer 0 (reactToResize l w h).app.shaderData]) ∧
    ((w, h) = (l.surfaceWidth, l.surfaceHeight) → reactToResize l w h = l) ∧
    (reactToResize l w h).surfaceWidth = w ∧ (reactToResize l w h).surfaceHeight = h := by
  have ew := toUInt32_natCast w hw
  have eh := toUInt32_natCast h hh
  by_cases hc : w ≠ l.surfaceWidth ∨ h ≠ l.surfaceHeight
  · have hr : reactToResize l w h
        = { resizeSurface l w h with app := appResizeArea (resizeSurface l w h).app w h } := by
      simp only [reactToResize, ew, eh, if_pos hc]
    refine ⟨fun _ => ⟨hr, ?_⟩, ?_, ?_, ?_⟩
    · apply callsSince_of_append
      rw [hr]
      simp [resizeSurface, Loop.emit, appResizeArea, updateUniformBuffer]
    · intro he
      simp only [Prod.mk.injEq] at he
      rcases hc with hc | hc
      · exact absurd he.1 hc
      · exact absurd he.2 hc
    · rw [hr]; rfl
    · rw [hr]; rfl
  · have hr : reactToResize l w h = l := by
      simp only [reactToResize, ew, eh, if_neg hc]
    have hc2 : w = l.surfaceWidth ∧ h = l.surfaceHeight := by
      constructor
      · by_contra hne; exact hc (Or.inl hne)
      · by_contra hne; exact hc (Or.inr hne)
    refine ⟨fun hne => ?_, fun _ => hr, ?_, ?_⟩
    · exact absurd (by rw [hc2.1, hc2.2]) hne
    · rw [hr]; exact hc2.1.symm
    · rw [hr]; exact hc2.2.symm

/-- Witness for C15: the ready state (surface 512 x 512) with a sampled
framebuffer size of 800 x 600. -/
theorem reactToResize_spec_witness :
    callsSince Loop.ready (reactToResize Loop.ready 800 600)
        = [Event.configure 800 600,
            Event.writeBuffer 0 (reactToResize Loop.ready 800 600).app.shaderData] ∧
    (reactToResize Loop.ready 800 600).surfaceWidth = 800 ∧
    (reactToResize Loop.ready 800 600).surfaceHeight = 600 ∧
    reactToResize Loop.ready 512 512 = Loop.ready := by
  have h1 := reactToResize_spec Loop.ready 800 600 (by decide) (by decide)
  have h2 := reactToResize_spec Loop.ready 512 512 (by decide) (by decide)
  refine ⟨(h1.1 (by decide)).2, h1.2.2.1, h1.2.2.2, ?_⟩
  exact h2.2.1 rfl

/-! ## Frame loop: the calls of one tick -/

theorem ContinuesWithoutRender.refl (q : List Event) : ContinuesWithoutRender q q :=
  ⟨[], by simp, by simp⟩

theorem ContinuesWithoutRender.trans {q r s : List Event}
    (h1 : ContinuesWithoutRender q r) (h2 : ContinuesWithoutRender r s) :
    ContinuesWithoutRender q s := by
  obtain ⟨es1, e1, n1⟩ := h1
  obtain ⟨es2, e2, n2⟩ := h2
  refine ⟨es1 ++ es2, by rw [e2, e1, List.append_assoc], ?_⟩
  intro e he
  rcases List.mem_append.mp he with h | h
  · exact n1 e h
  · exact n2 e h

theorem ContinuesWithoutRender.append (q es : List Event)
    (h : ∀ e ∈ es, e.isRender = false) : ContinuesWithoutRender q (q ++ es) :=
  ⟨es, rfl, h⟩

theorem checkMouseButtonAction_continues (a : App) (left right : Bool) (x y : ℚ) (w h : Int) :
    ContinuesWithoutRender a.queue (checkMouseButtonAction a left right x y w h).queue := by
  unfold checkMouseButtonAction
  split_ifs
  · exact ContinuesWithoutRender.append _ _ (by simp [Event.isRender])
  · exact ContinuesWithoutRender.append _ _ (by simp [Event.isRender])
  · exact ContinuesWithoutRender.refl _

theorem checkMouseButtonActionImGui_continues (a : App) (c left right : Bool) (x y : ℚ)
    (w h : Int) :
    ContinuesWithoutRender a.queue (checkMouseButtonActionImGui a c left right x y w h).queue := by
  unfold checkMouseButtonActionImGui
  split_ifs
  · exact ContinuesWithoutRender.append _ _ (by simp [Event.isRender])
  · exact ContinuesWithoutRender.append _ _ (by simp [Event.isRender])
  · exact ContinuesWithoutRender.refl _

theorem appResizeArea_continues (a : App) (w h : Nat) :
    ContinuesWithoutRender a.queue (appResizeArea a w h).queue :=
  ⟨[Event.writeBuffer 0 (appResizeArea a w h).shaderData], rfl, by simp [Event.isRender]⟩

theorem resizeSurface_continues (l : Loop) (w h : Nat) :
    ContinuesWithoutRender l.app.queue (resizeSurface l w h).app.queue :=
  ⟨[Event.configure w h], rfl, by simp [Event.isRender]⟩

theorem resizeSurfaceImGui_continues (l : Loop) (w h : Nat) :
    ContinuesWithoutRender l.app.queue (resizeSurfaceImGui l w h).app.queue :=
  ⟨[Event.imguiInvalidateDeviceObjects, Event.configure w h, Event.imguiCreateDeviceObjects],
    rfl, by simp [Event.isRender]⟩

theorem reactToResize_continues (l : Loop) (w h : Int) :
    ContinuesWithoutRender l.app.queue (reactToResize l w h).app.queue := by
  unfold reactToResize
  split_ifs
  · exact (resizeSurface_continues l _ _).trans (appResizeArea_continues _ _ _)
  · exact ContinuesWithoutRender.refl _

theorem reactToResizeImGui_continues (l : Loop) (w h : Int) :
    ContinuesWithoutRender l.app.queue (reactToResizeImGui l w h).app.queue := by
  unfold reactToResizeImGui
  split_ifs
  · exact (resizeSurfaceImGui_continues l _ _).trans (appResizeArea_continues _ _ _)
  · exact ContinuesWithoutRender.refl _

theorem handleInput_continues (l : Loop) (t : Tick) :
    ContinuesWithoutRender l.app.queue (handleInput l t).app.queue :=
  (checkMouseButtonAction_continues l.app t.left t.right t.cursorX t.cursorY t.zoomW
    t.zoomH).trans (reactToResize_continues _ _ _)

theorem handleInputImGui_continues (l : Loop) (t : Tick) :
    ContinuesWithoutRender l.app.queue (handleInputImGui l t).app.queue :=
  (checkMouseButtonActionImGui_continues l.app t.mouseCaptured t.left t.right t.cursorX
    t.cursorY t.zoomW t.zoomH).trans (reactToResizeImGui_continues _ _ _)

theorem checkTextureStatus_continues (l : Loop) (t : Tick) :
    ContinuesWithoutRender l.app.queue (checkTextureStatus l t).1.app.queue := by
  unfold checkTextureStatus
  split
  · exact ContinuesWithoutRender.refl _
  all_goals first
    | exact ContinuesWithoutRender.refl _
    | (split_ifs
       · exact ContinuesWithoutRender.append _ _ (by simp [Event.isRender])
       · exact ContinuesWithoutRender.refl _)

theorem checkTextureStatus_texture (l : Loop) (t : Tick) :
    (checkTextureStatus l t).2 = if t.status = .successOptimal then t.texture else none := by
  unfold checkTextureStatus
  cases hs : t.status <;> simp <;> split_ifs <;> rfl

theorem staleTextureImGui_continues (l : Loop) (t : Tick) :
    ContinuesWithoutRender l.app.queue (staleTextureImGui l t).1.app.queue := by
  by_cases hp : t.checkW > 0 ∧ t.checkH > 0 <;> by_cases ht : t.texture.isSome = true
  · exact ⟨[Event.textureRelease, Event.configure (toUInt32 t.checkW) (toUInt32 t.checkH)],
      by simp [staleTextureImGui, hp, ht, Loop.emit], by simp [Event.isRender]⟩
  · exact ⟨[Event.configure (toUInt32 t.checkW) (toUInt32 t.checkH)],
      by simp [staleTextureImGui, hp, ht, Loop.emit], by simp [Event.isRender]⟩
  · exact ⟨[Event.textureRelease],
      by simp [staleTextureImGui, hp, ht, Loop.emit], by simp [Event.isRender]⟩
  · exact ⟨[], by simp [staleTextureImGui, hp, ht], by simp⟩

theorem staleTextureImGui_texture (l : Loop) (t : Tick) :
    (staleTextureImGui l t).2 = none := by
  unfold staleTextureImGui
  simp only []
  split_ifs <;> rfl

theorem checkTextureStatusImGui_continues (l : Loop) (t : Tick) :
    ContinuesWithoutRender l.app.queue (checkTextureStatusImGui l t).1.app.queue := by
  unfold checkTextureStatusImGui
  split
  · exact ContinuesWithoutRender.refl _
  all_goals first
    | exact ContinuesWithoutRender.refl _
    | exact staleTextureImGui_continues l t

theorem checkTextureStatusImGui_texture (l : Loop) (t : Tick) :
    (checkTextureStatusImGui l t).2
      = if t.status = .successOptimal then t.texture else none := by
  unfold checkTextureStatusImGui
  cases hs : t.status <;> simp [staleTextureImGui_texture]

theorem renderImGui_queue (l : Loop) (t : Tick) :
    (renderImGui l t).app.queue
      = l.app.queue ++ ([Event.imguiNewFrame, Event.imguiRender] ++
          if (t.beginOpen &&
              (t.sliderIterations.isSome || t.sliderNColors.isSome || t.sliderShift.isSome))
              = true
          then [Event.writeBuffer 0 (renderImGui l t).app.shaderData] else []) := by
  by_cases hm : (t.beginOpen &&
      (t.sliderIterations.isSome || t.sliderNColors.isSome || t.sliderShift.isSome)) = true
  · simp only [renderImGui, hm, if_true, Loop.emit, updateUniformBuffer, List.append_assoc,
      List.singleton_append, List.cons_append, List.nil_append]
  · simp only [renderImGui, hm, if_false, Loop.emit, List.append_assoc,
      List.singleton_append, List.cons_append, List.nil_append, List.append_nil]
    simp

theorem renderImGui_continues (l : Loop) (t : Tick) :
    ContinuesWithoutRender l.app.queue (renderImGui l t).app.queue := by
  refine ⟨_, renderImGui_queue l t, ?_⟩
  intro e he
  split_ifs at he
  · simp at he
    rcases he with h | h | h <;> (subst h; rfl)
  · simp at he
    rcases he with h | h <;> (subst h; rfl)

theorem mainLoop_of_texture (l : Loop) (t : Tick) (tex : Nat)
    (hs : t.status = .successOptimal) (ht : t.texture = some tex) :
    mainLoop l t = Loop.emit (handleInput l t) renderCalls := by
  have h2 := checkTextureStatus_texture (handleInput l t) t
  rw [if_pos hs, ht] at h2
  have h1 : (checkTextureStatus (handleInput l t) t).1 = handleInput l t := by
    simp [checkTextureStatus, hs]
  simp only [mainLoop, h2, h1]

theorem mainLoop_of_no_texture (l : Loop) (t : Tick)
    (h : ¬ (t.status = .successOptimal ∧ t.texture.isSome = true)) :
    mainLoop l t = (checkTextureStatus (handleInput l t) t).1 := by
  have h2 := checkTextureStatus_texture (handleInput l t) t
  have h3 : (checkTextureStatus (handleInput l t) t).2 = none := by
    rw [h2]
    by_cases hs : t.status = .successOptimal
    · rw [if_pos hs]
      cases ht : t.texture with
      | none => rfl
      | some v => exact absurd ⟨hs, by simp [ht]⟩ h
    · rw [if_neg hs]
  simp only [mainLoop, h3]

theorem mainLoopImGui_of_texture (l : Loop) (t : Tick) (tex : Nat)
    (hs : t.status = .successOptimal) (ht : t.texture = some tex) :
    mainLoopImGui l t = Loop.emit (renderImGui (handleInputImGui l t) t) renderCallsImGui := by
  have h2 := checkTextureStatusImGui_texture (handleInputImGui l t) t
  rw [if_pos hs, ht] at h2
  have h1 : (checkTextureStatusImGui (handleInputImGui l t) t).1 = handleInputImGui l t := by
    simp [checkTextureStatusImGui, hs]
  simp only [mainLoopImGui, h2, h1]

theorem mainLoopImGui_of_no_texture (l : Loop) (t : Tick)
    (h : ¬ (t.status = .successOptimal ∧ t.texture.isSome = true)) :
    mainLoopImGui l t = (checkTextureStatusImGui (handleInputImGui l t) t).1 := by
  have h2 := checkTextureStatusImGui_texture (handleInputImGui l t) t
  have h3 : (checkTextureStatusImGui (handleInputImGui l t) t).2 = none := by
    rw [h2]
    by_cases hs : t.status = .successOptimal
    · rw [if_pos hs]
      cases ht : t.texture with
      | none => rfl
      | some v => exact absurd ⟨hs, by simp [ht]⟩ h
    · rw [if_neg hs]
  simp only [mainLoopImGui, h3]

theorem no_render_of_append_renderCalls (pre es : List Event)
    (h : es = pre ++ renderCalls) (hn : ∀ e ∈ es, e.isRender = false) : False := by
  have hm : Event.beginRenderPass true ∈ es := by rw [h]; simp [renderCalls]
  have := hn _ hm
  simp [Event.isRender] at this

theorem no_render_of_append_renderCallsImGui (pre es : List Event)
    (h : es = pre ++ renderCallsImGui) (hn : ∀ e ∈ es, e.isRender = false) : False := by
  have hm : Event.beginRenderPass true ∈ es := by rw [h]; simp [renderCallsImGui]
  have := hn _ hm
  simp [Event.isRender] at this

theorem skipped_tick_no_render (l : Loop) (t : Tick)
    (h : ¬ (t.status = .successOptimal ∧ t.texture.isSome = true)) :
    (∀ e ∈ callsSince l (mainLoop l t), e.isRender = false) ∧
    (∀ e ∈ callsSince l (mainLoopImGui l t), e.isRender = false) := by
  obtain ⟨es, he, hn⟩ :=
    (handleInput_continues l t).trans (checkTextureStatus_continues (handleInput l t) t)
  obtain ⟨es2, he2, hn2⟩ :=
    (handleInputImGui_continues l t).trans
      (checkTextureStatusImGui_continues (handleInputImGui l t) t)
  constructor
  · rw [callsSince_of_append l _ es (by rw [mainLoop_of_no_texture l t h, he])]
    exact hn
  · rw [callsSince_of_append l _ es2 (by rw [mainLoopImGui_of_no_texture l t h, he2])]
    exact hn2

/-- C13, refuted as stated: the status `SuccessSuboptimal` is none of
`Timeout`, `Outdated`, `Lost`, yet a tick that gets it (with a texture, the
framebuffer at its startup size, no button held) only reconfigures the
surface: neither variant encodes a pass, submits or presents. -/
theorem suboptimal_tick_draws_nothing :
    (Tick.quiet 512 512 .successSuboptimal).status ≠ .timeout ∧
    (Tick.quiet 512 512 .successSuboptimal).status ≠ .outdated ∧
    (Tick.quiet 512 512 .successSuboptimal).status ≠ .lost ∧
    callsSince Loop.ready (mainLoop Loop.ready (Tick.quiet 512 512 .successSuboptimal))
      = [Event.configure 512 512] ∧
    callsSince Loop.readyImGui
        (mainLoopImGui Loop.readyImGui (Tick.quiet 768 768 .successSuboptimal))
      = [Event.textureRelease, Event.configure 768 768] := by
  refine ⟨by decide, by decide, by decide, ?_, ?_⟩
  · apply callsSince_of_append
    rw [mainLoop_of_no_texture _ _ (by decide)]
    simp [checkTextureStatus, handleInput, checkMouseButtonAction, reactToResize, Tick.quiet,
      Loop.ready, initMandel, initWGPU, Loop.emit, toUInt32, initialWindowWidth,
      initialWindowHeight]
  · apply callsSince_of_append
    rw [mainLoopImGui_of_no_texture _ _ (by decide)]
    simp [checkTextureStatusImGui, staleTextureImGui, handleInputImGui,
      checkMouseButtonActionImGui, reactToResizeImGui, Tick.quiet,
      Loop.readyImGui, initMandel, initWGPUImGui, Loop.emit, toUInt32,
      initialWindowWidthImGui, initialWindowHeightImGui]

/-- C13, amended: for every state and every tick, `mainLoop` of
`mandel_glfw/main.cpp` and of `mandel_imgui_glfw/main.cpp` encodes its one
render pass (clear, the pipeline, the bind group, a draw of 4 vertices and 1
instance), submits it and presents exactly when the status is `SuccessOptimal`
and the texture is not null; these calls then come last in the tick. With any
other status, among them `SuccessSuboptimal`, `Timeout`, `Outdated` and
`Lost`, the tick makes no call that encodes, submits or presents. `mainLoop`
of `main_oldStyle.cpp` does not look at the status: every tick ends with the
pass and its submission. -/
theorem mainLoop_draws_iff_optimal (l : Loop) (t : Tick) :
    ((∃ pre, callsSince l (mainLoop l t) = pre ++ renderCalls ∧
          ∀ e ∈ pre, e.isRender = false)
        ↔ (t.status = .successOptimal ∧ t.texture.isSome = true)) ∧
    (¬ (t.status = .successOptimal ∧ t.texture.isSome = true) →
        ∀ e ∈ callsSince l (mainLoop l t), e.isRender = false) ∧
    ((∃ pre, callsSince l (mainLoopImGui l t) = pre ++ renderCallsImGui ∧
          ∀ e ∈ pre, e.isRender = false)
        ↔ (t.status = .successOptimal ∧ t.texture.isSome = true)) ∧
    (¬ (t.status = .successOptimal ∧ t.texture.isSome = true) →
        ∀ e ∈ callsSince l (mainLoopImGui l t), e.isRender = false) ∧
    (∃ pre, callsSince l (mainLoopOldStyle l t)
        = pre ++ [Event.deviceTick, Event.beginRenderPass true, Event.setPipeline,
            Event.setBindGroup 0, Event.draw 4 1 0 0, Event.imguiRenderDrawData,
            Event.passEnd, Event.submit 1] ∧
        ∀ e ∈ pre, e.isRender = false) := by
  obtain ⟨es, he, hn⟩ :=
    (handleInput_continues l t).trans (checkTextureStatus_continues (handleInput l t) t)
  obtain ⟨es2, he2, hn2⟩ :=
    (handleInputImGui_continues l t).trans
      (checkTextureStatusImGui_continues (handleInputImGui l t) t)
  have hskip : ¬ (t.status = .successOptimal ∧ t.texture.isSome = true) →
      callsSince l (mainLoop l t) = es := fun h =>
    callsSince_of_append _ _ _ (by rw [mainLoop_of_no_texture l t h, he])
  have hskip2 : ¬ (t.status = .successOptimal ∧ t.texture.isSome = true) →
      callsSince l (mainLoopImGui l t) = es2 := fun h =>
    callsSince_of_append _ _ _ (by rw [mainLoopImGui_of_no_texture l t h, he2])
  have hold : ∃ pre, callsSince l (mainLoopOldStyle l t)
      = pre ++ [Event.deviceTick, Event.beginRenderPass true, Event.setPipeline,
          Event.setBindGroup 0, Event.draw 4 1 0 0, Event.imguiRenderDrawData,
          Event.passEnd, Event.submit 1] ∧
      ∀ e ∈ pre, e.isRender = false := by
    obtain ⟨es3, he3, hn3⟩ :=
      (handleInputImGui_continues l t).trans (renderImGui_continues (handleInputImGui l t) t)
    refine ⟨es3, ?_, hn3⟩
    apply callsSince_of_append
    simp [mainLoopOldStyle, Loop.emit, he3]
  refine ⟨⟨?_, ?_⟩, ?_, ⟨?_, ?_⟩, ?_, hold⟩
  · rintro ⟨pre, hp, -⟩
    by_contra h
    rw [hskip h] at hp
    exact no_render_of_append_renderCalls pre es hp hn
  · rintro ⟨hs, ht⟩
    obtain ⟨tex, htex⟩ := Option.isSome_iff_exists.mp ht
    obtain ⟨es1, he1, hn1⟩ := handleInput_continues l t
    refine ⟨es1, ?_, hn1⟩
    apply callsSince_of_append
    rw [mainLoop_of_texture l t tex hs htex]
    simp [Loop.emit, he1]
  · intro h e hmem
    rw [hskip h] at hmem
    exact hn e hmem
  · rintro ⟨pre, hp, -⟩
    by_contra h
    rw [hskip2 h] at hp
    exact no_render_of_append_renderCallsImGui pre es2 hp hn2
  · rintro ⟨hs, ht⟩
    obtain ⟨tex, htex⟩ := Option.isSome_iff_exists.mp ht
    obtain ⟨es1, he1, hn1⟩ :=
      (handleInputImGui_continues l t).trans (renderImGui_continues (handleInputImGui l t) t)
    refine ⟨es1, ?_, hn1⟩
    apply callsSince_of_append
    rw [mainLoopImGui_of_texture l t tex hs htex]
    simp [Loop.emit, he1]
  · intro h e hmem
    rw [hskip2 h] at hmem
    exact hn2 e hmem

/-- C14, refuted as stated: once the framebuffer is 0 x 0 (a minimised
window) the first tick has configured the surface to 0 x 0, and a further tick
with status `Timeout` makes no call at all: the surface is not reconfigured,
because `checkTextureStatus` reconfigures only for a positive size. -/
theorem stale_zero_size_no_reconfigure :
    (Tick.quiet 0 0 .timeout).status = .timeout ∧
    (mainLoop Loop.ready (Tick.quiet 0 0 .timeout)).surfaceWidth = 0 ∧
    (mainLoop Loop.ready (Tick.quiet 0 0 .timeout)).surfaceHeight = 0 ∧
    mainLoop (mainLoop Loop.ready (Tick.quiet 0 0 .timeout)) (Tick.quiet 0 0 .timeout)
      = mainLoop Loop.ready (Tick.quiet 0 0 .timeout) ∧
    callsSince (mainLoop Loop.ready (Tick.quiet 0 0 .timeout))
      (mainLoop (mainLoop Loop.ready (Tick.quiet 0 0 .timeout)) (Tick.quiet 0 0 .timeout))
      = [] := by
  have hw : (mainLoop Loop.ready (Tick.quiet 0 0 .timeout)).surfaceWidth = 0 := by
    rw [mainLoop_of_no_texture _ _ (by decide)]
    simp [checkTextureStatus, handleInput, reactToResize, resizeSurface, Tick.quiet,
      Loop.ready, initMandel, initWGPU, Loop.emit, toUInt32, initialWindowWidth,
      initialWindowHeight]
  have hh : (mainLoop Loop.ready (Tick.quiet 0 0 .timeout)).surfaceHeight = 0 := by
    rw [mainLoop_of_no_texture _ _ (by decide)]
    simp [checkTextureStatus, handleInput, reactToResize, resizeSurface, Tick.quiet,
      Loop.ready, initMandel, initWGPU, Loop.emit, toUInt32, initialWindowWidth,
      initialWindowHeight]
  have hfix : mainLoop (mainLoop Loop.ready (Tick.quiet 0 0 .timeout)) (Tick.quiet 0 0 .timeout)
      = mainLoop Loop.ready (Tick.quiet 0 0 .timeout) := by
    generalize mainLoop Loop.ready (Tick.quiet 0 0 .timeout) = l1 at hw hh ⊢
    rw [mainLoop_of_no_texture _ _ (by decide)]
    simp [checkTextureStatus, handleInput, checkMouseButtonAction, reactToResize, Tick.quiet,
      toUInt32, hw, hh]
    cases l1
    simp_all
  refine ⟨rfl, hw, hh, hfix, ?_⟩
  rw [hfix]
  simp [callsSince]

/-- C14, amended: whenever texture acquisition reports `Timeout`, `Outdated`
or `Lost`, `checkTextureStatus` returns null in `mandel_glfw/main.cpp` and in
`mandel_imgui_glfw/main.cpp` and the tick makes no call that encodes a render
pass, submits or presents; in both, the surface is reconfigured with the
current framebuffer size when both its dimensions are positive, and otherwise
`checkTextureStatus` leaves the configuration alone and makes no `Configure`
call (the overlay variant first releases the texture when it was handed
one). -/
theorem stale_tick_skips_frame (l : Loop) (t : Tick)
    (hs : t.status = .timeout ∨ t.status = .outdated ∨ t.status = .lost) :
    (checkTextureStatus (handleInput l t) t).2 = none ∧
    (∀ e ∈ callsSince l (mainLoop l t), e.isRender = false) ∧
    (0 < t.checkW ∧ 0 < t.checkH →
      mainLoop l t
        = Loop.emit { handleInput l t with surfaceWidth := toUInt32 t.checkW,
                                           surfaceHeight := toUInt32 t.checkH }
            [Event.configure (toUInt32 t.checkW) (toUInt32 t.checkH)]) ∧
    (¬ (0 < t.checkW ∧ 0 < t.checkH) → mainLoop l t = handleInput l t) ∧
    (checkTextureStatusImGui (handleInputImGui l t) t).2 = none ∧
    (∀ e ∈ callsSince l (mainLoopImGui l t), e.isRender = false) ∧
    (0 < t.checkW ∧ 0 < t.checkH →
      mainLoopImGui l t
        = Loop.emit
            { (if t.texture.isSome then Loop.emit (handleInputImGui l t) [Event.textureRelease]
                else handleInputImGui l t) with
              surfaceWidth := toUInt32 t.checkW, surfaceHeight := toUInt32 t.checkH }
            [Event.configure (toUInt32 t.checkW) (toUInt32 t.checkH)]) ∧
    (¬ (0 < t.checkW ∧ 0 < t.checkH) →
      mainLoopImGui l t
        = (if t.texture.isSome then Loop.emit (handleInputImGui l t) [Event.textureRelease]
            else handleInputImGui l t)) := by
  have hno : ¬ (t.status = .successOptimal ∧ t.texture.isSome = true) := by
    rintro ⟨h, -⟩
    rcases hs with h1 | h1 | h1 <;> rw [h] at h1 <;> exact absurd h1 (by decide)
  have hne : t.status ≠ .successOptimal := fun h => hno ⟨h, by
    rcases hs with h1 | h1 | h1 <;> rw [h] at h1 <;> exact absurd h1 (by decide)⟩
  have hm := skipped_tick_no_render l t hno
  refine ⟨?_, hm.1, ?_, ?_, ?_, hm.2, ?_, ?_⟩
  · rw [checkTextureStatus_texture, if_neg hne]
  · intro hp
    rw [mainLoop_of_no_texture l t hno]
    rcases hs with h1 | h1 | h1 <;> simp [checkTextureStatus, h1, hp]
  · intro hp
    rw [mainLoop_of_no_texture l t hno]
    rcases hs with h1 | h1 | h1 <;> simp [checkTextureStatus, h1, hp]
  · rw [checkTextureStatusImGui_texture, if_neg hne]
  · intro hp
    rw [mainLoopImGui_of_no_texture l t hno]
    rcases hs with h1 | h1 | h1 <;> simp [checkTextureStatusImGui, staleTextureImGui, h1, hp]
  · intro hp
    rw [mainLoopImGui_of_no_texture l t hno]
    rcases hs with h1 | h1 | h1 <;> simp [checkTextureStatusImGui, staleTextureImGui, h1, hp]

/-- Witness for C14 (amended): the ready state and a tick with status
`Outdated` while the framebuffer is 800 x 600. -/
theorem stale_tick_skips_frame_witness :
    (checkTextureStatus (handleInput Loop.ready (Tick.quiet 800 600 .outdated))
      (Tick.quiet 800 600 .outdated)).2 = none ∧
    (∀ e ∈ callsSince Loop.ready (mainLoop Loop.ready (Tick.quiet 800 600 .outdated)),
      e.isRender = false) :=
  have h := stale_tick_skips_frame Loop.ready (Tick.quiet 800 600 .outdated)
    (Or.inr (Or.inl rfl))
  ⟨h.1, h.2.1⟩

/-! ## Frame loop: writes come before the render pass -/

theorem zoom_inSync (a : App) (x y : ℚ) (w h : Int) (δ : ℚ) :
    uboContent (zoom a x y w h δ).queue = some (zoom a x y w h δ).shaderData :=
  uboContent_append_write a.queue (zoom a x y w h δ).shaderData

theorem appResizeArea_inSync (a : App) (w h : Nat) :
    uboContent (appResizeArea a w h).queue = some (appResizeArea a w h).shaderData :=
  uboContent_append_write a.queue (appResizeArea a w h).shaderData

theorem handleInput_inSync (l : Loop) (t : Tick) (hs : l.inSync) :
    (handleInput l t).inSync := by
  have h1 : uboContent (checkMouseButtonAction l.app t.left t.right t.cursorX t.cursorY
      t.zoomW t.zoomH).queue = some (checkMouseButtonAction l.app t.left t.right t.cursorX
        t.cursorY t.zoomW t.zoomH).shaderData := by
    unfold checkMouseButtonAction
    split_ifs
    · exact zoom_inSync _ _ _ _ _ _
    · exact zoom_inSync _ _ _ _ _ _
    · exact hs
  unfold handleInput reactToResize Loop.inSync
  split_ifs
  · exact appResizeArea_inSync _ _ _
  · exact h1

theorem handleInputImGui_inSync (l : Loop) (t : Tick) (hs : l.inSync) :
    (handleInputImGui l t).inSync := by
  have h1 : uboContent (checkMouseButtonActionImGui l.app t.mouseCaptured t.left t.right
      t.cursorX t.cursorY t.zoomW t.zoomH).queue = some (checkMouseButtonActionImGui l.app
        t.mouseCaptured t.left t.right t.cursorX t.cursorY t.zoomW t.zoomH).shaderData := by
    unfold checkMouseButtonActionImGui
    split_ifs
    · exact zoom_inSync _ _ _ _ _ _
    · exact zoom_inSync _ _ _ _ _ _
    · exact hs
  unfold handleInputImGui reactToResizeImGui Loop.inSync
  split_ifs
  · exact appResizeArea_inSync _ _ _
  · exact h1

theorem renderImGui_shaderData_of_untouched (l : Loop) (t : Tick)
    (hm : ¬ (t.beginOpen &&
      (t.sliderIterations.isSome || t.sliderNColors.isSome || t.sliderShift.isSome)) = true) :
    (renderImGui l t).app.shaderData = l.app.shaderData := by
  by_cases hb : t.beginOpen = true
  · simp only [hb, Bool.true_and, Bool.or_eq_true, not_or, Bool.not_eq_true] at hm
    obtain ⟨⟨h1, h2⟩, h3⟩ := hm
    have e1 : t.sliderIterations = none := by
      cases hv : t.sliderIterations with
      | none => rfl
      | some v => rw [hv] at h1; simp at h1
    have e2 : t.sliderNColors = none := by
      cases hv : t.sliderNColors with
      | none => rfl
      | some v => rw [hv] at h2; simp at h2
    have e3 : t.sliderShift = none := by
      cases hv : t.sliderShift with
      | none => rfl
      | some v => rw [hv] at h3; simp at h3
    simp [renderImGui, hb, e1, e2, e3, Loop.emit]
  · simp [renderImGui, hb, Loop.emit]

theorem renderImGui_inSync (l : Loop) (t : Tick) (hs : l.inSync) :
    (renderImGui l t).inSync := by
  unfold Loop.inSync
  by_cases hm : (t.beginOpen &&
      (t.sliderIterations.isSome || t.sliderNColors.isSome || t.sliderShift.isSome)) = true
  · rw [renderImGui_queue, if_pos hm, ← List.append_assoc]
    exact uboContent_append_write _ _
  · rw [renderImGui_queue, if_neg hm, renderImGui_shaderData_of_untouched l t hm,
      List.append_nil, uboContent_append_of_no_write _ _ (by simp [Event.isWrite])]
    exact hs

/-- C16: in every tick of `mainLoop` that draws, in the GLFW variant and in
the overlay variant, the calls of the tick are the calls of input handling
(button zoom, resize, and the overlay's sliders) followed by the render
calls; the render calls contain no uniform-buffer write and input handling
contains no call that begins, encodes or submits the pass, so every write of
the tick precedes `BeginRenderPass` and `Submit`. When the uniform buffer
held the record before the tick, it holds the record as the tick's input
handling leaves it at the moment the pass is begun. -/
theorem writes_precede_render_pass (l : Loop) (t : Tick) (tex : Nat)
    (hs : t.status = .successOptimal) (ht : t.texture = some tex) :
    (∃ pre, (mainLoop l t).app.queue = l.app.queue ++ pre ++ renderCalls ∧
        (∀ e ∈ pre, e.isRender = false) ∧
        (∀ e ∈ renderCalls, e.isWrite = false) ∧
        (l.inSync → uboContent (l.app.queue ++ pre) = some (mainLoop l t).app.shaderData)) ∧
    (∃ pre, (mainLoopImGui l t).app.queue = l.app.queue ++ pre ++ renderCallsImGui ∧
        (∀ e ∈ pre, e.isRender = false) ∧
        (∀ e ∈ renderCallsImGui, e.isWrite = false) ∧
        (l.inSync →
          uboContent (l.app.queue ++ pre) = some (mainLoopImGui l t).app.shaderData)) := by
  constructor
  · obtain ⟨es, he, hn⟩ := handleInput_continues l t
    refine ⟨es, ?_, hn, by simp [renderCalls, Event.isWrite], ?_⟩
    · rw [mainLoop_of_texture l t tex hs ht]
      simp [Loop.emit, he]
    · intro hsync
      rw [mainLoop_of_texture l t tex hs ht, ← he]
      exact handleInput_inSync l t hsync
  · obtain ⟨es, he, hn⟩ :=
      (handleInputImGui_continues l t).trans (renderImGui_continues (handleInputImGui l t) t)
    refine ⟨es, ?_, hn, by simp [renderCallsImGui, Event.isWrite], ?_⟩
    · rw [mainLoopImGui_of_texture l t tex hs ht]
      simp [Loop.emit, he]
    · intro hsync
      rw [mainLoopImGui_of_texture l t tex hs ht, ← he]
      exact renderImGui_inSync _ t (handleInputImGui_inSync l t hsync)

theorem Loop.ready_inSync : Loop.ready.inSync :=
  appResizeArea_inSync _ _ _

/-- Witness for C16: the ready state and a tick with the left button held, the
framebuffer at 512 x 512 and an optimal texture. -/
theorem writes_precede_render_pass_witness :
    ∃ pre,
      (mainLoop Loop.ready { Tick.quiet 512 512 .successOptimal with left := true }).app.queue
        = Loop.ready.app.queue ++ pre ++ renderCalls ∧
      (∀ e ∈ pre, e.isRender = false) ∧
      uboContent (Loop.ready.app.queue ++ pre)
        = some (mainLoop Loop.ready
            { Tick.quiet 512 512 .successOptimal with left := true }).app.shaderData := by
  obtain ⟨pre, h1, h2, -, h4⟩ :=
    (writes_precede_render_pass Loop.ready
      { Tick.quiet 512 512 .successOptimal with left := true } 1 rfl rfl).1
  exact ⟨pre, h1, h2, h4 Loop.ready_inSync⟩

/-! ## Startup call of `appResizeArea` -/

/-- C18: for a state with finite scale in which `appResizeArea` has not been
called yet and every size with `0 < w, h < 2^31` (the sizes a caller can pass:
the startup surface size or an `int` pair from the size query), the first call
`appResizeArea(w, h)` leaves `mScaleX` and
`mScaleY` unchanged, sets `wSizeX = w` and `wSizeY = h` and records `(w, h)` as
the previous size, so that a following `appResizeArea(w2, h2)` yields
`mScaleX * w2 / w` and `mScaleY * h2 / h`. -/
theorem first_resize_baseline (a : App) (sx sy : ℚ) (w h w2 h2 : Nat)
    (hfirst : a.resizePrev = none)
    (hw : 0 < w) (hh : 0 < h) (hw31 : w < 2 ^ 31) (hh31 : h < 2 ^ 31)
    (hsx : a.shaderData.mScaleX = .fin sx) (hsy : a.shaderData.mScaleY = .fin sy) :
    (appResizeArea a w h).shaderData.mScaleX = .fin sx ∧
    (appResizeArea a w h).shaderData.mScaleY = .fin sy ∧
    (appResizeArea a w h).shaderData.wSizeX = FVal.ofNat w ∧
    (appResizeArea a w h).shaderData.wSizeY = FVal.ofNat h ∧
    (appResizeArea a w h).resizePrev = some ((w : Int), (h : Int)) ∧
    (appResizeArea (appResizeArea a w h) w2 h2).shaderData.mScaleX
      = .fin (sx * w2 / w) ∧
    (appResizeArea (appResizeArea a w h) w2 h2).shaderData.mScaleY
      = .fin (sy * h2 / h) := by
  have ew := toInt32_of_lt w hw31
  have eh := toInt32_of_lt h hh31
  have hwq : (w : ℚ) ≠ 0 := by exact_mod_cast Nat.pos_iff_ne_zero.mp hw
  have hhq : (h : ℚ) ≠ 0 := by exact_mod_cast Nat.pos_iff_ne_zero.mp hh
  have hwi : (w : Int) ≠ 0 := by exact_mod_cast Nat.pos_iff_ne_zero.mp hw
  have hhi : (h : Int) ≠ 0 := by exact_mod_cast Nat.pos_iff_ne_zero.mp hh
  have e1 : (appResizeArea a w h).shaderData.mScaleX = .fin sx := by
    simp [appResizeArea, updateUniformBuffer, hfirst, ew, hsx, hwq]
  have e2 : (appResizeArea a w h).shaderData.mScaleY = .fin sy := by
    simp [appResizeArea, updateUniformBuffer, hfirst, eh, hsy, hhq]
  have e3 : (appResizeArea a w h).resizePrev = some ((w : Int), (h : Int)) := by
    rw [appResizeArea_resizePrev, ew, eh]
  refine ⟨e1, e2, ?_, ?_, e3, ?_, ?_⟩
  · simp [appResizeArea, updateUniformBuffer, ew]
  · simp [appResizeArea, updateUniformBuffer, eh]
  · rw [appResizeArea_mScaleX (appResizeArea a w h) w2 h2 w h sx e3 hwi e1]
    congr 1
    push_cast
    field_simp
    ring
  · rw [appResizeArea_mScaleY (appResizeArea a w h) w2 h2 w h sy e3 hhi e2]
    congr 1
    push_cast
    field_simp
    ring

/-- Witness for C18: the start state, first call with 512 x 512 as
in `initMandel`, then a resize to 1024 x 768. -/
theorem first_resize_baseline_witness :
    (appResizeArea App.start 512 512).shaderData.mScaleX = .fin (3 / 2) ∧
    (appResizeArea App.start 512 512).shaderData.mScaleY = .fin (3 / 2) ∧
    (appResizeArea (appResizeArea App.start 512 512) 1024 768).shaderData.mScaleX = .fin 3 ∧
    (appResizeArea (appResizeArea App.start 512 512) 1024 768).shaderData.mScaleY
      = .fin (9 / 4) := by
  have h := first_resize_baseline App.start (3 / 2) (3 / 2) 512 512 1024 768 rfl
    (by decide) (by decide) (by decide) (by decide) rfl rfl
  refine ⟨h.1, h.2.1, ?_, ?_⟩
  · rw [h.2.2.2.2.2.1]; norm_num
  · rw [h.2.2.2.2.2.2]; norm_num

/-! ## Vertex stage: the full-screen quad -/

theorem stripTriangles_vsPos :
    stripTriangles vsPos = [((-1, 1), (-1, -1), (1, 1)), ((-1, -1), (1, 1), (1, -1))] := by
  simp [stripTriangles, vsPos]

/-- C20: the vertex stage maps the indices 0, 1, 2, 3 to (-1, 1), (-1, -1),
(1, 1), (1, -1) (with z = 0, w = 1); the strip has the two triangles
(v0, v1, v2) and (v1, v2, v3); every point of the clip-space square
[-1, 1] x [-1, 1] lies in one of them and every point of either triangle lies
in the square. -/
theorem quad_covers_clip_square :
    vs 0 = some (-1, 1, 0, 1) ∧ vs 1 = some (-1, -1, 0, 1) ∧
    vs 2 = some (1, 1, 0, 1) ∧ vs 3 = some (1, -1, 0, 1) ∧
    stripTriangles vsPos = [((-1, 1), (-1, -1), (1, 1)), ((-1, -1), (1, 1), (1, -1))] ∧
    (∀ p, inClipSquare p → ∃ t ∈ stripTriangles vsPos, inTriangle t p) ∧
    (∀ t ∈ stripTriangles vsPos, ∀ p, inTriangle t p → inClipSquare p) := by
  refine ⟨by simp [vs, vsPos], by simp [vs, vsPos], by simp [vs, vsPos], by simp [vs, vsPos],
    stripTriangles_vsPos, ?_, ?_⟩
  · rintro ⟨x, y⟩ ⟨h1, h2, h3, h4⟩
    simp only at h1 h2 h3 h4
    rw [stripTriangles_vsPos]
    by_cases hxy : x ≤ y
    · refine ⟨((-1, 1), (-1, -1), (1, 1)), by simp, Or.inl ⟨?_, ?_, ?_⟩⟩ <;>
        simp only [edge] <;> linarith
    · push_neg at hxy
      refine ⟨((-1, -1), (1, 1), (1, -1)), by simp, Or.inr ⟨?_, ?_, ?_⟩⟩ <;>
        simp only [edge] <;> linarith
  · intro t ht
    rw [stripTriangles_vsPos] at ht
    rintro ⟨x, y⟩ hp
    simp only [List.mem_cons, List.mem_singleton, List.not_mem_nil, or_false] at ht
    rcases ht with rfl | rfl
    · rcases hp with ⟨a, b, c⟩ | ⟨a, b, c⟩ <;> simp only [edge] at a b c <;>
        refine ⟨?_, ?_, ?_, ?_⟩ <;> simp only <;> linarith
    · rcases hp with ⟨a, b, c⟩ | ⟨a, b, c⟩ <;> simp only [edge] at a b c <;>
        refine ⟨?_, ?_, ?_, ?_⟩ <;> simp only <;> linarith

/-! ## Fragment stage: escape-time colouring -/

theorem orbit_succ (c : ℚ × ℚ) (n : Nat) : orbit c (n + 1) = fsStep c (orbit c n) := by
  simp only [orbit, fsStep, cmul, Prod.mk.injEq]
  exact ⟨trivial, by ring⟩

theorem iterate_fsStep (c : ℚ × ℚ) (n : Nat) : (fsStep c)^[n] (0, 0) = orbit c n := by
  induction n with
  | zero => rfl
  | succ n ih => rw [Function.iterate_succ_apply', ih, orbit_succ]

theorem dot2_eq_normSq2 (z : ℚ × ℚ) : dot2 z = normSq2 z := by
  simp only [dot2, normSq2]; ring

theorem fsLoop_spec (c : ℚ × ℚ) (N : Int) :
    ∀ (d : Nat) (i : Int) (z : ℚ × ℚ), (N - i).toNat ≤ d →
      (∀ m, (fsLoop c N i z).1 = some m →
        ∃ n : Nat, m = i + n ∧ m < N ∧ dot2 ((fsStep c)^[n + 1] z) > 16 ∧
          ∀ j : Nat, j < n → ¬ dot2 ((fsStep c)^[j + 1] z) > 16) ∧
      ((fsLoop c N i z).1 = none →
        ∀ n : Nat, i + n < N → ¬ dot2 ((fsStep c)^[n + 1] z) > 16) ∧
      (fsLoop c N i z).2 ≤ (N - i).toNat := by
  intro d
  induction d with
  | zero =>
    intro i z hd
    have hi : ¬ i < N := by omega
    have hr : fsLoop c N i z = (none, 0) := by rw [fsLoop]; simp [hi]
    rw [hr]
    refine ⟨fun m hm => by simp at hm, fun _ n hn => by omega, by simp⟩
  | succ d ih =>
    intro i z hd
    by_cases hi : i < N
    · by_cases he : dot2 (fsStep c z) > 16
      · have hr : fsLoop c N i z = (some i, 1) := by rw [fsLoop]; simp [hi, he]
        rw [hr]
        refine ⟨?_, fun h => by simp at h, ?_⟩
        · intro m hm
          simp only [Option.some.injEq] at hm
          subst hm
          exact ⟨0, by simp, hi, by simpa using he, fun j hj => by omega⟩
        · show 1 ≤ (N - i).toNat
          omega
      · have hr : fsLoop c N i z = ((fsLoop c N (i + 1) (fsStep c z)).1,
            (fsLoop c N (i + 1) (fsStep c z)).2 + 1) := by
          rw [fsLoop]; simp [hi, he]
        obtain ⟨ha, hb, hc⟩ := ih (i + 1) (fsStep c z) (by omega)
        rw [hr]
        refine ⟨?_, ?_, ?_⟩
        · intro m hm
          obtain ⟨n, h1, h2, h3, h4⟩ := ha m hm
          refine ⟨n + 1, by push_cast; omega, h2, ?_, ?_⟩
          · rw [Function.iterate_succ_apply]; exact h3
          · intro j hj
            cases j with
            | zero => simpa using he
            | succ j => rw [Function.iterate_succ_apply]; exact h4 j (by omega)
        · intro hn n hlt
          cases n with
          | zero => simpa using he
          | succ n =>
            rw [Function.iterate_succ_apply]
            exact hb hn n (by push_cast at hlt; omega)
        · show (fsLoop c N (i + 1) (fsStep c z)).2 + 1 ≤ (N - i).toNat
          omega
    · have hr : fsLoop c N i z = (none, 0) := by rw [fsLoop]; simp [hi]
      rw [hr]
      refine ⟨fun m hm => by simp at hm, fun _ n hn => by omega, by simp⟩

theorem fsColor_of_escape (c : ℚ × ℚ) (N nColors : Int) (sh : ℚ) (i : Nat)
    (hn : 0 < nColors) (hi : 1 ≤ i) (hr : (fsLoop c N 1 (0, 0)).1 = some (i : Int)) :
    fsColor c N nColors sh
      = some ((hsl2rgb (sh + i / nColors) 1 (1 / 2)).1,
          (hsl2rgb (sh + i / nColors) 1 (1 / 2)).2.1,
          (hsl2rgb (sh + i / nColors) 1 (1 / 2)).2.2, 1) := by
  have hn0 : (nColors : ℚ) ≠ 0 := by
    have : (0 : ℚ) < nColors := by exact_mod_cast hn
    exact ne_of_gt this
  have hpos : (0 : ℚ) < (i : ℚ) / (nColors : ℚ) := by
    apply div_pos
    · exact_mod_cast hi
    · exact_mod_cast hn
  simp only [fsColor, hr]
  simp [hn0, hpos]

theorem fsColor_of_no_escape (c : ℚ × ℚ) (N nColors : Int) (sh : ℚ)
    (hr : (fsLoop c N 1 (0, 0)).1 = none) :
    fsColor c N nColors sh = some (0, 0, 0, 0) := by
  simp only [fsColor, hr]
  simp

theorem frameLoop_code (l : Loop) (turns : List Turn) :
    (frameLoop l turns).1 = if (∃ u ∈ turns, u.shouldClose = true) then some 0 else none := by
  induction turns generalizing l with
  | nil => simp [frameLoop]
  | cons u us ih =>
    by_cases hc : u.shouldClose = true
    · simp [frameLoop, hc]
    · simp only [frameLoop, hc, if_false, Bool.false_eq_true]
      rw [ih]
      simp [hc]

theorem frameLoopImGui_code (l : Loop) (turns : List Turn) :
    ((frameLoopImGui l turns).1 = none ∨ (frameLoopImGui l turns).1 = some 0 ∨
      (frameLoopImGui l turns).1 = some (-3)) ∧
    ((frameLoopImGui l turns).1 = some (-3) ↔
      ∃ pre u post, turns = pre ++ u :: post ∧
        (∀ v ∈ pre, v.shouldClose = false ∧ v.iconified = false) ∧
        u.shouldClose = false ∧ u.iconified = true) := by
  induction turns generalizing l with
  | nil => simp [frameLoopImGui]
  | cons u us ih =>
    by_cases hc : u.shouldClose = true
    · refine ⟨by simp [frameLoopImGui, hc], ?_⟩
      constructor
      · intro h; simp [frameLoopImGui, hc] at h
      · rintro ⟨pre, v, post, he, hpre, hv1, hv2⟩
        cases pre with
        | nil =>
          simp only [List.nil_append, List.cons.injEq] at he
          rw [he.1] at hc; rw [hc] at hv1; exact absurd hv1 (by decide)
        | cons p ps =>
          simp only [List.cons_append, List.cons.injEq] at he
          have := (hpre p (List.mem_cons_self _ _)).1
          rw [← he.1, hc] at this; exact absurd this (by decide)
    · have hc' : u.shouldClose = false := by simpa using hc
      by_cases hi : u.iconified = true
      · refine ⟨by simp [frameLoopImGui, hc', hi], ?_⟩
        constructor
        · intro _
          exact ⟨[], u, us, rfl, by simp, hc', hi⟩
        · intro _
          simp [frameLoopImGui, hc', hi]
      · have hi' : u.iconified = false := by simpa using hi
        have hr : frameLoopImGui l (u :: us) = frameLoopImGui (mainLoopImGui l u.tick) us := by
          simp [frameLoopImGui, hc', hi']
        rw [hr]
        obtain ⟨h1, h2⟩ := ih (mainLoopImGui l u.tick)
        refine ⟨h1, ?_⟩
        rw [h2]
        constructor
        · rintro ⟨pre, v, post, he, hpre, hv1, hv2⟩
          refine ⟨u :: pre, v, post, by rw [he]; rfl, ?_, hv1, hv2⟩
          intro w hw
          rcases List.mem_cons.mp hw with h | h
          · rw [h]; exact ⟨hc', hi'⟩
          · exact hpre w h
        · rintro ⟨pre, v, post, he, hpre, hv1, hv2⟩
          cases pre with
          | nil =>
            simp only [List.nil_append, List.cons.injEq] at he
            rw [← he.1, hi'] at hv2; exact absurd hv2 (by decide)
          | cons p ps =>
            simp only [List.cons_append, List.cons.injEq] at he
            exact ⟨ps, v, post, he.2, fun w hw => hpre w (List.mem_cons_of_mem _ hw), hv1, hv2⟩

theorem frameLoopImGui_exit (l : Loop) (turns : List Turn) :
    (frameLoopImGui l turns).1 = exitCodeOf (endingTurn turns) := by
  induction turns generalizing l with
  | nil => rfl
  | cons u us ih =>
    by_cases hc : u.shouldClose = true
    · simp [frameLoopImGui, endingTurn, exitCodeOf, hc]
    · have hc' : u.shouldClose = false := by simpa using hc
      by_cases hi : u.iconified = true
      · simp [frameLoopImGui, endingTurn, exitCodeOf, hc', hi]
      · have hi' : u.iconified = false := by simpa using hi
        have hr : frameLoopImGui l (u :: us) = frameLoopImGui (mainLoopImGui l u.tick) us := by
          simp [frameLoopImGui, hc', hi']
        have he : endingTurn (u :: us) = endingTurn us := by
          simp [endingTurn, hc', hi']
        rw [hr, he]
        exact ih _

theorem frameLoopOldStyle_exit (l : Loop) (turns : List Turn) :
    (frameLoopOldStyle l turns).1 = exitCodeOf (endingTurn turns) := by
  induction turns generalizing l with
  | nil => rfl
  | cons u us ih =>
    by_cases hc : u.shouldClose = true
    · simp [frameLoopOldStyle, endingTurn, exitCodeOf, hc]
    · have hc' : u.shouldClose = false := by simpa using hc
      by_cases hi : u.iconified = true
      · simp [frameLoopOldStyle, endingTurn, exitCodeOf, hc', hi]
      · have hi' : u.iconified = false := by simpa using hi
        have hr : frameLoopOldStyle l (u :: us)
            = frameLoopOldStyle (Loop.emit (mainLoopOldStyle l u.tick) [Event.present]) us := by
          simp [frameLoopOldStyle, hc', hi']
        have he : endingTurn (u :: us) = endingTurn us := by
          simp [endingTurn, hc', hi']
        rw [hr, he]
        exact ih _

theorem exitCodeOf_endingTurn_zero (turns : List Turn) :
    exitCodeOf (endingTurn turns) = some 0 ↔
      ∃ pre u post, turns = pre ++ u :: post ∧
        (∀ v ∈ pre, v.shouldClose = false ∧ v.iconified = false) ∧
        u.shouldClose = true := by
  induction turns with
  | nil => simp [endingTurn, exitCodeOf]
  | cons u us ih =>
    by_cases hc : u.shouldClose = true
    · constructor
      · intro _
        exact ⟨[], u, us, rfl, by simp, hc⟩
      · intro _
        simp [endingTurn, exitCodeOf, hc]
    · have hc' : u.shouldClose = false := by simpa using hc
      by_cases hi : u.iconified = true
      · constructor
        · intro h; simp [endingTurn, exitCodeOf, hc', hi] at h
        · rintro ⟨pre, v, post, he, hpre, hv⟩
          cases pre with
          | nil =>
            simp only [List.nil_append, List.cons.injEq] at he
            rw [← he.1, hc'] at hv; exact absurd hv (by decide)
          | cons p ps =>
            simp only [List.cons_append, List.cons.injEq] at he
            have := (hpre p (List.mem_cons_self _ _)).2
            rw [← he.1, hi] at this; exact absurd this (by decide)
      · have hi' : u.iconified = false := by simpa using hi
        have he : endingTurn (u :: us) = endingTurn us := by
          simp [endingTurn, hc', hi']
        rw [he, ih]
        constructor
        · rintro ⟨pre, v, post, he, hpre, hv⟩
          refine ⟨u :: pre, v, post, by rw [he]; rfl, ?_, hv⟩
          intro w hw
          rcases List.mem_cons.mp hw with h | h
          · rw [h]; exact ⟨hc', hi'⟩
          · exact hpre w h
        · rintro ⟨pre, v, post, he, hpre, hv⟩
          cases pre with
          | nil =>
            simp only [List.nil_append, List.cons.injEq] at he
            rw [← he.1, hc'] at hv; exact absurd hv (by decide)
          | cons p ps =>
            simp only [List.cons_append, List.cons.injEq] at he
            exact ⟨ps, v, post, he.2, fun w hw => hpre w (List.mem_cons_of_mem _ hw), hv⟩

/-- C21, refuted as stated: in the overlay variant (`main.cpp` and
`main_oldStyle.cpp`), after a successful startup, a turn of the frame loop that
finds the window iconified (and not asked to close) makes `main` return -3. -/
theorem iconified_turn_exits_minus_three :
    (mainImGui true true
      [{ shouldClose := false, iconified := true,
         tick := Tick.quiet 768 768 .successOptimal }]).1 = some (-3) ∧
    (mainOldStyle true true
      [{ shouldClose := false, iconified := true,
         tick := Tick.quiet 768 768 .successOptimal }]).1 = some (-3) := by
  constructor
  · simp [mainImGui, frameLoopImGui]
  · simp [mainOldStyle, frameLoopOldStyle]

/-- C21, amended: `main` returns -1 when the windowing library fails to
initialise and -2 when the window cannot be created, in the GLFW variant and
in both overlay variants. After a successful startup `main` of the GLFW
variant returns only 0, and does so exactly when a turn of the frame loop
finds the close request. `main` of the overlay variants (`main.cpp` and
`main_oldStyle.cpp`) ends at the first turn that finds a close request or an
iconified window: it returns 0 when that turn finds the close request and -3
when it finds the window iconified without a close request. -/
theorem main_exit_codes (windowOk : Bool) (turns : List Turn) :
    (mainGlfw false windowOk turns).1 = some (-1) ∧
    (mainGlfw true false turns).1 = some (-2) ∧
    ((mainGlfw true true turns).1 = none ∨ (mainGlfw true true turns).1 = some 0) ∧
    ((mainGlfw true true turns).1 = some 0 ↔ ∃ u ∈ turns, u.shouldClose = true) ∧
    (mainImGui false windowOk turns).1 = some (-1) ∧
    (mainImGui true false turns).1 = some (-2) ∧
    ((mainImGui true true turns).1 = none ∨ (mainImGui true true turns).1 = some 0 ∨
      (mainImGui true true turns).1 = some (-3)) ∧
    ((mainImGui true true turns).1 = some (-3) ↔
      ∃ pre u post, turns = pre ++ u :: post ∧
        (∀ v ∈ pre, v.shouldClose = false ∧ v.iconified = false) ∧
        u.shouldClose = false ∧ u.iconified = true) ∧
    (mainImGui true true turns).1 = exitCodeOf (endingTurn turns) ∧
    ((mainImGui true true turns).1 = some 0 ↔
      ∃ pre u post, turns = pre ++ u :: post ∧
        (∀ v ∈ pre, v.shouldClose = false ∧ v.iconified = false) ∧
        u.shouldClose = true) ∧
    (mainOldStyle false windowOk turns).1 = some (-1) ∧
    (mainOldStyle true false turns).1 = some (-2) ∧
    (mainOldStyle true true turns).1 = exitCodeOf (endingTurn turns) ∧
    ((mainOldStyle true true turns).1 = some 0 ↔
      ∃ pre u post, turns = pre ++ u :: post ∧
        (∀ v ∈ pre, v.shouldClose = false ∧ v.iconified = false) ∧
        u.shouldClose = true) := by
  have hg : (mainGlfw true true turns).1
      = if (∃ u ∈ turns, u.shouldClose = true) then some 0 else none := by
    simp only [mainGlfw, Bool.not_true, Bool.false_eq_true, if_false]
    exact frameLoop_code _ _
  have hi : mainImGui true true turns
      = frameLoopImGui (initMandel (initWGPUImGui Loop.startImGui)) turns := by
    simp only [mainImGui, Bool.not_true, Bool.false_eq_true, if_false]
  have ho : mainOldStyle true true turns
      = frameLoopOldStyle (initMandel (initWGPUImGui Loop.startImGui)) turns := by
    simp only [mainOldStyle, Bool.not_true, Bool.false_eq_true, if_false]
  refine ⟨by simp [mainGlfw], by simp [mainGlfw], ?_, ?_, by simp [mainImGui],
    by simp [mainImGui], ?_, ?_, ?_, ?_, by simp [mainOldStyle], by simp [mainOldStyle],
    ?_, ?_⟩
  · rw [hg]; split_ifs <;> simp
  · rw [hg]; split_ifs with h <;> simp [h]
  · rw [hi]; exact (frameLoopImGui_code _ _).1
  · rw [hi]; exact (frameLoopImGui_code _ _).2
  · rw [hi]; exact frameLoopImGui_exit _ _
  · rw [hi, frameLoopImGui_exit]; exact exitCodeOf_endingTurn_zero turns
  · rw [ho]; exact frameLoopOldStyle_exit _ _
  · rw [ho, frameLoopOldStyle_exit]; exact exitCodeOf_endingTurn_zero turns

/-- Witness for C21 (amended): in the GLFW variant an iconified turn followed by
a close request ends with 0; in the overlay variant a plain turn followed by
an iconified turn ends with -3, and a plain turn followed by a close request
ends with 0; a failed window creation ends with -2. -/
theorem main_exit_codes_witness :
    (mainGlfw true true
      [{ shouldClose := false, iconified := true, tick := Tick.quiet 512 512 .successOptimal },
       { shouldClose := true, iconified := false,
         tick := Tick.quiet 512 512 .successOptimal }]).1 = some 0 ∧
    (mainImGui true true
      [{ shouldClose := false, iconified := false,
         tick := Tick.quiet 768 768 .successOptimal },
       { shouldClose := false, iconified := true,
         tick := Tick.quiet 768 768 .successOptimal }]).1 = some (-3) ∧
    (mainImGui true true
      [{ shouldClose := false, iconified := false,
         tick := Tick.quiet 768 768 .successOptimal },
       { shouldClose := true, iconified := true,
         tick := Tick.quiet 768 768 .successOptimal }]).1 = some 0 ∧
    (mainImGui true false []).1 = some (-2) :=
  ⟨(main_exit_codes true
      [{ shouldClose := false, iconified := true, tick := Tick.quiet 512 512 .successOptimal },
       { shouldClose := true, iconified := false,
         tick := Tick.quiet 512 512 .successOptimal }]).2.2.2.1.mpr
      ⟨{ shouldClose := true, iconified := false,
         tick := Tick.quiet 512 512 .successOptimal }, by simp, rfl⟩,
    (main_exit_codes true
      [{ shouldClose := false, iconified := false,
         tick := Tick.quiet 768 768 .successOptimal },
       { shouldClose := false, iconified := true,
         tick := Tick.quiet 768 768 .successOptimal }]).2.2.2.2.2.2.2.1.mpr
      ⟨[{ shouldClose := false, iconified := false,
          tick := Tick.quiet 768 768 .successOptimal }],
        { shouldClose := false, iconified := true,
          tick := Tick.quiet 768 768 .successOptimal }, [], rfl,
        by simp, rfl, rfl⟩,
    (main_exit_codes true
      [{ shouldClose := false, iconified := false,
         tick := Tick.quiet 768 768 .successOptimal },
       { shouldClose := true, iconified := true,
         tick := Tick.quiet 768 768 .successOptimal }]).2.2.2.2.2.2.2.2.2.1.mpr
      ⟨[{ shouldClose := false, iconified := false,
          tick := Tick.quiet 768 768 .successOptimal }],
        { shouldClose := true, iconified := true,
          tick := Tick.quiet 768 768 .successOptimal }, [], rfl,
        by simp, rfl⟩,
    (main_exit_codes true []).2.2.2.2.2.1⟩

/-! ## Overlay sliders -/

/-- C22: in `renderImGui` (and the identical `renderImGuiWindow`), for every
combination of slider results, the calls of the frame are the overlay's frame
start and render, followed by one write of the record exactly when a slider
that ran reported a change; the written record already carries the values of
all three sliders, and a frame without a change leaves the record as it was. -/
theorem sliders_pushed_iff_changed (l : Loop) (t : Tick) :
    callsSince l (renderImGui l t)
      = [Event.imguiNewFrame, Event.imguiRender] ++
          (if (t.beginOpen && (t.sliderIterations.isSome || t.sliderNColors.isSome ||
                t.sliderShift.isSome)) = true
           then [Event.writeBuffer 0 (renderImGui l t).app.shaderData] else []) ∧
    ((∃ e ∈ callsSince l (renderImGui l t), e.isWrite = true) ↔
      (t.beginOpen && (t.sliderIterations.isSome || t.sliderNColors.isSome ||
        t.sliderShift.isSome)) = true) ∧
    (t.beginOpen = true →
      (renderImGui l t).app.shaderData
        = { l.app.shaderData with
            iterations := t.sliderIterations.getD l.app.shaderData.iterations,
            nColors := t.sliderNColors.getD l.app.shaderData.nColors,
            shift := (t.sliderShift.map FVal.fin).getD l.app.shaderData.shift }) ∧
    (¬ (t.beginOpen && (t.sliderIterations.isSome || t.sliderNColors.isSome ||
          t.sliderShift.isSome)) = true →
      (renderImGui l t).app.shaderData = l.app.shaderData) := by
  have hq := callsSince_of_append l (renderImGui l t) _ (renderImGui_queue l t)
  refine ⟨hq, ?_, ?_, renderImGui_shaderData_of_untouched l t⟩
  · rw [hq]
    by_cases hm : (t.beginOpen && (t.sliderIterations.isSome || t.sliderNColors.isSome ||
        t.sliderShift.isSome)) = true
    · rw [if_pos hm]
      exact ⟨fun _ => hm,
        fun _ => ⟨Event.writeBuffer 0 (renderImGui l t).app.shaderData, by simp, rfl⟩⟩
    · rw [if_neg hm]
      constructor
      · rintro ⟨e, he, hw⟩
        simp only [List.append_nil, List.mem_cons, List.mem_singleton, List.not_mem_nil,
          or_false] at he
        rcases he with rfl | rfl <;> simp [Event.isWrite] at hw
      · intro h; exact absurd h hm
  · intro hb
    simp only [renderImGui, Loop.emit, updateUniformBuffer, hb, if_true]
    split_ifs <;> rfl

/-- Witness for C22: from the ready state of the overlay variant, a frame in which only the
Iterations slider is moved (to 100) ends with one write of the record with
`iterations = 100`; a frame in which no slider is moved makes no write. -/
theorem sliders_pushed_iff_changed_witness :
    callsSince Loop.readyImGui
        (renderImGui Loop.readyImGui
          { Tick.quiet 768 768 .successOptimal with sliderIterations := some 100 })
      = [Event.imguiNewFrame, Event.imguiRender,
          Event.writeBuffer 0 { Loop.readyImGui.app.shaderData with iterations := 100 }] ∧
    callsSince Loop.readyImGui (renderImGui Loop.readyImGui (Tick.quiet 768 768 .successOptimal))
      = [Event.imguiNewFrame, Event.imguiRender] := by
  have h := sliders_pushed_iff_changed Loop.readyImGui
    { Tick.quiet 768 768 .successOptimal with sliderIterations := some 100 }
  have h0 := sliders_pushed_iff_changed Loop.readyImGui (Tick.quiet 768 768 .successOptimal)
  constructor
  · rw [h.1, h.2.2.1 rfl]
    rfl
  · rw [h0.1]
    rfl

/-! ## Zoom pair and frame -/

/-- C27: for every state and all arguments, `zoom(δ)` leaves `wSizeX`,
`wSizeY`, `iterations`, `nColors`, `shift` and the statics of `appResizeArea`
as they were, and `appResizeArea(w, h)` leaves `iterations`, `nColors`,
`shift` and the translation as they were. -/
theorem viewport_ops_frame (a : App) (x y : ℚ) (w h : Int) (δ : ℚ) (n m : Nat) :
    (zoom a x y w h δ).shaderData.wSizeX = a.shaderData.wSizeX ∧
    (zoom a x y w h δ).shaderData.wSizeY = a.shaderData.wSizeY ∧
    (zoom a x y w h δ).shaderData.iterations = a.shaderData.iterations ∧
    (zoom a x y w h δ).shaderData.nColors = a.shaderData.nColors ∧
    (zoom a x y w h δ).shaderData.shift = a.shaderData.shift ∧
    (zoom a x y w h δ).resizePrev = a.resizePrev ∧
    (appResizeArea a n m).shaderData.iterations = a.shaderData.iterations ∧
    (appResizeArea a n m).shaderData.nColors = a.shaderData.nColors ∧
    (appResizeArea a n m).shaderData.shift = a.shaderData.shift ∧
    (appResizeArea a n m).shaderData.mTranspX = a.shaderData.mTranspX ∧
    (appResizeArea a n m).shaderData.mTranspY = a.shaderData.mTranspY :=
  ⟨rfl, rfl, rfl, rfl, rfl, rfl, rfl, rfl, rfl, rfl, rfl⟩

/-! ## Resize: path independence and the zero size -/

/-- C25, refuted as stated, in two ways. After 1810 ticks with the right button
held (scale about `3.378e38`, previous size 512 x 512), resizing away to
1024 x 512 overflows `mScaleX` to infinity and resizing back to 512 x 512
leaves NaN, not the original value. And from the record at the start of the
frame loop (scale 1.5, previous size 512 x 512), the resize to 2^30 x 512
followed by the resize to 1 x 512 ends with `mScaleX = 0`, because `1 - 2^30`
rounds to `-2^30`, while the single resize to 1 x 512 gives `3/1024`. -/
theorem resize_path_overflows :
    (zoomOutTick^[1810] View32.ready).mScaleX
      = .fin 337821015385896918650746912699205025792 ∧
    (appResizeArea32 (zoomOutTick^[1810] View32.ready) 1024 512).mScaleX = .inf false ∧
    (appResizeArea32 (appResizeArea32 (zoomOutTick^[1810] View32.ready) 1024 512)
      512 512).mScaleX = .nan ∧
    (appResizeArea32 (appResizeArea32 View32.ready 1073741824 512) 1 512).mScaleX
      = .fin 0 ∧
    (appResizeArea32 View32.ready 1 512).mScaleX = .fin (3 / 1024) := by
  rw [zoomOutTick_1810]
  decide!

/-- C25, amended: for a state whose scale is finite with a magnitude between
`2^-100` and `2^100`, with recorded previous size `(w0, h0)`, and sizes
`(w1, h1)`, `(w2, h2)`, every dimension from 1 to 65536,
`appResizeArea(w1, h1)` followed by `appResizeArea(w2, h2)` gives the same
record and the same statics as the single `appResizeArea(w2, h2)`, namely the
scale `(sx * w2 / w0, sy * h2 / h0)`; resizing away and back to `(w0, h0)`
restores `mScaleX` and `mScaleY`. The equalities are those of the exact
computation (binary32 agrees up to rounding); the bounds on the scale and the
upper bounds on the sizes play no part in it: they keep the statement to the
inputs on which binary32 neither overflows nor cancels all digits. -/
theorem resize_path_independent (a : App) (sx sy : ℚ) (w0 h0 w1 h1 w2 h2 : Nat)
    (hprev : a.resizePrev = some ((w0 : Int), (h0 : Int)))
    (hw0 : 0 < w0) (hh0 : 0 < h0) (hw1 : 0 < w1) (hh1 : 0 < h1)
    (_hw2 : 0 < w2) (_hh2 : 0 < h2)
    (_hw0b : w0 ≤ 65536) (_hh0b : h0 ≤ 65536) (hw1b : w1 ≤ 65536) (hh1b : h1 ≤ 65536)
    (_hw2b : w2 ≤ 65536) (_hh2b : h2 ≤ 65536)
    (hsx : a.shaderData.mScaleX = .fin sx) (hsy : a.shaderData.mScaleY = .fin sy)
    (_hrx : 1 / 2 ^ 100 ≤ |sx| ∧ |sx| ≤ 2 ^ 100)
    (_hry : 1 / 2 ^ 100 ≤ |sy| ∧ |sy| ≤ 2 ^ 100) :
    (appResizeArea (appResizeArea a w1 h1) w2 h2).shaderData
      = (appResizeArea a w2 h2).shaderData ∧
    (appResizeArea (appResizeArea a w1 h1) w2 h2).resizePrev
      = (appResizeArea a w2 h2).resizePrev ∧
    (appResizeArea a w2 h2).shaderData.mScaleX = .fin (sx * w2 / w0) ∧
    (appResizeArea a w2 h2).shaderData.mScaleY = .fin (sy * h2 / h0) ∧
    (appResizeArea (appResizeArea a w1 h1) w0 h0).shaderData.mScaleX = .fin sx ∧
    (appResizeArea (appResizeArea a w1 h1) w0 h0).shaderData.mScaleY = .fin sy := by
  have hw31 : w1 < 2 ^ 31 := lt_of_le_of_lt hw1b (by decide)
  have hh31 : h1 < 2 ^ 31 := lt_of_le_of_lt hh1b (by decide)
  have hw0i : (w0 : Int) ≠ 0 := by exact_mod_cast Nat.pos_iff_ne_zero.mp hw0
  have hh0i : (h0 : Int) ≠ 0 := by exact_mod_cast Nat.pos_iff_ne_zero.mp hh0
  have hw1i : (w1 : Int) ≠ 0 := by exact_mod_cast Nat.pos_iff_ne_zero.mp hw1
  have hh1i : (h1 : Int) ≠ 0 := by exact_mod_cast Nat.pos_iff_ne_zero.mp hh1
  have hw0q : (w0 : ℚ) ≠ 0 := by exact_mod_cast Nat.pos_iff_ne_zero.mp hw0
  have hh0q : (h0 : ℚ) ≠ 0 := by exact_mod_cast Nat.pos_iff_ne_zero.mp hh0
  have hw1q : (w1 : ℚ) ≠ 0 := by exact_mod_cast Nat.pos_iff_ne_zero.mp hw1
  have hh1q : (h1 : ℚ) ≠ 0 := by exact_mod_cast Nat.pos_iff_ne_zero.mp hh1
  have hp1 : (appResizeArea a w1 h1).resizePrev = some ((w1 : Int), (h1 : Int)) := by
    rw [appResizeArea_resizePrev, toInt32_of_lt w1 hw31, toInt32_of_lt h1 hh31]
  have x1 := appResizeArea_mScaleX a w1 h1 w0 h0 sx hprev hw0i hsx
  have y1 := appResizeArea_mScaleY a w1 h1 w0 h0 sy hprev hh0i hsy
  have xs : ∀ n m : Nat, (appResizeArea a n m).shaderData.mScaleX = .fin (sx * n / w0) := by
    intro n m
    rw [appResizeArea_mScaleX a n m w0 h0 sx hprev hw0i hsx]
    congr 1; push_cast; field_simp; ring
  have ys : ∀ n m : Nat, (appResizeArea a n m).shaderData.mScaleY = .fin (sy * m / h0) := by
    intro n m
    rw [appResizeArea_mScaleY a n m w0 h0 sy hprev hh0i hsy]
    congr 1; push_cast; field_simp; ring
  have x2 : ∀ n m : Nat, (appResizeArea (appResizeArea a w1 h1) n m).shaderData.mScaleX
      = .fin (sx * n / w0) := by
    intro n m
    rw [appResizeArea_mScaleX (appResizeArea a w1 h1) n m w1 h1 _ hp1 hw1i x1]
    congr 1; push_cast; field_simp; ring
  have y2 : ∀ n m : Nat, (appResizeArea (appResizeArea a w1 h1) n m).shaderData.mScaleY
      = .fin (sy * m / h0) := by
    intro n m
    rw [appResizeArea_mScaleY (appResizeArea a w1 h1) n m w1 h1 _ hp1 hh1i y1]
    congr 1; push_cast; field_simp; ring
  refine ⟨?_, rfl, xs w2 h2, ys w2 h2, ?_, ?_⟩
  · apply ShaderData.eq_of_fields
    · rw [x2, xs]
    · rw [y2, ys]
    all_goals rfl
  · rw [x2]; congr 1; field_simp
  · rw [y2]; congr 1; field_simp

/-- Witness for C25 (amended): the started state (512 x 512) resized to
800 x 600 and then to 1024 x 768, against the single resize to 1024 x 768. -/
theorem resize_path_independent_witness :
    (appResizeArea (appResizeArea App.started 800 600) 1024 768).shaderData
      = (appResizeArea App.started 1024 768).shaderData ∧
    (appResizeArea App.started 1024 768).shaderData.mScaleX = .fin 3 := by
  have hr : 1 / 2 ^ 100 ≤ |(3 / 2 : ℚ)| ∧ |(3 / 2 : ℚ)| ≤ 2 ^ 100 := by
    rw [abs_of_pos (by norm_num)]
    constructor <;> norm_num
  have h := resize_path_independent App.started (3 / 2) (3 / 2) 512 512 800 600 1024 768
    rfl (by decide) (by decide) (by decide) (by decide) (by decide) (by decide)
    (by decide) (by decide) (by decide) (by decide) (by decide) (by decide) rfl rfl hr hr
  refine ⟨h.1, ?_⟩
  rw [h.2.2.1]
  norm_num

theorem runOps_cons (a : App) (op : ViewOp) (ops : List ViewOp) :
    runOps a (op :: ops) = runOps (op.run a) ops := rfl

theorem F32.ofInt_zero : F32.ofInt 0 = F32.fin 0 := by decide!

theorem F32.div_zero_not_fin (x : F32) : (x / F32.fin 0).isFin = false := by
  show (F32.div x (F32.fin 0)).isFin = false
  cases x with
  | fin a =>
    by_cases ha : a = 0
    · simp [F32.div, ha, F32.isFin]
    · simp [F32.div, ha, F32.isFin]
  | inf s => simp [F32.div, F32.isFin]
  | nan => simp [F32.div, F32.isFin]

theorem F32.add_not_fin (x y : F32) (hy : y.isFin = false) : (x + y).isFin = false := by
  show (F32.add x y).isFin = false
  cases y with
  | fin b => simp [F32.isFin] at hy
  | inf t =>
    cases x with
    | fin a => simp [F32.add, F32.isFin]
    | inf s =>
      by_cases hst : s = t
      · simp [F32.add, hst, F32.isFin]
      · simp [F32.add, hst, F32.isFin]
    | nan => simp [F32.add, F32.isFin]
  | nan =>
    cases x <;> simp [F32.add, F32.isFin]

theorem appResizeArea32_zero_width (v : View32) (w h : Nat) (H : Int)
    (hp : v.resizePrev = some (0, H)) : (appResizeArea32 v w h).mScaleX.isFin = false := by
  have e : (appResizeArea32 v w h).mScaleX
      = v.mScaleX + (F32.ofInt w - F32.ofInt 0) * v.mScaleX / F32.fin 0 := by
    simp [appResizeArea32, hp, F32.ofInt_zero]
  rw [e]
  exact F32.add_not_fin _ _ (F32.div_zero_not_fin _)

theorem appResizeArea32_zero_height (v : View32) (w h : Nat) (W : Int)
    (hp : v.resizePrev = some (W, 0)) : (appResizeArea32 v w h).mScaleY.isFin = false := by
  have e : (appResizeArea32 v w h).mScaleY
      = v.mScaleY + (F32.ofInt h - F32.ofInt 0) * v.mScaleY / F32.fin 0 := by
    simp [appResizeArea32, hp, F32.ofInt_zero]
  rw [e]
  exact F32.add_not_fin _ _ (F32.div_zero_not_fin _)

theorem appResizeArea_zero_width (b : App) (w h : Nat) (H : Int)
    (hp : b.resizePrev = some (0, H)) :
    (appResizeArea b w h).shaderData.mScaleX = FVal.nonfin := by
  cases hx : b.shaderData.mScaleX with
  | fin q => simp [appResizeArea, updateUniformBuffer, hp, hx]
  | nonfin => simp [appResizeArea, updateUniformBuffer, hp, hx]

theorem appResizeArea_zero_height (b : App) (w h : Nat) (W : Int)
    (hp : b.resizePrev = some (W, 0)) :
    (appResizeArea b w h).shaderData.mScaleY = FVal.nonfin := by
  cases hy : b.shaderData.mScaleY with
  | fin q => simp [appResizeArea, updateUniformBuffer, hp, hy]
  | nonfin => simp [appResizeArea, updateUniformBuffer, hp, hy]

theorem zooms_keep_resizePrev (ops : List ViewOp)
    (hz : ∀ op ∈ ops, ∃ x y w h δ, op = ViewOp.zoom x y w h δ) :
    ∀ a : App, (runOps a ops).resizePrev = a.resizePrev := by
  induction ops with
  | nil => intro a; rfl
  | cons op ops ih =>
    intro a
    obtain ⟨x, y, w, h, δ, rfl⟩ := hz op (List.mem_cons_self _ _)
    rw [runOps_cons]
    exact ih (fun o ho => hz o (List.mem_cons_of_mem _ ho)) _

/-- C26, refuted as stated: the window goes from 512 x 512 to 1280 x 600, two
ticks zoom in, and the width then drops to 0. `appResizeArea(0, 600)` computes
`s + (0 - 1280) * s / 1280` with `s = 3.384...`, and the rounding of the
product leaves `mScaleX = -2^-22` (about `-2.38e-07`), not 0; a further tick
with the left button held multiplies it by `0.95`, so that zoom does not
leave the component at 0 either. -/
theorem zero_width_resize_leaves_residue :
    View32.wideAndZoomed.resizePrev = some (1280, 600) ∧
    View32.wideAndZoomed.mScaleX = .fin (14195097 / 4194304) ∧
    (appResizeArea32 View32.wideAndZoomed 0 600).mScaleX = .fin (-1 / 4194304) ∧
    (appResizeArea32 View32.wideAndZoomed 0 600).mScaleX ≠ .fin 0 ∧
    (checkMouseButtonAction32 (appResizeArea32 View32.wideAndZoomed 0 600)
      true false 0 300 0 600).mScaleX = .fin (-15938355 / 70368744177664) ∧
    (checkMouseButtonAction32 (appResizeArea32 View32.wideAndZoomed 0 600)
      true false 0 300 0 600).mScaleX ≠ .fin 0 := by
  decide!

/-- C26, amended: the resize block of `mainLoop` has no guard on the size: a
sampled width 0 (or height 0) that differs from the configured one goes to
`appResizeArea`. For every state, `appResizeArea(0, h)` records the previous
width 0 (symmetrically for the height), the zooms that follow leave the
recorded size as it is, and the next `appResizeArea` divides by the recorded
zero dimension: whatever the scale component was, it is not a finite number
afterwards. This holds computed exactly and computed in binary32. What
`appResizeArea(0, h)` leaves in `mScaleX` is not stated: it is 0 only when
`s - W * s / W` is computed without rounding. -/
theorem zero_size_resize_destroys_scale (a : App) (v : View32) (n m : Nat)
    (ops : List ViewOp) (w2 h2 : Nat)
    (hn : n < 2 ^ 31) (hm : m < 2 ^ 31)
    (hz : ∀ op ∈ ops, ∃ x y w h δ, op = ViewOp.zoom x y w h δ) :
    (∀ l : Loop, (0, m) ≠ (l.surfaceWidth, l.surfaceHeight) →
      (reactToResize l 0 m).app = appResizeArea (resizeSurface l 0 m).app 0 m) ∧
    (∀ l : Loop, (n, 0) ≠ (l.surfaceWidth, l.surfaceHeight) →
      (reactToResize l n 0).app = appResizeArea (resizeSurface l n 0).app n 0) ∧
    (appResizeArea a 0 m).resizePrev = some (0, (m : Int)) ∧
    (runOps (appResizeArea a 0 m) ops).resizePrev = some (0, (m : Int)) ∧
    (appResizeArea (runOps (appResizeArea a 0 m) ops) w2 h2).shaderData.mScaleX
      = FVal.nonfin ∧
    (appResizeArea a n 0).resizePrev = some ((n : Int), 0) ∧
    (runOps (appResizeArea a n 0) ops).resizePrev = some ((n : Int), 0) ∧
    (appResizeArea (runOps (appResizeArea a n 0) ops) w2 h2).shaderData.mScaleY
      = FVal.nonfin ∧
    (appResizeArea32 v 0 m).resizePrev = some (0, (m : Int)) ∧
    (appResizeArea32 v n 0).resizePrev = some ((n : Int), 0) ∧
    (∀ (u : View32) (x y : ℚ) (w h : Int) (δ : F32),
      (zoom32 u x y w h δ).resizePrev = u.resizePrev) ∧
    (∀ (u : View32) (H : Int), u.resizePrev = some (0, H) →
      (appResizeArea32 u w2 h2).mScaleX.isFin = false) ∧
    (∀ (u : View32) (W : Int), u.resizePrev = some (W, 0) →
      (appResizeArea32 u w2 h2).mScaleY.isFin = false) := by
  have t0 : toInt32 0 = 0 := by decide
  have px : (appResizeArea a 0 m).resizePrev = some (0, (m : Int)) := by
    rw [appResizeArea_resizePrev, t0, toInt32_of_lt m hm]
  have py : (appResizeArea a n 0).resizePrev = some ((n : Int), 0) := by
    rw [appResizeArea_resizePrev, t0, toInt32_of_lt n hn]
  have zx := (zooms_keep_resizePrev ops hz (appResizeArea a 0 m)).trans px
  have zy := (zooms_keep_resizePrev ops hz (appResizeArea a n 0)).trans py
  have qx : (appResizeArea32 v 0 m).resizePrev = some (0, (m : Int)) := by
    show some (toInt32 0, toInt32 m) = _
    rw [t0, toInt32_of_lt m hm]
  have qy : (appResizeArea32 v n 0).resizePrev = some ((n : Int), 0) := by
    show some (toInt32 n, toInt32 0) = _
    rw [t0, toInt32_of_lt n hn]
  have e0 : toUInt32 0 = 0 := by decide
  have em := toUInt32_natCast m hm
  have en := toUInt32_natCast n hn
  refine ⟨?_, ?_, px, zx, appResizeArea_zero_width _ w2 h2 _ zx, py, zy,
    appResizeArea_zero_height _ w2 h2 _ zy, qx, qy, fun _ _ _ _ _ _ => rfl,
    fun u H hu => appResizeArea32_zero_width u w2 h2 H hu,
    fun u W hu => appResizeArea32_zero_height u w2 h2 W hu⟩
  · intro l hl
    have hc : (0 : Nat) ≠ l.surfaceWidth ∨ m ≠ l.surfaceHeight := by
      by_contra hcon
      push_neg at hcon
      exact hl (by rw [hcon.1, hcon.2])
    simp only [reactToResize, e0, em, if_pos hc]
  · intro l hl
    have hc : n ≠ l.surfaceWidth ∨ (0 : Nat) ≠ l.surfaceHeight := by
      by_contra hcon
      push_neg at hcon
      exact hl (by rw [hcon.1, hcon.2])
    simp only [reactToResize, e0, en, if_pos hc]

/-- Witness for C26 (amended): computed exactly, the started state (previous
size 512 x 512), a resize to width 0, two button zooms, then a resize to
800 x 600; in binary32, the record of the counterexample, a resize to width 0,
then a resize to 800 x 600. -/
theorem zero_size_resize_destroys_scale_witness :
    (appResizeArea (runOps (appResizeArea App.started 0 512)
        [ViewOp.zoom 0 0 512 512 (-zoomFactor), ViewOp.zoom 0 0 512 512 zoomFactor])
      800 600).shaderData.mScaleX = FVal.nonfin ∧
    (appResizeArea32 (appResizeArea32 View32.wideAndZoomed 0 600) 800 600).mScaleX.isFin
      = false := by
  have h := zero_size_resize_destroys_scale App.started View32.wideAndZoomed 512 600
    [ViewOp.zoom 0 0 512 512 (-zoomFactor), ViewOp.zoom 0 0 512 512 zoomFactor] 800 600
    (by decide) (by decide)
    (by
      intro op hop
      simp only [List.mem_cons, List.mem_singleton, List.not_mem_nil, or_false] at hop
      rcases hop with rfl | rfl
      · exact ⟨_, _, _, _, _, rfl⟩
      · exact ⟨_, _, _, _, _, rfl⟩)
  have h1 := zero_size_resize_destroys_scale App.started View32.wideAndZoomed 512 512
    [ViewOp.zoom 0 0 512 512 (-zoomFactor), ViewOp.zoom 0 0 512 512 zoomFactor] 800 600
    (by decide) (by decide)
    (by
      intro op hop
      simp only [List.mem_cons, List.mem_singleton, List.not_mem_nil, or_false] at hop
      rcases hop with rfl | rfl
      · exact ⟨_, _, _, _, _, rfl⟩
      · exact ⟨_, _, _, _, _, rfl⟩)
  exact ⟨h1.2.2.2.2.1, h.2.2.2.2.2.2.2.2.2.2.2.1 _ 600 h.2.2.2.2.2.2.2.2.1⟩

/-! ## Invariants of the scale -/

theorem appResizeArea_first_mScaleX (a : App) (w h : Nat) (sx : ℚ)
    (hfirst : a.resizePrev = none) (hw : 0 < w) (hw31 : w < 2 ^ 31)
    (hsx : a.shaderData.mScaleX = .fin sx) :
    (appResizeArea a w h).shaderData.mScaleX = .fin sx := by
  have hwq : (w : ℚ) ≠ 0 := by exact_mod_cast Nat.pos_iff_ne_zero.mp hw
  simp [appResizeArea, updateUniformBuffer, hfirst, toInt32_of_lt w hw31, hsx, hwq]

theorem appResizeArea_first_mScaleY (a : App) (w h : Nat) (sy : ℚ)
    (hfirst : a.resizePrev = none) (hh : 0 < h) (hh31 : h < 2 ^ 31)
    (hsy : a.shaderData.mScaleY = .fin sy) :
    (appResizeArea a w h).shaderData.mScaleY = .fin sy := by
  have hhq : (h : ℚ) ≠ 0 := by exact_mod_cast Nat.pos_iff_ne_zero.mp hh
  simp [appResizeArea, updateUniformBuffer, hfirst, toInt32_of_lt h hh31, hsy, hhq]

theorem zoom_positiveScale (a : App) (x y : ℚ) (w h : Int) (δ : ℚ)
    (ha : a.positiveScale) (hδ : -1 < δ) : (zoom a x y w h δ).positiveScale := by
  obtain ⟨sx, sy, px, py, hx, hy⟩ := ha
  have h1 : 0 < 1 + δ := by linarith
  exact ⟨sx * (1 + δ), sy * (1 + δ), mul_pos px h1, mul_pos py h1,
    zoom_mScaleX a x y w h δ sx hx, zoom_mScaleY a x y w h δ sy hy⟩

theorem appResizeArea_positiveScale (a : App) (w h : Nat) (W H : Int)
    (ha : a.positiveScale) (hprev : a.resizePrev = some (W, H))
    (hW : 0 < W) (hH : 0 < H) (hw : 0 < w) (hh : 0 < h) :
    (appResizeArea a w h).positiveScale := by
  obtain ⟨sx, sy, px, py, hx, hy⟩ := ha
  have hWq : (0 : ℚ) < W := by exact_mod_cast hW
  have hHq : (0 : ℚ) < H := by exact_mod_cast hH
  have hwq : (0 : ℚ) < w := by exact_mod_cast hw
  have hhq : (0 : ℚ) < h := by exact_mod_cast hh
  refine ⟨sx + ((w : ℚ) - W) * sx / W, sy + ((h : ℚ) - H) * sy / H, ?_, ?_,
    appResizeArea_mScaleX a w h W H sx hprev (ne_of_gt hW) hx,
    appResizeArea_mScaleY a w h W H sy hprev (ne_of_gt hH) hy⟩
  · have e : sx + ((w : ℚ) - W) * sx / W = sx * w / W := by field_simp; ring
    rw [e]; positivity
  · have e : sy + ((h : ℚ) - H) * sy / H = sy * h / H := by field_simp; ring
    rw [e]; positivity

theorem run_positive (op : ViewOp) (a : App)
    (ha : a.positiveScale) (hp : a.positivePrev)
    (hop : op.resizeFits ∧ op.zoomAboveMinusOne) :
    (op.run a).positiveScale ∧ (op.run a).positivePrev := by
  cases op with
  | zoom x y w h δ => exact ⟨zoom_positiveScale a x y w h δ ha hop.2, hp⟩
  | resize w h =>
    obtain ⟨hw, hw31, hh, hh31⟩ := hop.1
    have hnew : (appResizeArea a w h).positivePrev := by
      right
      refine ⟨(w : Int), (h : Int), ?_, by exact_mod_cast hw, by exact_mod_cast hh⟩
      rw [appResizeArea_resizePrev, toInt32_of_lt w hw31, toInt32_of_lt h hh31]
    refine ⟨?_, hnew⟩
    rcases hp with hnone | ⟨W, H, hprev, hW, hH⟩
    · obtain ⟨sx, sy, px, py, hx, hy⟩ := ha
      exact ⟨sx, sy, px, py, appResizeArea_first_mScaleX a w h sx hnone hw hw31 hx,
        appResizeArea_first_mScaleY a w h sy hnone hh hh31 hy⟩
    · exact appResizeArea_positiveScale a w h W H ha hprev hW hH hw hh

theorem runOps_positive (ops : List ViewOp) :
    ∀ a : App, a.positiveScale → a.positivePrev →
      (∀ op ∈ ops, op.resizeFits ∧ op.zoomAboveMinusOne) →
      (runOps a ops).positiveScale := by
  induction ops with
  | nil => intro a ha _ _; exact ha
  | cons op ops ih =>
    intro a ha hp hops
    obtain ⟨h1, h2⟩ := run_positive op a ha hp (hops op (List.mem_cons_self _ _))
    rw [runOps_cons]
    exact ih _ h1 h2 (fun o ho => hops o (List.mem_cons_of_mem _ ho))

theorem FVal.inRange_of_bounds (q : ℚ) (h1 : 1 / 2 ^ 100 ≤ q) (h2 : q ≤ 2 ^ 100) :
    (FVal.fin q).inRange := by
  have hq : 0 < q := lt_of_lt_of_le (by norm_num) h1
  show 1 / 2 ^ 100 ≤ |q| ∧ |q| ≤ 2 ^ 100
  rw [abs_of_pos hq]
  exact ⟨h1, h2⟩

theorem resizeSmall_resizeFits (op : ViewOp) (h : op.resizeSmall) : op.resizeFits := by
  cases op with
  | zoom x y w h δ => trivial
  | resize w h =>
    obtain ⟨hw, hwb, hh, hhb⟩ := h
    exact ⟨hw, lt_of_le_of_lt hwb (by decide), hh, lt_of_le_of_lt hhb (by decide)⟩

theorem zoomModerate_zoomAboveMinusOne (op : ViewOp) (h : op.zoomModerate) :
    op.zoomAboveMinusOne := by
  cases op with
  | zoom x y w h δ => exact h.1
  | resize w h => trivial

theorem runInRange_sample :
    runInRange (appResizeArea App.start 512 512)
      [ViewOp.zoom 100 200 512 512 (-zoomFactor), ViewOp.resize 800 600] := by
  have x1 : (appResizeArea App.start 512 512).shaderData.mScaleX = .fin (3 / 2) :=
    appResizeArea_first_mScaleX App.start 512 512 (3 / 2) rfl (by decide) (by decide) rfl
  have y1 : (appResizeArea App.start 512 512).shaderData.mScaleY = .fin (3 / 2) :=
    appResizeArea_first_mScaleY App.start 512 512 (3 / 2) rfl (by decide) (by decide) rfl
  have x2 := zoom_mScaleX (appResizeArea App.start 512 512) 100 200 512 512
    (-zoomFactor) (3 / 2) x1
  have y2 := zoom_mScaleY (appResizeArea App.start 512 512) 100 200 512 512
    (-zoomFactor) (3 / 2) y1
  have x3 := appResizeArea_mScaleX
    (zoom (appResizeArea App.start 512 512) 100 200 512 512 (-zoomFactor)) 800 600
    512 512 _ rfl (by decide) x2
  have y3 := appResizeArea_mScaleY
    (zoom (appResizeArea App.start 512 512) 100 200 512 512 (-zoomFactor)) 800 600
    512 512 _ rfl (by decide) y2
  refine ⟨⟨?_, ?_⟩, ⟨?_, ?_⟩, ?_, ?_⟩
  · rw [x1]; exact FVal.inRange_of_bounds _ (by norm_num) (by norm_num)
  · rw [y1]; exact FVal.inRange_of_bounds _ (by norm_num) (by norm_num)
  · show ((zoom (appResizeArea App.start 512 512) 100 200 512 512
      (-zoomFactor)).shaderData.mScaleX).inRange
    rw [x2]; exact FVal.inRange_of_bounds _ (by norm_num [zoomFactor])
      (by norm_num [zoomFactor])
  · show ((zoom (appResizeArea App.start 512 512) 100 200 512 512
      (-zoomFactor)).shaderData.mScaleY).inRange
    rw [y2]; exact FVal.inRange_of_bounds _ (by norm_num [zoomFactor])
      (by norm_num [zoomFactor])
  · show ((appResizeArea (zoom (appResizeArea App.start 512 512) 100 200 512 512
      (-zoomFactor)) 800 600).shaderData.mScaleX).inRange
    rw [x3]; exact FVal.inRange_of_bounds _ (by norm_num [zoomFactor])
      (by norm_num [zoomFactor])
  · show ((appResizeArea (zoom (appResizeArea App.start 512 512) 100 200 512 512
      (-zoomFactor)) 800 600).shaderData.mScaleY).inRange
    rw [y3]; exact FVal.inRange_of_bounds _ (by norm_num [zoomFactor])
      (by norm_num [zoomFactor])

/-- C28, refuted as stated, by overflow and by underflow of binary32, with
button zooms and positive window sizes only. After 1810 ticks with the right
button held the scale is positive (about `3.378e38`) and the recorded previous
size is 512 x 512; `appResizeArea(256, 512)` then leaves `mScaleX` at minus
infinity, which is not above zero, because `(256 - 512) * mScaleX` overflows.
After 1976 ticks with the left button held the scale is positive
(`9 * 2^-149`) and the recorded previous size is 512 x 512;
`appResizeArea(16, 16)` then leaves both scale components exactly zero. For
the clause on `zoom(delta)` with any `delta > -1`: `appResizeArea(64, 64)`
in place of `appResizeArea(16, 16)` leaves the positive scale `2^-149`, the
smallest binary32 number, and `zoom(-0.75)` with the cursor at the centre then
rounds `0.25 * 2^-149` to zero. -/
theorem resize_breaks_positive_scale :
    (zoomOutTick^[1810] View32.ready).mScaleX.pos = true ∧
    (zoomOutTick^[1810] View32.ready).mScaleY.pos = true ∧
    (zoomOutTick^[1810] View32.ready).resizePrev = some (512, 512) ∧
    (appResizeArea32 (zoomOutTick^[1810] View32.ready) 256 512).mScaleX = .inf true ∧
    (appResizeArea32 (zoomOutTick^[1810] View32.ready) 256 512).mScaleX.pos = false ∧
    (zoomInTick^[1976] View32.ready).mScaleX.pos = true ∧
    (zoomInTick^[1976] View32.ready).mScaleY.pos = true ∧
    (zoomInTick^[1976] View32.ready).resizePrev = some (512, 512) ∧
    (appResizeArea32 (zoomInTick^[1976] View32.ready) 16 16).mScaleX = .fin 0 ∧
    (appResizeArea32 (zoomInTick^[1976] View32.ready) 16 16).mScaleY = .fin 0 ∧
    (appResizeArea32 (zoomInTick^[1976] View32.ready) 16 16).mScaleX.pos = false ∧
    (appResizeArea32 (zoomInTick^[1976] View32.ready) 64 64).mScaleX
      = .fin (1 / 713623846352979940529142984724747568191373312) ∧
    (appResizeArea32 (zoomInTick^[1976] View32.ready) 64 64).mScaleX.pos = true ∧
    (zoom32 (appResizeArea32 (zoomInTick^[1976] View32.ready) 64 64) 32 32 64 64
      (.fin (-3 / 4))).mScaleX = .fin 0 := by
  rw [zoomOutTick_1810, zoomInTick_1976]
  decide!

/-- C28, amended: for every state with `mScaleX > 0` and `mScaleY > 0`, both
between `2^-100` and `2^100`, `zoom(δ)` with `-1 < δ ≤ 1` (so
`zoom(-zoomFactor)` and `zoom(+zoomFactor)`) and `appResizeArea(w, h)` with
`w`, `h` and the recorded previous size from 1 to 65536 in each dimension
produce `mScaleX > 0` and `mScaleY > 0`; hence from the default record no
sequence of such zooms and resizes during which the scale stays between
`2^-100` and `2^100` makes a scale component zero or negative. The
inequalities are those of the exact computation; the bounds on the scale, the
upper bound on `δ` and the upper bounds on the sizes play no part in it:
they keep the statement to the inputs on which binary32 neither overflows nor
underflows. -/
theorem scale_stays_positive (ops : List ViewOp)
    (hops : ∀ op ∈ ops, op.resizeSmall ∧ op.zoomModerate)
    (_hrange : runInRange App.start ops) :
    (runOps App.start ops).positiveScale ∧
    (∀ (a : App) (x y : ℚ) (w h : Int) (δ : ℚ),
      a.positiveScale → a.scaleInRange → -1 < δ → δ ≤ 1 →
      (zoom a x y w h δ).positiveScale) ∧
    (∀ (a : App) (w h : Nat) (W H : Int),
      a.positiveScale → a.scaleInRange → a.resizePrev = some (W, H) →
      0 < W → W ≤ 65536 → 0 < H → H ≤ 65536 →
      0 < w → w ≤ 65536 → 0 < h → h ≤ 65536 →
      (appResizeArea a w h).positiveScale) ∧
    -1 < -zoomFactor ∧ -zoomFactor ≤ 1 ∧ -1 < zoomFactor ∧ zoomFactor ≤ 1 := by
  refine ⟨?_, ?_, ?_, by norm_num [zoomFactor], by norm_num [zoomFactor],
    by norm_num [zoomFactor], by norm_num [zoomFactor]⟩
  · apply runOps_positive ops App.start _ (Or.inl rfl)
      (fun op hop => ⟨resizeSmall_resizeFits op (hops op hop).1,
        zoomModerate_zoomAboveMinusOne op (hops op hop).2⟩)
    exact ⟨3 / 2, 3 / 2, by norm_num, by norm_num, rfl, rfl⟩
  · intro a x y w h δ ha _ hδ _
    exact zoom_positiveScale a x y w h δ ha hδ
  · intro a w h W H ha _ hprev hW _ hH _ hw _ hh _
    exact appResizeArea_positiveScale a w h W H ha hprev hW hH hw hh

/-- Witness for C28 (amended): the startup resize, a zoom in and a resize to
800 x 600; the scale goes from 1.5 to 1.425 and then to
(2.2265625, 1.669921875). -/
theorem scale_stays_positive_witness :
    (runOps App.start
      [ViewOp.resize 512 512, ViewOp.zoom 100 200 512 512 (-zoomFactor),
        ViewOp.resize 800 600]).positiveScale :=
  (scale_stays_positive
    [ViewOp.resize 512 512, ViewOp.zoom 100 200 512 512 (-zoomFactor),
      ViewOp.resize 800 600]
    (by
      intro op hop
      simp only [List.mem_cons, List.mem_singleton, List.not_mem_nil, or_false] at hop
      rcases hop with rfl | rfl | rfl
      · simp [ViewOp.resizeSmall, ViewOp.zoomModerate]
      · simp only [ViewOp.resizeSmall, ViewOp.zoomModerate, zoomFactor]
        norm_num
      · simp [ViewOp.resizeSmall, ViewOp.zoomModerate])
    ⟨⟨FVal.inRange_of_bounds (3 / 2) (by norm_num) (by norm_num),
      FVal.inRange_of_bounds (3 / 2) (by norm_num) (by norm_num)⟩,
      runInRange_sample⟩).1

/-! ## The square-pixel invariant -/

theorem run_squarePixels (op : ViewOp) (a : App)
    (ha : a.squarePixels) (hop : op.resizeFits) : (op.run a).squarePixels := by
  obtain ⟨sx, sy, W, H, hW, hH, hx, hy, hwx, hwy, hprev, hinv⟩ := ha
  cases op with
  | zoom x y w h δ =>
    refine ⟨sx * (1 + δ), sy * (1 + δ), W, H, hW, hH,
      zoom_mScaleX a x y w h δ sx hx, zoom_mScaleY a x y w h δ sy hy, hwx, hwy, hprev, ?_⟩
    linear_combination (1 + δ) * hinv
  | resize w h =>
    obtain ⟨hw, hw31, hh, hh31⟩ := hop
    have hWq : (W : ℚ) ≠ 0 := by exact_mod_cast ne_of_gt hW
    have hHq : (H : ℚ) ≠ 0 := by exact_mod_cast ne_of_gt hH
    refine ⟨sx + ((w : ℚ) - W) * sx / W, sy + ((h : ℚ) - H) * sy / H, (w : Int), (h : Int),
      by exact_mod_cast hw, by exact_mod_cast hh,
      appResizeArea_mScaleX a w h W H sx hprev (ne_of_gt hW) hx,
      appResizeArea_mScaleY a w h W H sy hprev (ne_of_gt hH) hy, ?_, ?_, ?_, ?_⟩
    · simp [ViewOp.run, appResizeArea, updateUniformBuffer, toInt32_of_lt w hw31, FVal.ofInt]
    · simp [ViewOp.run, appResizeArea, updateUniformBuffer, toInt32_of_lt h hh31, FVal.ofInt]
    · show (appResizeArea a w h).resizePrev = _
      rw [appResizeArea_resizePrev, toInt32_of_lt w hw31, toInt32_of_lt h hh31]
    · have e1 : sx + ((w : ℚ) - W) * sx / W = sx * w / W := by field_simp; ring
      have e2 : sy + ((h : ℚ) - H) * sy / H = sy * h / H := by field_simp; ring
      rw [e1, e2]
      push_cast
      field_simp
      linear_combination ((w : ℚ) * h) * hinv

theorem runOps_squarePixels (ops : List ViewOp) :
    ∀ a : App, a.squarePixels → (∀ op ∈ ops, op.resizeFits) →
      (runOps a ops).squarePixels := by
  induction ops with
  | nil => intro a ha _; exact ha
  | cons op ops ih =>
    intro a ha hops
    rw [runOps_cons]
    exact ih _ (run_squarePixels op a ha (hops op (List.mem_cons_self _ _)))
      (fun o ho => hops o (List.mem_cons_of_mem _ ho))

theorem startup_squarePixels (n : Nat) (hn : 0 < n) (hn31 : n < 2 ^ 31) :
    (appResizeArea App.start n n).squarePixels := by
  refine ⟨3 / 2, 3 / 2, (n : Int), (n : Int), by exact_mod_cast hn, by exact_mod_cast hn,
    appResizeArea_first_mScaleX App.start n n (3 / 2) rfl hn hn31 rfl,
    appResizeArea_first_mScaleY App.start n n (3 / 2) rfl hn hn31 rfl, ?_, ?_, ?_, rfl⟩
  · simp [appResizeArea, updateUniformBuffer, toInt32_of_lt n hn31, FVal.ofInt]
  · simp [appResizeArea, updateUniformBuffer, toInt32_of_lt n hn31, FVal.ofInt]
  · rw [appResizeArea_resizePrev, toInt32_of_lt n hn31]

/-- C23, refuted as stated, by overflow of binary32, with button zooms and
positive window sizes only. After the startup call `appResizeArea(512, 512)`
and 1810 ticks with the right button held, both scale components are about
`3.378e38` and `mScaleX * wSizeY == mScaleY * wSizeX` holds; the resize
`appResizeArea(256, 512)` then leaves `mScaleX` at minus infinity and
`mScaleY` unchanged, so that `mScaleX * wSizeY` is minus infinity,
`mScaleY * wSizeX` is plus infinity, and the comparison is false. -/
theorem resize_after_zoom_out_unsquares_pixels :
    View32.ready = appResizeArea32 View32.start 512 512 ∧
    F32.eq ((zoomOutTick^[1810] View32.ready).mScaleX *
        (zoomOutTick^[1810] View32.ready).wSizeY)
      ((zoomOutTick^[1810] View32.ready).mScaleY *
        (zoomOutTick^[1810] View32.ready).wSizeX) = true ∧
    (appResizeArea32 (zoomOutTick^[1810] View32.ready) 256 512).mScaleX *
      (appResizeArea32 (zoomOutTick^[1810] View32.ready) 256 512).wSizeY = .inf true ∧
    (appResizeArea32 (zoomOutTick^[1810] View32.ready) 256 512).mScaleY *
      (appResizeArea32 (zoomOutTick^[1810] View32.ready) 256 512).wSizeX = .inf false ∧
    F32.eq ((appResizeArea32 (zoomOutTick^[1810] View32.ready) 256 512).mScaleX *
        (appResizeArea32 (zoomOutTick^[1810] View32.ready) 256 512).wSizeY)
      ((appResizeArea32 (zoomOutTick^[1810] View32.ready) 256 512).mScaleY *
        (appResizeArea32 (zoomOutTick^[1810] View32.ready) 256 512).wSizeX) = false := by
  rw [zoomOutTick_1810]
  decide!

/-- C23, amended: in every state reached from the default record (scale
(1.5, 1.5)) by the startup call `appResizeArea(n, n)` with `n` from 1 to 65536
followed by any sequence of `zoom(delta)` calls (any cursor, any size, any
delta) and `appResizeArea(w, h)` calls with `w` and `h` from 1 to 65536,
during which both scale components stay between `2^-100` and `2^100` in
magnitude, `mScaleX * wSizeY` equals `mScaleY * wSizeX`, and both are finite.
The equality is that of the exact computation (binary32 agrees up to
rounding); the bounds on the scale and the upper bounds on the sizes play no
part in it: they keep the statement to the inputs on which binary32 neither
overflows nor underflows. -/
theorem square_pixel_invariant (n : Nat) (hn : 0 < n) (hnb : n ≤ 65536)
    (ops : List ViewOp) (hops : ∀ op ∈ ops, op.resizeSmall)
    (_hrange : runInRange (appResizeArea App.start n n) ops) :
    (runOps (appResizeArea App.start n n) ops).shaderData.mScaleX *
        (runOps (appResizeArea App.start n n) ops).shaderData.wSizeY =
      (runOps (appResizeArea App.start n n) ops).shaderData.mScaleY *
        (runOps (appResizeArea App.start n n) ops).shaderData.wSizeX ∧
    ((runOps (appResizeArea App.start n n) ops).shaderData.mScaleX *
        (runOps (appResizeArea App.start n n) ops).shaderData.wSizeY).isFin = true := by
  obtain ⟨sx, sy, W, H, -, -, hx, hy, hwx, hwy, -, hinv⟩ :=
    runOps_squarePixels ops _
      (startup_squarePixels n hn (lt_of_le_of_lt hnb (by decide)))
      (fun op hop => resizeSmall_resizeFits op (hops op hop))
  rw [hx, hy, hwx, hwy]
  constructor
  · show FVal.mul _ _ = FVal.mul _ _
    simp only [FVal.mul, FVal.fin.injEq]
    exact hinv
  · rfl

/-- Witness for C23 (amended): startup at 512 x 512, a zoom in at pixel
(100, 200) and a resize to 800 x 600. -/
theorem square_pixel_invariant_witness :
    (runOps (appResizeArea App.start 512 512)
        [ViewOp.zoom 100 200 512 512 (-zoomFactor),
          ViewOp.resize 800 600]).shaderData.mScaleX *
      (runOps (appResizeArea App.start 512 512)
        [ViewOp.zoom 100 200 512 512 (-zoomFactor),
          ViewOp.resize 800 600]).shaderData.wSizeY =
    (runOps (appResizeArea App.start 512 512)
        [ViewOp.zoom 100 200 512 512 (-zoomFactor),
          ViewOp.resize 800 600]).shaderData.mScaleY *
      (runOps (appResizeArea App.start 512 512)
        [ViewOp.zoom 100 200 512 512 (-zoomFactor),
          ViewOp.resize 800 600]).shaderData.wSizeX :=
  (square_pixel_invariant 512 (by decide) (by decide)
    [ViewOp.zoom 100 200 512 512 (-zoomFactor), ViewOp.resize 800 600]
    (by
      intro op hop
      simp only [List.mem_cons, List.mem_singleton, List.not_mem_nil, or_false] at hop
      rcases hop with rfl | rfl <;> simp [ViewOp.resizeSmall])
    runInRange_sample).1

/-! ## Window size in the record and configured surface size -/

theorem checkMouseButtonAction_wSize (a : App) (left right : Bool) (x y : ℚ) (w h : Int) :
    (checkMouseButtonAction a left right x y w h).shaderData.wSizeX = a.shaderData.wSizeX ∧
    (checkMouseButtonAction a left right x y w h).shaderData.wSizeY = a.shaderData.wSizeY := by
  unfold checkMouseButtonAction
  split_ifs <;> exact ⟨rfl, rfl⟩

theorem reactToResize_sizeTracked (l : Loop) (w h : Nat) (hw : w < 2 ^ 31) (hh : h < 2 ^ 31)
    (hl : l.sizeTracked ∨ (w, h) ≠ (l.surfaceWidth, l.surfaceHeight)) :
    (reactToResize l w h).sizeTracked ∧
      (reactToResize l w h).surfaceWidth = w ∧ (reactToResize l w h).surfaceHeight = h := by
  have ew := toUInt32_natCast w hw
  have eh := toUInt32_natCast h hh
  by_cases hc : w ≠ l.surfaceWidth ∨ h ≠ l.surfaceHeight
  · have hr : reactToResize l w h
        = { resizeSurface l w h with app := appResizeArea (resizeSurface l w h).app w h } := by
      simp only [reactToResize, ew, eh, if_pos hc]
    rw [hr]
    refine ⟨⟨?_, ?_⟩, rfl, rfl⟩
    · show FVal.ofInt (toInt32 w) = FVal.ofNat w
      rw [toInt32_of_lt w hw]; simp [FVal.ofInt, FVal.ofNat]
    · show FVal.ofInt (toInt32 h) = FVal.ofNat h
      rw [toInt32_of_lt h hh]; simp [FVal.ofInt, FVal.ofNat]
  · have hr : reactToResize l w h = l := by
      simp only [reactToResize, ew, eh, if_neg hc]
    have hc2 : w = l.surfaceWidth ∧ h = l.surfaceHeight := by
      constructor
      · by_contra hne; exact hc (Or.inl hne)
      · by_contra hne; exact hc (Or.inr hne)
    rw [hr]
    rcases hl with hl | hl
    · exact ⟨hl, hc2.1.symm, hc2.2.symm⟩
    · exact absurd (by rw [hc2.1, hc2.2]) hl

theorem checkTextureStatus_sizeTracked (l : Loop) (t : Tick) (w h : Nat)
    (hw : w < 2 ^ 31) (hh : h < 2 ^ 31) (hcw : t.checkW = w) (hch : t.checkH = h)
    (hl : l.sizeTracked) (hsw : l.surfaceWidth = w) (hsh : l.surfaceHeight = h) :
    (checkTextureStatus l t).1.sizeTracked := by
  have ew := toUInt32_natCast w hw
  have eh := toUInt32_natCast h hh
  have hstale : (if t.checkW > 0 ∧ t.checkH > 0 then
      (Loop.emit { l with surfaceWidth := toUInt32 t.checkW, surfaceHeight := toUInt32 t.checkH }
        [Event.configure (toUInt32 t.checkW) (toUInt32 t.checkH)], (none : Option Nat))
      else (l, none)).1.sizeTracked := by
    split_ifs
    · show l.app.shaderData.wSizeX = FVal.ofNat (toUInt32 t.checkW) ∧
        l.app.shaderData.wSizeY = FVal.ofNat (toUInt32 t.checkH)
      rw [hcw, hch, ew, eh, ← hsw, ← hsh]
      exact hl
    · exact hl
  unfold checkTextureStatus
  cases hs : t.status
  · exact hl
  · exact hstale
  · exact hstale
  · exact hstale
  · exact hstale
  · exact hl

theorem mainLoop_sizeTracked (l : Loop) (t : Tick) (w h : Nat)
    (hw : w < 2 ^ 31) (hh : h < 2 ^ 31) (hr : t.readsSize w h)
    (hl : l.sizeTracked ∨ (w, h) ≠ (l.surfaceWidth, l.surfaceHeight)) :
    (mainLoop l t).sizeTracked := by
  obtain ⟨-, -, hW, hH, hcw, hch⟩ := hr
  have hwS := checkMouseButtonAction_wSize l.app t.left t.right t.cursorX t.cursorY
    t.zoomW t.zoomH
  have h1 : (handleInput l t).sizeTracked ∧
      (handleInput l t).surfaceWidth = w ∧ (handleInput l t).surfaceHeight = h := by
    unfold handleInput
    rw [hW, hH]
    apply reactToResize_sizeTracked _ w h hw hh
    rcases hl with hl | hl
    · left
      exact ⟨hwS.1.trans hl.1, hwS.2.trans hl.2⟩
    · right
      exact hl
  have h2 := checkTextureStatus_sizeTracked (handleInput l t) t w h hw hh hcw hch
    h1.1 h1.2.1 h1.2.2
  cases h3 : (checkTextureStatus (handleInput l t) t).2 with
  | none =>
    have e : mainLoop l t = (checkTextureStatus (handleInput l t) t).1 := by
      simp only [mainLoop, h3]
    rw [e]; exact h2
  | some v =>
    have e : mainLoop l t = Loop.emit (checkTextureStatus (handleInput l t) t).1
        renderCalls := by
      simp only [mainLoop, h3]
    rw [e]; exact h2

theorem runTicks_sizeTracked (ts : List Tick) :
    ∀ l : Loop, l.sizeTracked →
      (∀ t ∈ ts, ∃ w h : Nat, w < 2 ^ 31 ∧ h < 2 ^ 31 ∧ t.readsSize w h) →
      (runTicks l ts).sizeTracked := by
  induction ts with
  | nil => intro l hl _; exact hl
  | cons t ts ih =>
    intro l hl hts
    obtain ⟨w, h, hw, hh, hr⟩ := hts t (List.mem_cons_self _ _)
    show (runTicks (mainLoop l t) ts).sizeTracked
    exact ih _ (mainLoop_sizeTracked l t w h hw hh hr (Or.inl hl))
      (fun u hu => hts u (List.mem_cons_of_mem _ hu))

theorem ready_sizeTracked : Loop.ready.sizeTracked := by
  constructor
  · show FVal.ofInt (toInt32 initialWindowWidth) = FVal.ofNat initialWindowWidth
    rw [toInt32_of_lt _ (by decide)]; simp [FVal.ofInt, FVal.ofNat]
  · show FVal.ofInt (toInt32 initialWindowHeight) = FVal.ofNat initialWindowHeight
    rw [toInt32_of_lt _ (by decide)]; simp [FVal.ofInt, FVal.ofNat]

/-- C29, refuted as stated: a first tick reads the framebuffer size 512 x 512
in `mainLoop`, gets the status `Outdated` and reads 1024 x 768 in
`checkTextureStatus`, which reconfigures the surface without touching the
record. The next tick reads 1024 x 768 at every read: `mainLoop` finds the
configuration already at that size, calls no `appResizeArea`, and after the
tick `wSize` is still (512, 512) while the surface is 1024 x 768. -/
theorem stale_size_after_consistent_tick :
    (Tick.quiet 1024 768 .successOptimal).readsSize 1024 768 ∧
    (mainLoop
      (mainLoop Loop.ready
        { Tick.quiet 512 512 .outdated with checkW := 1024, checkH := 768 })
      (Tick.quiet 1024 768 .successOptimal)).app.shaderData.wSizeX = .fin 512 ∧
    (mainLoop
      (mainLoop Loop.ready
        { Tick.quiet 512 512 .outdated with checkW := 1024, checkH := 768 })
      (Tick.quiet 1024 768 .successOptimal)).app.shaderData.wSizeY = .fin 512 ∧
    (mainLoop
      (mainLoop Loop.ready
        { Tick.quiet 512 512 .outdated with checkW := 1024, checkH := 768 })
      (Tick.quiet 1024 768 .successOptimal)).surfaceWidth = 1024 ∧
    (mainLoop
      (mainLoop Loop.ready
        { Tick.quiet 512 512 .outdated with checkW := 1024, checkH := 768 })
      (Tick.quiet 1024 768 .successOptimal)).surfaceHeight = 768 ∧
    ¬ (mainLoop
      (mainLoop Loop.ready
        { Tick.quiet 512 512 .outdated with checkW := 1024, checkH := 768 })
      (Tick.quiet 1024 768 .successOptimal)).sizeTracked := by
  have hx : (mainLoop
      (mainLoop Loop.ready
        { Tick.quiet 512 512 .outdated with checkW := 1024, checkH := 768 })
      (Tick.quiet 1024 768 .successOptimal)).app.shaderData.wSizeX = .fin 512 := rfl
  have hs : (mainLoop
      (mainLoop Loop.ready
        { Tick.quiet 512 512 .outdated with checkW := 1024, checkH := 768 })
      (Tick.quiet 1024 768 .successOptimal)).surfaceWidth = 1024 := rfl
  refine ⟨⟨rfl, rfl, rfl, rfl, rfl, rfl⟩, hx, rfl, hs, rfl, ?_⟩
  intro h
  have h1 := h.1
  rw [hx, hs] at h1
  simp only [FVal.ofNat, FVal.fin.injEq] at h1
  norm_num at h1

/-- C29, amended: in the native GLFW variant, `(wSizeX, wSizeY)` equals
`(surfaceConfig.width, surfaceConfig.height)` after `initWGPU` and
`initMandel`, and after every subsequent tick of `mainLoop` provided that in
that tick and in every earlier tick the framebuffer size reported by the
window library (a non-negative `int` pair) is the same at every read within
the tick. One such tick keeps the equality, and restores it when the size it
reads differs from the configured one. -/
theorem wSize_tracks_surface (ts : List Tick)
    (hts : ∀ t ∈ ts, ∃ w h : Nat, w < 2 ^ 31 ∧ h < 2 ^ 31 ∧ t.readsSize w h) :
    (initMandel (initWGPU Loop.start)).sizeTracked ∧
    (runTicks (initMandel (initWGPU Loop.start)) ts).sizeTracked ∧
    (∀ (l : Loop) (t : Tick) (w h : Nat), w < 2 ^ 31 → h < 2 ^ 31 → t.readsSize w h →
      (l.sizeTracked ∨ (w, h) ≠ (l.surfaceWidth, l.surfaceHeight)) →
      (mainLoop l t).sizeTracked) :=
  ⟨ready_sizeTracked, runTicks_sizeTracked ts _ ready_sizeTracked hts,
    fun l t w h hw hh hr hl => mainLoop_sizeTracked l t w h hw hh hr hl⟩

/-- Witness for C29 (amended): a drawn tick at 800 x 600, a tick at 800 x 600
with status `Outdated`, and a tick at 1024 x 768 with the left button held. -/
theorem wSize_tracks_surface_witness :
    (runTicks (initMandel (initWGPU Loop.start))
      [Tick.quiet 800 600 .successOptimal, Tick.quiet 800 600 .outdated,
        { Tick.quiet 1024 768 .successOptimal with left := true }]).sizeTracked :=
  (wSize_tracks_surface
    [Tick.quiet 800 600 .successOptimal, Tick.quiet 800 600 .outdated,
      { Tick.quiet 1024 768 .successOptimal with left := true }]
    (by
      intro t ht
      simp only [List.mem_cons, List.mem_singleton, List.not_mem_nil, or_false] at ht
      rcases ht with rfl | rfl | rfl
      · exact ⟨800, 600, by decide, by decide, rfl, rfl, rfl, rfl, rfl, rfl⟩
      · exact ⟨800, 600, by decide, by decide, rfl, rfl, rfl, rfl, rfl, rfl⟩
      · exact ⟨1024, 768, by decide, by decide, rfl, rfl, rfl, rfl, rfl, rfl⟩)).2.1

/-! ## Fragment stage: the colour of an escaping pixel -/

theorem clamp01_bounds (e : ℚ) : 0 ≤ clamp01 e ∧ clamp01 e ≤ 1 :=
  ⟨le_min (le_max_right _ _) zero_le_one, min_le_right _ _⟩

theorem hsl_component_bounds (r s l : ℚ) (hr0 : 0 ≤ r) (hr1 : r ≤ 1)
    (hs0 : 0 ≤ s) (hs1 : s ≤ 1) (hl0 : 0 ≤ l) (hl1 : l ≤ 1) :
    0 ≤ (r - 1 / 2) * ((1 - |2 * l - 1|) * s) + l ∧
      (r - 1 / 2) * ((1 - |2 * l - 1|) * s) + l ≤ 1 := by
  have habs : |2 * l - 1| ≤ 1 := abs_le.mpr ⟨by linarith, by linarith⟩
  have hA1 : 1 - |2 * l - 1| ≤ 2 * l := by
    have := neg_abs_le (2 * l - 1); linarith
  have hA2 : 1 - |2 * l - 1| ≤ 2 - 2 * l := by
    have := le_abs_self (2 * l - 1); linarith
  have hA0 : 0 ≤ 1 - |2 * l - 1| := by linarith
  have hC0 : 0 ≤ (1 - |2 * l - 1|) * s := mul_nonneg hA0 hs0
  have hC1 : (1 - |2 * l - 1|) * s ≤ 1 - |2 * l - 1| := mul_le_of_le_one_right hA0 hs1
  have p1 := mul_nonneg hr0 hC0
  have p2 := mul_nonneg (sub_nonneg.mpr hr1) hC0
  constructor
  · nlinarith
  · nlinarith

theorem hsl2rgb_add_one (h s l : ℚ) : hsl2rgb (h + 1) s l = hsl2rgb h s l := by
  simp only [hsl2rgb, Int.fract_add_one]

theorem fsLoop_break_index_pos (c : ℚ × ℚ) (N m : Int)
    (hr : (fsLoop c N 1 (0, 0)).1 = some m) : 1 ≤ m := by
  obtain ⟨n, h1, -⟩ := (fsLoop_spec c N _ 1 (0, 0) le_rfl).1 m hr
  omega

theorem fsColor_same_of_period (c1 c2 : ℚ × ℚ) (N nColors i : Int) (sh : ℚ)
    (hn : nColors ≠ 0)
    (hr1 : (fsLoop c1 N 1 (0, 0)).1 = some i)
    (hr2 : (fsLoop c2 N 1 (0, 0)).1 = some (i + nColors)) :
    fsColor c1 N nColors sh = fsColor c2 N nColors sh ∧
      (fsColor c1 N nColors sh).isSome = true := by
  have hi := fsLoop_break_index_pos c1 N i hr1
  have hj := fsLoop_break_index_pos c2 N (i + nColors) hr2
  have hn0 : (nColors : ℚ) ≠ 0 := by exact_mod_cast hn
  have hiq : (1 : ℚ) ≤ i := by exact_mod_cast hi
  have hjq : (1 : ℚ) ≤ (i : ℚ) + nColors := by exact_mod_cast hj
  have e : ((i : ℚ) + nColors) / nColors = i / nColors + 1 := by field_simp
  have h1 : fsColor c1 N nColors sh =
      if (i : ℚ) / nColors > 0 then
        some ((hsl2rgb (sh + i / nColors) 1 (1 / 2)).1,
          (hsl2rgb (sh + i / nColors) 1 (1 / 2)).2.1,
          (hsl2rgb (sh + i / nColors) 1 (1 / 2)).2.2, 1)
      else some (0, 0, 0, 0) := by
    simp only [fsColor, hr1]
    simp [FVal.ofInt, hn0]
  have h2 : fsColor c2 N nColors sh =
      if (i : ℚ) / nColors + 1 > 0 then
        some ((hsl2rgb (sh + i / nColors) 1 (1 / 2)).1,
          (hsl2rgb (sh + i / nColors) 1 (1 / 2)).2.1,
          (hsl2rgb (sh + i / nColors) 1 (1 / 2)).2.2, 1)
      else some (0, 0, 0, 0) := by
    have ep : ∀ l : ℚ, hsl2rgb (sh + ((i : ℚ) / nColors + 1)) 1 l
        = hsl2rgb (sh + i / nColors) 1 l := by
      intro l
      rw [← add_assoc]; exact hsl2rgb_add_one _ _ _
    simp only [fsColor, hr2]
    simp [FVal.ofInt, hn0, e, ep]
  rw [h1, h2]
  rcases lt_or_gt_of_ne hn0 with hneg | hpos
  · have a1 : ¬ (i : ℚ) / nColors > 0 := by
      have := div_neg_of_pos_of_neg (lt_of_lt_of_le zero_lt_one hiq) hneg
      linarith
    have a2 : ¬ (i : ℚ) / nColors + 1 > 0 := by
      rw [← e]
      have := div_neg_of_pos_of_neg (lt_of_lt_of_le zero_lt_one hjq) hneg
      linarith
    rw [if_neg a1, if_neg a2]
    exact ⟨rfl, rfl⟩
  · have a1 : (i : ℚ) / nColors > 0 := div_pos (lt_of_lt_of_le zero_lt_one hiq) hpos
    have a2 : (i : ℚ) / nColors + 1 > 0 := by linarith
    rw [if_pos a1, if_pos a2]
    exact ⟨rfl, rfl⟩

/-- C30: for every hue `h` and every saturation `s` and lightness `l` in
[0, 1], each component of `hsl2rgb(h, s, l)` lies in [0, 1], and
`hsl2rgb(h + 1, s, l) = hsl2rgb(h, s, l)`; consequently two pixels of one
record (finite plane points and shift, `nColors` not 0) whose loops break at
`i` and at `i + nColors` get the same fragment colour. -/
theorem hsl2rgb_cube_and_period (h s l : ℚ)
    (hs0 : 0 ≤ s) (hs1 : s ≤ 1) (hl0 : 0 ≤ l) (hl1 : l ≤ 1) :
    (0 ≤ (hsl2rgb h s l).1 ∧ (hsl2rgb h s l).1 ≤ 1) ∧
    (0 ≤ (hsl2rgb h s l).2.1 ∧ (hsl2rgb h s l).2.1 ≤ 1) ∧
    (0 ≤ (hsl2rgb h s l).2.2 ∧ (hsl2rgb h s l).2.2 ≤ 1) ∧
    hsl2rgb (h + 1) s l = hsl2rgb h s l ∧
    (∀ (sd : ShaderData) (px1 py1 px2 py2 cx1 cy1 cx2 cy2 sh : ℚ) (i : Int),
      fsC sd (.fin px1) (.fin py1) = (.fin cx1, .fin cy1) →
      fsC sd (.fin px2) (.fin py2) = (.fin cx2, .fin cy2) →
      sd.shift = .fin sh → sd.nColors ≠ 0 →
      (fsLoop (cx1, cy1) sd.iterations 1 (0, 0)).1 = some i →
      (fsLoop (cx2, cy2) sd.iterations 1 (0, 0)).1 = some (i + sd.nColors) →
      fs sd px1 py1 = fs sd px2 py2 ∧ (fs sd px1 py1).isSome = true) := by
  refine ⟨?_, ?_, ?_, hsl2rgb_add_one h s l, ?_⟩
  · exact hsl_component_bounds _ s l (clamp01_bounds _).1 (clamp01_bounds _).2
      hs0 hs1 hl0 hl1
  · exact hsl_component_bounds _ s l (clamp01_bounds _).1 (clamp01_bounds _).2
      hs0 hs1 hl0 hl1
  · exact hsl_component_bounds _ s l (clamp01_bounds _).1 (clamp01_bounds _).2
      hs0 hs1 hl0 hl1
  · intro sd px1 py1 px2 py2 cx1 cy1 cx2 cy2 sh i hc1 hc2 hsh hn hr1 hr2
    have e1 : fs sd px1 py1 = fsColor (cx1, cy1) sd.iterations sd.nColors sh := by
      simp only [fs, hc1, hsh]
    have e2 : fs sd px2 py2 = fsColor (cx2, cy2) sd.iterations sd.nColors sh := by
      simp only [fs, hc2, hsh]
    rw [e1, e2]
    exact fsColor_same_of_period _ _ _ _ i sh hn hr1 hr2

/-- Witness for C30: hue 7/3 at full saturation and lightness 1/2, and the
default record with `nColors = 2`, where pixel (0, 0) (plane point
(-2.25, -1.5)) escapes at `i = 2` and pixel (512, 256) (plane point (0.75, 0))
at `i = 4`. -/
theorem hsl2rgb_cube_and_period_witness :
    ((0 ≤ (hsl2rgb (7 / 3) 1 (1 / 2)).1 ∧ (hsl2rgb (7 / 3) 1 (1 / 2)).1 ≤ 1) ∧
      hsl2rgb (7 / 3 + 1) 1 (1 / 2) = hsl2rgb (7 / 3) 1 (1 / 2)) ∧
    fs { shaderData with nColors := 2 } 0 0
      = fs { shaderData with nColors := 2 } 512 256 := by
  have h := hsl2rgb_cube_and_period (7 / 3) 1 (1 / 2)
    (by norm_num) (by norm_num) (by norm_num) (by norm_num)
  refine ⟨⟨h.1, h.2.2.2.1⟩, ?_⟩
  refine (h.2.2.2.2 { shaderData with nColors := 2 } 0 0 512 256
    (-9 / 4) (-3 / 2) (3 / 4) 0 0 2 ?_ ?_ rfl (by decide) ?_ ?_).1
  · norm_num [fsC, fsPlane, shaderData, initialWindowWidth, initialWindowHeight]
  · norm_num [fsC, fsPlane, shaderData, initialWindowWidth, initialWindowHeight]
  · show (fsLoop (-9 / 4, -3 / 2) 256 1 (0, 0)).1 = some 2
    rw [fsLoop]; norm_num [fsStep, dot2]
    rw [fsLoop]; norm_num [fsStep, dot2]
  · show (fsLoop (3 / 4, 0) 256 1 (0, 0)).1 = some (2 + 2)
    rw [fsLoop]; norm_num [fsStep, dot2]
    rw [fsLoop]; norm_num [fsStep, dot2]
    rw [fsLoop]; norm_num [fsStep, dot2]
    rw [fsLoop]; norm_num [fsStep, dot2]

end Mandel
